import Mathlib

/-! SDL Wayland data manager (`SDL_waylanddatamanager.c`)

A shallow embedding of the clipboard / selection data manager:

* the mime store (`mime_data_list_find`, `mime_data_list_add`, `mime_data_list_free`),
* the pipe transport (`write_pipe`, `read_pipe`) and its two loops,
* the data source accessors (`Wayland_data_source_send`, `Wayland_data_source_get_data`),
* the selection device (`Wayland_data_device_set_selection`,
  `Wayland_data_device_clear_selection`, `Wayland_data_device_set_serial`) and sequences
  of operations on it,
* the data offer (`Wayland_data_offer_add_mime`, `Wayland_data_offer_receive`).

Conventions of the embedding.

* Byte buffers live in a `Heap` of blocks; a `void *` into it is a `Ptr` (a block address),
  `NULL` is `none`.  `SDL_malloc` hands out a block that no earlier pointer names, and
  `SDL_free` kills the block.
* `size_t` values are sizes of blocks that exist in memory (below `SSIZE_MAX`), so they
  are `Nat` and no arithmetic on them wraps; `ssize_t` and `int` results are `Int`.
  `SDL_SetError` and `SDL_OutOfMemory` return `-1`.
* The operating system and the allocator are oracles: every function that polls, reads,
  writes or allocates takes the outcome of these calls from its arguments.
* Labels (`char *mime_type`) are `String`s; an entry whose label could not be allocated
  has label `none`.  The C code dereferences such a label when it compares or offers it;
  the functions here are total (the label matches nothing), and the theorems about lookups
  and offers are stated for stores whose entries are `Labelled`.
* Source and device objects are addressed through a `World`; releasing a source is
  recorded in the calls of the world and leaves the bytes of the object where they are
  until the function returns.  Between the operations of a sequence (`run_ops`) the memory
  of every released source is taken over by other content (`World.scrub`).
-/

namespace Wayland

/-! ## Bytes and the heap of byte buffers -/

/-- A byte (`Uint8`). -/
abbrev Uint8 := Fin 256

/-- The address of a heap block. -/
abbrev Ptr := Nat

/-- The heap of byte buffers: block `p` is `blocks[p]`, and `none` once it is freed. -/
structure Heap where
  blocks : List (Option (List Uint8))
deriving DecidableEq, Repr

namespace Heap

/-- The bytes of the live block at `p`, `none` when `p` names no live block. -/
def read (h : Heap) (p : Ptr) : Option (List Uint8) :=
  (h.blocks[p]?).join

/-- The allocator (`SDL_malloc`) on success: a fresh block of `n` bytes whose content is
not initialised (`junk`); its address is one no earlier block has. -/
def malloc (h : Heap) (n : Nat) (junk : Uint8) : Ptr × Heap :=
  (h.blocks.length, { blocks := h.blocks ++ [some (List.replicate n junk)] })

/-- The C call `SDL_free(p)`. -/
def free (h : Heap) (p : Ptr) : Heap :=
  { blocks := h.blocks.set p none }

/-- Overwrite the bytes of a block from offset `off` on: what `memcpy(p + off, src, |src|)`
does to a block that is long enough. -/
def overwrite (block : List Uint8) (off : Nat) (src : List Uint8) : List Uint8 :=
  block.take off ++ src ++ block.drop (off + src.length)

/-- The C call `SDL_memcpy((Uint8 *)p + off, src, |src|)` on the live block `p`. -/
def memcpy (h : Heap) (p : Ptr) (off : Nat) (src : List Uint8) : Heap :=
  match h.read p with
  | some block => { blocks := h.blocks.set p (some (overwrite block off src)) }
  | none => h

/-- The allocator (`SDL_realloc`) on success: the content of block `p`, cut or padded with
uninitialised bytes to `n` bytes, moves into a fresh block and `p` is freed. -/
def realloc (h : Heap) (p : Ptr) (n : Nat) (junk : Uint8) : Ptr × Heap :=
  let old := (h.read p).getD []
  let (q, h1) := h.malloc n junk
  (q, (h1.memcpy q 0 (old.take n)).free p)

end Heap

/-! ## The mime store -/

/-- The C struct `SDL_MimeDataList` (fields as the code uses them), one entry of a store:
`mime_type` is the label (`NULL` when its allocation failed), `data` the payload block,
`length` its size. -/
structure SDL_MimeDataList where
  mime_type : Option String
  data : Option Ptr
  length : Nat
deriving DecidableEq, Repr

/-- A store is the `wl_list` of its entries, in the order `wl_list_for_each` visits them. -/
abbrev MimeList := List SDL_MimeDataList

/-- The outcome of the allocations of one `mime_data_list_add` call. -/
structure Alloc where
  /-- The result of `SDL_malloc(length)` for the payload copy is not `NULL`. -/
  buffer : Bool
  /-- The result of `SDL_calloc(1, sizeof(*mime_data))` is not `NULL`. -/
  entry : Bool
  /-- The result of `SDL_malloc(mime_type_length)` for the label is not `NULL`. -/
  label : Bool
  /-- The content of memory that `SDL_malloc` returns. -/
  junk : Uint8
deriving DecidableEq, Repr

/-- Modelled from the spec: `SDL_OutOfMemory` is not among the sources; it reports the
allocation failure and returns the error status, `-1`. -/
def SDL_OutOfMemory : Int := -1

/-- Modelled from the spec: the message that `SDL_OutOfMemory` (not among the sources)
leaves in the SDL error state. -/
def SDL_ENOMEM : String := "Out of memory"

/-- The C function `mime_data_list_find`: the position of the first entry whose label equals
`mime_type` (`SDL_strcmp(...) == 0`), `none` for `NULL`.  An entry without a label
matches nothing. -/
def mime_data_list_find : MimeList → String → Option Nat
  | [], _ => none
  | mime_list :: rest, mime_type =>
    if mime_list.mime_type = some mime_type then some 0
    else (mime_data_list_find rest mime_type).map (· + 1)

/-- The assignments `mime_data->data = internal_buffer; mime_data->length = length` on the
entry at position `i`. -/
def set_payload : MimeList → Nat → Ptr → Nat → MimeList
  | [], _, _, _ => []
  | e :: rest, 0, p, n => { e with data := some p, length := n } :: rest
  | e :: rest, i + 1, p, n => e :: set_payload rest i p n

/-- The C function `mime_data_list_add`.  `buffer` is the caller's block, of which `length`
bytes are copied.  The result is the status, the store and the heap.  A new entry is linked
by `wl_list_insert(list, &mime_data->link)`, that is right after the head of the list: it
becomes the first entry that `wl_list_for_each` visits. -/
def mime_data_list_add (a : Alloc) (h : Heap) (list : MimeList) (mime_type : String)
    (buffer : Option Ptr) (length : Nat) : Int × MimeList × Heap :=
  if buffer.isSome && !a.buffer then (SDL_OutOfMemory, list, h) else
  -- internal_buffer = SDL_malloc(length); SDL_memcpy(internal_buffer, buffer, length)
  let (internal_buffer, h1) : Option Ptr × Heap :=
    match buffer with
    | some b =>
      let (q, hq) := h.malloc length a.junk
      (some q, hq.memcpy q 0 (((h.read b).getD []).take length))
    | none => (none, h)
  -- mime_data = mime_data_list_find(list, mime_type), and the new entry when there is none
  let (status, list1, mime_data) : Int × MimeList × Option Nat :=
    match mime_data_list_find list mime_type with
    | some i => (0, list, some i)
    | none =>
      if !a.entry then (SDL_OutOfMemory, list, none)
      else if !a.label then
        (SDL_OutOfMemory, { mime_type := none, data := none, length := 0 } :: list, some 0)
      else (0, { mime_type := some mime_type, data := none, length := 0 } :: list, some 0)
  match mime_data, internal_buffer with
  | some i, some q =>
    if length > 0 then
      let h2 := match (list1[i]?).bind (·.data) with
        | some old => h1.free old
        | none => h1
      (status, set_payload list1 i q length, h2)
    else (status, list1, h1.free q)
  | _, some q => (status, list1, h1.free q)
  | _, none => (status, list1, h1)

/-- Every entry of the store has its label: no label allocation failed.  (Comparing or
offering the label of an entry that has none dereferences `NULL`.) -/
def Labelled (list : MimeList) : Prop :=
  ∀ e ∈ list, e.mime_type ≠ none

/-- Every payload pointer of the store names a live block of the heap. -/
def PayloadsInHeap (h : Heap) (list : MimeList) : Prop :=
  ∀ e ∈ list, ∀ p, e.data = some p → ∃ bytes, h.read p = some bytes

/-! ## Descriptors -/

/-- The constant `PIPE_BUF` of `<limits.h>` (Linux). -/
def PIPE_BUF : Nat := 4096

/-- The value of `(size_t)-1`. -/
def SIZE_MAX : Nat := 2 ^ 64 - 1

/-- What was done to a descriptor: a readiness poll (`SDL_IOReady`), a `write` with the
bytes offered and its result, a `read` with its result and the bytes delivered, `close`. -/
inductive FdEvent where
  | poll
  | write (offered : List Uint8) (result : Int)
  | read (result : Int) (temp : List Uint8)
  | close
deriving DecidableEq, Repr

/-- A descriptor: how its peer behaves, and what has been done to it so far.
`ready i` is the result of poll number `i`; `wr i` says how call number `i`, a write, goes
(negative: it fails, otherwise the number of bytes the pipe can take); `rd i` says how call
number `i`, a read, goes (`none`: it fails, otherwise the bytes it delivers, `[]` at end
of file).  `polls` and `calls` count the polls and the calls made; `trace` lists what was
done, oldest first. -/
structure Fd where
  ready : Nat → Int
  wr : Nat → Int
  rd : Nat → Option (List Uint8)
  polls : Nat
  calls : Nat
  trace : List FdEvent

/-- The SDL error state: the message of the last `SDL_SetError`, if any. -/
abbrev SDL_Error := Option String

/-- Modelled from the spec: `SDL_SetError` is not among the sources; it records the message
and returns the error status, `-1`. -/
def SDL_SetError (msg : String) : Int × SDL_Error := (-1, some msg)

namespace Fd

/-- Modelled from the spec: `SDL_IOReady` is not among the sources; it is the bounded-time
readiness poll of the descriptor, positive when ready, `0` on timeout, negative on error. -/
def SDL_IOReady (fd : Fd) : Int × Fd :=
  (fd.ready fd.polls, { fd with polls := fd.polls + 1, trace := fd.trace ++ [FdEvent.poll] })

/-- The result of a `write` of `offered` bytes when the peer behaves as `r` says: `-1` when
it fails, otherwise the number of bytes taken, at most `offered`. -/
def write_result (r : Int) (offered : Nat) : Int :=
  if r < 0 then -1 else min r offered

/-- The system call `write(fd, bytes, count)`. -/
def write (fd : Fd) (bytes : List Uint8) (count : Nat) : Int × Fd :=
  let offered := bytes.take count
  let result := write_result (fd.wr fd.calls) offered.length
  (result, { fd with calls := fd.calls + 1,
                     trace := fd.trace ++ [FdEvent.write offered result] })

/-- The system call `read(fd, temp, count)`: `-1` on failure, otherwise the number of bytes
put in `temp`, at most `count`, `0` at end of file. -/
def read (fd : Fd) (count : Nat) : Int × List Uint8 × Fd :=
  match fd.rd fd.calls with
  | none =>
    (-1, [], { fd with calls := fd.calls + 1, trace := fd.trace ++ [FdEvent.read (-1) []] })
  | some waiting =>
    let temp := waiting.take count
    (temp.length, temp, { fd with calls := fd.calls + 1,
                                  trace := fd.trace ++ [FdEvent.read temp.length temp] })

/-- The system call `close(fd)`. -/
def close (fd : Fd) : Fd :=
  { fd with trace := fd.trace ++ [FdEvent.close] }

end Fd

/-! ## The pipe transport -/

/-- The C function `write_pipe(fd, buffer, total_length, &pos)`: the result, the new `*pos`,
the descriptor and the error state.  The signal mask calls have no effect on these. -/
def write_pipe (fd : Fd) (err : SDL_Error) (h : Heap) (buffer : Option Ptr)
    (total_length : Nat) (pos : Nat) : Int × Nat × Fd × SDL_Error :=
  let length : Int := (total_length : Int) - (pos : Int)
  let (ready, fd1) := fd.SDL_IOReady
  if ready = 0 then
    ((SDL_SetError "Pipe timeout").1, pos, fd1, (SDL_SetError "Pipe timeout").2)
  else if ready < 0 then
    ((SDL_SetError "Pipe select error").1, pos, fd1, (SDL_SetError "Pipe select error").2)
  else
    let (bytes_written, fd2) : Int × Fd :=
      if length > 0 then
        fd1.write (((buffer.bind h.read).getD []).drop pos) (min length (PIPE_BUF : Int)).toNat
      else (0, fd1)
    if bytes_written > 0 then (bytes_written, pos + bytes_written.toNat, fd2, err)
    else (bytes_written, pos, fd2, err)

/-- The outcome of the allocation in `read_pipe`: whether `SDL_malloc` / `SDL_realloc`
succeeds, and the content of the memory it returns. -/
structure ReadAlloc where
  ok : Bool
  junk : Uint8
deriving DecidableEq, Repr

/-- The C function `read_pipe(fd, &buffer, &total_length, null_terminate)`: the result, the
new `*buffer` and `*total_length`, the descriptor, the heap and the error state. -/
def read_pipe (a : ReadAlloc) (fd : Fd) (err : SDL_Error) (h : Heap) (buffer : Option Ptr)
    (total_length : Nat) (null_terminate : Bool) :
    Int × Option Ptr × Nat × Fd × Heap × SDL_Error :=
  let (ready, fd1) := fd.SDL_IOReady
  let (bytes_read, temp, fd2, err1) : Int × List Uint8 × Fd × SDL_Error :=
    if ready = 0 then
      ((SDL_SetError "Pipe timeout").1, [], fd1, (SDL_SetError "Pipe timeout").2)
    else if ready < 0 then
      ((SDL_SetError "Pipe select error").1, [], fd1, (SDL_SetError "Pipe select error").2)
    else
      let (r, t, f) := fd1.read PIPE_BUF
      (r, t, f, err)
  if bytes_read > 0 then
    let pos := total_length
    let total_length1 := total_length + bytes_read.toNat
    let new_buffer_length := if null_terminate then total_length1 + 1 else total_length1
    if !a.ok then
      (SDL_OutOfMemory, buffer, total_length1, fd2, h, some SDL_ENOMEM)
    else
      let (output_buffer, h1) :=
        match buffer with
        | none => h.malloc new_buffer_length a.junk
        | some b => h.realloc b new_buffer_length a.junk
      let h2 := h1.memcpy output_buffer pos (temp.take bytes_read.toNat)
      let h3 := if null_terminate then h2.memcpy output_buffer (new_buffer_length - 1) [0]
                else h2
      (bytes_read, some output_buffer, total_length1, fd2, h3, err1)
  else (bytes_read, buffer, total_length, fd2, h, err1)

/-- The bytes that a sequence of descriptor events handed to the descriptor: of each write
that took bytes, the bytes it took, in order. -/
def accepted : List FdEvent → List Uint8
  | [] => []
  | FdEvent.write offered result :: rest =>
    (if result > 0 then offered.take result.toNat else []) ++ accepted rest
  | _ :: rest => accepted rest

/-- Every write among the events was offered at most `PIPE_BUF` bytes. -/
def writes_bounded (evs : List FdEvent) : Prop :=
  ∀ offered result, FdEvent.write offered result ∈ evs → offered.length ≤ PIPE_BUF

/-- The bytes after the payload in a received buffer: one zero byte when null termination
is asked for. -/
def terminator (null_terminate : Bool) : List Uint8 :=
  if null_terminate then [0] else []

/-- The state of the receive loop after the bytes `data` were read: `*length` is their
number, and `*buffer` is `NULL` when there are none, else a block that holds them followed
by the terminator. -/
def Received (h : Heap) (buffer : Option Ptr) (length : Nat) (null_terminate : Bool)
    (data : List Uint8) : Prop :=
  length = data.length ∧
    match buffer with
    | none => data = []
    | some q => h.read q = some (data ++ terminator null_terminate)

/-! ## Label conversion -/

/-- The table `mime_conversion_list`; `TEXT_MIME`, the canonical text label, is a macro of
`SDL_waylanddatamanager.h`, which is not among the sources: it is a parameter. -/
def mime_conversion_list (TEXT_MIME : String) : List (String × String) :=
  [("text/plain", TEXT_MIME), ("TEXT", TEXT_MIME), ("UTF8_STRING", TEXT_MIME),
   ("STRING", TEXT_MIME)]

/-- The C function `Wayland_convert_mime_type`: the second column of the first row whose
first column is `mime_type`, or `mime_type` itself. -/
def Wayland_convert_mime_type (TEXT_MIME : String) (mime_type : String) : String :=
  match (mime_conversion_list TEXT_MIME).find? (fun row => row.1 = mime_type) with
  | some row => row.2
  | none => mime_type

/-! ## Data sources -/

/-- The C struct `SDL_WaylandDataSource` (fields as the code uses them): the protocol
handle, the store, and the back-reference to the device (an address of the device
table). -/
structure SDL_WaylandDataSource where
  source : Option Nat
  mimes : MimeList
  data_device : Option Nat
deriving DecidableEq, Repr

/-- The loop `while (write_pipe(fd, data, length, &written_bytes) > 0) {}` of
`Wayland_source_send`, run for at most `fuel` calls: `none` when the fuel runs out. -/
def Wayland_source_send_loop : Nat → Fd → SDL_Error → Heap → Option Ptr → Nat → Nat →
    Option (Nat × Fd × SDL_Error)
  | 0, _, _, _, _, _, _ => none
  | fuel + 1, fd, err, h, data, length, written_bytes =>
    let (r, written_bytes1, fd1, err1) := write_pipe fd err h data length written_bytes
    if r > 0 then Wayland_source_send_loop fuel fd1 err1 h data length written_bytes1
    else some (written_bytes1, fd1, err1)

/-- The C function `Wayland_source_send(mime_data, mime_type, fd)`; `mime_data` is the
entry pointed to, `none` for `NULL`. -/
def Wayland_source_send (fuel : Nat) (fd : Fd) (err : SDL_Error) (h : Heap)
    (mime_data : Option SDL_MimeDataList) (_mime_type : String) :
    Option (Int × Fd × SDL_Error) :=
  match mime_data.bind (·.data) with
  | none => some ((SDL_SetError "Invalid mime type").1, fd.close,
                  (SDL_SetError "Invalid mime type").2)
  | some data =>
    match Wayland_source_send_loop fuel fd err h (some data)
        ((mime_data.map (·.length)).getD 0) 0 with
    | none => none
    | some (written_bytes, fd1, err1) => some ((written_bytes : Int), fd1.close, err1)

/-- The C function `Wayland_data_source_send(source, mime_type, fd)`. -/
def Wayland_data_source_send (TEXT_MIME : String) (fuel : Nat) (fd : Fd) (err : SDL_Error)
    (h : Heap) (source : SDL_WaylandDataSource) (mime_type : String) :
    Option (Int × Fd × SDL_Error) :=
  let mime_type := Wayland_convert_mime_type TEXT_MIME mime_type
  let mime_data := (mime_data_list_find source.mimes mime_type).bind (source.mimes[·]?)
  Wayland_source_send fuel fd err h mime_data mime_type

/-- The C function `Wayland_source_get_data(mime_data, &length, null_terminate)`: the
buffer returned, the new `*length`, the heap and the error state.  `a` is the outcome of
its `SDL_malloc`. -/
def Wayland_source_get_data (a : ReadAlloc) (h : Heap) (err : SDL_Error)
    (mime_data : Option SDL_MimeDataList) (length : Nat) (null_terminate : Bool) :
    Option Ptr × Nat × Heap × SDL_Error :=
  match mime_data with
  | none => (none, length, h, err)
  | some md =>
    if md.length > 0 then
      let buffer_length := if null_terminate then md.length + 1 else md.length
      if !a.ok then (none, SIZE_MAX, h, some SDL_ENOMEM)
      else
        let (buffer, h1) := h.malloc buffer_length a.junk
        let h2 := h1.memcpy buffer 0 (((md.data.bind h.read).getD []).take md.length)
        let h3 := if null_terminate then h2.memcpy buffer md.length [0] else h2
        (some buffer, md.length, h3, err)
    else (none, length, h, err)

/-- The C function `Wayland_data_source_get_data(source, &length, mime_type,
null_terminate)`; `source` is the source pointed to, `none` for `NULL`. -/
def Wayland_data_source_get_data (a : ReadAlloc) (h : Heap) (err : SDL_Error)
    (source : Option SDL_WaylandDataSource) (mime_type : String) (null_terminate : Bool) :
    Option Ptr × Nat × Heap × SDL_Error :=
  match source with
  | none => (none, 0, h, (SDL_SetError "Invalid data source").2)
  | some src =>
    let mime_data := (mime_data_list_find src.mimes mime_type).bind (src.mimes[·]?)
    Wayland_source_get_data a h err mime_data 0 null_terminate

/-- The loop `while (read_pipe(pipefd[0], &buffer, length, null_terminate) > 0) {}` of
`Wayland_data_offer_receive`, run for at most `fuel` calls: `none` when the fuel runs out.
`alloc i` is the outcome of the allocation that follows call number `i` on the
descriptor. -/
def Wayland_data_offer_receive_loop (alloc : Nat → ReadAlloc) : Nat → Fd → SDL_Error → Heap →
    Option Ptr → Nat → Bool → Option (Option Ptr × Nat × Fd × Heap × SDL_Error)
  | 0, _, _, _, _, _, _ => none
  | fuel + 1, fd, err, h, buffer, length, null_terminate =>
    let (r, buffer1, length1, fd1, h1, err1) :=
      read_pipe (alloc fd.calls) fd err h buffer length null_terminate
    if r > 0 then
      Wayland_data_offer_receive_loop alloc fuel fd1 err1 h1 buffer1 length1 null_terminate
    else some (buffer1, length1, fd1, h1, err1)

/-! ## The selection device -/

/-- The C struct `SDL_WaylandDataDevice` (fields as the code uses them): the protocol
handle, the stored serial and the active source (an address of the source table). -/
structure SDL_WaylandDataDevice where
  data_device : Option Nat
  selection_serial : Nat
  selection_source : Option Nat
deriving DecidableEq, Repr

/-- The calls made to the protocol layer, and the release of a source object. -/
inductive Call where
  | wl_data_source_offer (source : Option Nat) (mime_type : Option String)
  | wl_data_device_set_selection (data_device : Option Nat) (source : Option Nat)
      (serial : Nat)
  | wl_data_source_destroy (source : Option Nat)
  | SDL_free_source (source : Nat)
deriving DecidableEq, Repr

/-- The memory the selection functions work on: the source objects and the device objects
by address, the heap of payload blocks, the calls made so far (oldest first) and the SDL
error state.  The memory of a released source keeps its content; the release is in
`calls`. -/
structure World where
  sources : Nat → SDL_WaylandDataSource
  devices : Nat → SDL_WaylandDataDevice
  heap : Heap
  calls : List Call
  error : SDL_Error

namespace World

/-- Store `dev` in the device object at address `d`. -/
def set_device (w : World) (d : Nat) (dev : SDL_WaylandDataDevice) : World :=
  { w with devices := Function.update w.devices d dev }

/-- Store `src` in the source object at address `s`. -/
def set_source (w : World) (s : Nat) (src : SDL_WaylandDataSource) : World :=
  { w with sources := Function.update w.sources s src }

/-- Record calls, in the order made. -/
def call (w : World) (cs : List Call) : World :=
  { w with calls := w.calls ++ cs }

/-- Record the message of `SDL_SetError`. -/
def set_error (w : World) (msg : String) : World :=
  { w with error := (SDL_SetError msg).2 }

end World

/-- The C function `mime_data_list_free`: every payload block of the store is freed (labels
and entries are part of the store itself). -/
def mime_data_list_free (h : Heap) : MimeList → Heap
  | [] => h
  | mime_data :: next =>
    mime_data_list_free (match mime_data.data with
      | some p => h.free p
      | none => h) next

/-- The first statement of `Wayland_data_source_destroy`: when the device the source refers
back to has this source as its active source, that pointer is cleared. -/
def clear_back_reference (w : World) (s : Nat) : World :=
  match (w.sources s).data_device with
  | some d =>
    if (w.devices d).selection_source = some s then
      w.set_device d { (w.devices d) with selection_source := none }
    else w
  | none => w

/-- The C function `Wayland_data_source_destroy(source)`. -/
def Wayland_data_source_destroy (w : World) (source : Option Nat) : World :=
  match source with
  | none => w
  | some s =>
    let w1 := clear_back_reference w s
    let w2 := w1.call [Call.wl_data_source_destroy (w1.sources s).source]
    let w3 : World := { w2 with heap := mime_data_list_free w2.heap (w2.sources s).mimes }
    w3.call [Call.SDL_free_source s]

/-- The C function `Wayland_data_device_clear_selection(data_device)`. -/
def Wayland_data_device_clear_selection (w : World) (data_device : Option Nat) :
    Int × World :=
  match data_device with
  | none => ((SDL_SetError "Invalid Data Device").1, w.set_error "Invalid Data Device")
  | some d =>
    if (w.devices d).data_device = none then
      ((SDL_SetError "Invalid Data Device").1, w.set_error "Invalid Data Device")
    else
      match (w.devices d).selection_source with
      | some s =>
        let w1 := w.call [Call.wl_data_device_set_selection (w.devices d).data_device none 0]
        let w2 := Wayland_data_source_destroy w1 (some s)
        (0, w2.set_device d { (w2.devices d) with selection_source := none })
      | none => (0, w)

/-- The offers of the loop over `source->mimes` in `Wayland_data_device_set_selection`:
for each entry its own label, then the first column of every row of the table whose second
column is the label. -/
def offer_calls (TEXT_MIME : String) (source : Option Nat) : MimeList → List Call
  | [] => []
  | mime_data :: rest =>
    Call.wl_data_source_offer source mime_data.mime_type ::
      (((mime_conversion_list TEXT_MIME).filter
          (fun row => some row.2 = mime_data.mime_type)).map
        (fun row => Call.wl_data_source_offer source (some row.1)) ++
      offer_calls TEXT_MIME source rest)

/-- The C function `Wayland_data_device_set_selection(data_device, source)`. -/
def Wayland_data_device_set_selection (TEXT_MIME : String) (w : World)
    (data_device : Option Nat) (source : Option Nat) : Int × World :=
  match data_device, source with
  | none, _ => ((SDL_SetError "Invalid Data Device").1, w.set_error "Invalid Data Device")
  | some _, none => ((SDL_SetError "Invalid source").1, w.set_error "Invalid source")
  | some d, some s =>
    let w1 := w.call (offer_calls TEXT_MIME (w.sources s).source (w.sources s).mimes)
    let num_offers := (w.sources s).mimes.length
    if num_offers = 0 then
      let w2 := (Wayland_data_device_clear_selection w1 (some d)).2
      ((SDL_SetError "No mime data").1, w2.set_error "No mime data")
    else
      let w2 : World :=
        if (w1.devices d).selection_serial ≠ 0 then
          w1.call [Call.wl_data_device_set_selection (w1.devices d).data_device
            (w1.sources s).source (w1.devices d).selection_serial]
        else w1
      let w3 := Wayland_data_source_destroy w2 (w2.devices d).selection_source
      let w4 := w3.set_device d { (w3.devices d) with selection_source := some s }
      (0, w4.set_source s { (w4.sources s) with data_device := some d })

/-- The C function `Wayland_data_device_set_serial(data_device, serial)`. -/
def Wayland_data_device_set_serial (w : World) (data_device : Option Nat) (serial : Nat) :
    Int × World :=
  match data_device with
  | none => (-1, w)
  | some d =>
    let w1 : World :=
      match (w.devices d).selection_source with
      | some s =>
        if (w.devices d).selection_serial = 0 then
          w.call [Call.wl_data_device_set_selection (w.devices d).data_device
            (w.sources s).source (w.devices d).selection_serial]
        else w
      | none => w
    (0, w1.set_device d { (w1.devices d) with selection_serial := serial })

/-- The set-selection call of `Wayland_data_device_set_selection` for a store that is not
empty: made when the stored serial is not zero. -/
def set_selection_call (w : World) (d s : Nat) : List Call :=
  if (w.devices d).selection_serial ≠ 0 then
    [Call.wl_data_device_set_selection (w.devices d).data_device (w.sources s).source
      (w.devices d).selection_serial]
  else []

/-- The calls of `Wayland_data_source_destroy(source)`. -/
def destroy_calls_of (w : World) (source : Option Nat) : List Call :=
  match source with
  | some old => [Call.wl_data_source_destroy (w.sources old).source, Call.SDL_free_source old]
  | none => []

namespace Call

/-- The call is a protocol set-selection call. -/
def is_set_selection : Call → Bool
  | wl_data_device_set_selection _ _ _ => true
  | _ => false

/-- The call is a protocol offer call. -/
def is_offer : Call → Bool
  | wl_data_source_offer _ _ => true
  | _ => false

/-- The call releases a source: its protocol handle or its object. -/
def is_release : Call → Bool
  | wl_data_source_destroy _ => true
  | SDL_free_source _ => true
  | _ => false

end Call

/-- Two calls in a row: `Wayland_data_device_set_selection(device, A)` and then
`Wayland_data_device_set_selection(device, B)`; the result of the second. -/
def set_selection_twice (TEXT_MIME : String) (w : World) (d A B : Nat) : Int × World :=
  Wayland_data_device_set_selection TEXT_MIME
    (Wayland_data_device_set_selection TEXT_MIME w (some d) (some A)).2 (some d) (some B)

/-! ## Example inputs -/

/-- The value of `TEXT_MIME` in the examples. -/
def exampleTextMime : String := "text/plain;charset=utf-8"

/-- An example world.  Source 1 (handle 11) has one entry and refers back to device 0;
source 2 (handle 12) has an empty store; source 3 (handle 13) has two entries.
Device 0 (handle 10, serial 0) has source 1 as its active source; device 1 (handle 20,
serial 5) has no active source; device 2 has no protocol handle and source 1 as its active
source. -/
def exampleWorld : World where
  sources := fun s =>
    if s = 1 then
      { source := some 11
        mimes := [{ mime_type := some "text/plain;charset=utf-8", data := some 0, length := 2 }]
        data_device := some 0 }
    else if s = 3 then
      { source := some 13
        mimes := [{ mime_type := some "image/png", data := some 1, length := 3 },
                  { mime_type := some "text/html", data := none, length := 0 }]
        data_device := none }
    else { source := some 12, mimes := [], data_device := none }
  devices := fun d =>
    if d = 0 then { data_device := some 10, selection_serial := 0, selection_source := some 1 }
    else if d = 1 then { data_device := some 20, selection_serial := 5, selection_source := none }
    else { data_device := none, selection_serial := 0, selection_source := some 1 }
  heap := { blocks := [some [104, 105], some [1, 2, 3]] }
  calls := []
  error := none

/-- An example descriptor: every poll is ready, every write takes all it is offered, every
read fails; nothing has been done to it yet. -/
def exampleFd : Fd where
  ready := fun _ => 1
  wr := fun _ => 4096
  rd := fun _ => none
  polls := 0
  calls := 0
  trace := []

/-- An example descriptor for reading: every poll is ready, the first read delivers the
bytes 1, 2, the second the byte 3, and every later read is at end of file. -/
def exampleReadFd : Fd where
  ready := fun _ => 1
  wr := fun _ => -1
  rd := fun i => if i = 0 then some [1, 2] else if i = 1 then some [3] else some []
  polls := 0
  calls := 0
  trace := []

/-! ## Labels of the alias table, and lookups by label -/

/-- The four alias labels, the first column of `mime_conversion_list`. -/
def alias_labels : List String := ["text/plain", "TEXT", "UTF8_STRING", "STRING"]

/-- The C function `Wayland_data_source_has_mime(source, mime_type)`; `source` is the source
pointed to, `none` for `NULL`. -/
def Wayland_data_source_has_mime (source : Option SDL_WaylandDataSource)
    (mime_type : String) : Bool :=
  match source with
  | none => false
  | some src => (mime_data_list_find src.mimes mime_type).isSome

/-! ## Sequences of additions, and offers -/

/-- One call `mime_data_list_add(list, mime_type, buffer, length)`, with the outcome of its
allocations. -/
structure AddCall where
  alloc : Alloc
  mime_type : String
  buffer : Option Ptr
  length : Nat
deriving DecidableEq, Repr

/-- Every allocation of the call succeeds. -/
def AddCall.allocated (c : AddCall) : Prop :=
  c.alloc.buffer = true ∧ c.alloc.entry = true ∧ c.alloc.label = true

/-- The calls of `mime_data_list_add` made one after the other on a store: the store and
the heap after the last one. -/
def mime_data_list_add_all : Heap → MimeList → List AddCall → MimeList × Heap
  | h, list, [] => (list, h)
  | h, list, c :: rest =>
    mime_data_list_add_all (mime_data_list_add c.alloc h list c.mime_type c.buffer c.length).2.2
      (mime_data_list_add c.alloc h list c.mime_type c.buffer c.length).2.1 rest

/-- The C struct `SDL_WaylandDataOffer` (fields as the code uses them): the protocol handle,
the store of the labels the peer announced, and the device (an address of the device
table). -/
structure SDL_WaylandDataOffer where
  offer : Option Nat
  mimes : MimeList
  data_device : Option Nat
deriving DecidableEq, Repr

/-- The C function `Wayland_data_offer_add_mime(offer, mime_type)`: the status, the offer and
the heap. -/
def Wayland_data_offer_add_mime (a : Alloc) (h : Heap) (offer : SDL_WaylandDataOffer)
    (mime_type : String) : Int × SDL_WaylandDataOffer × Heap :=
  ((mime_data_list_add a h offer.mimes mime_type none 0).1,
   { offer with mimes := (mime_data_list_add a h offer.mimes mime_type none 0).2.1 },
   (mime_data_list_add a h offer.mimes mime_type none 0).2.2)

/-! ## Receiving an offer -/

/-- The calls of `Wayland_data_offer_receive` that are not made on the read end of its
pipe: the protocol request with the handle of the offer and the label (its third argument
is the write end), the flush of the display of the device, and the `close` of the write
end. -/
inductive ReceiveCall where
  | wl_data_offer_receive (offer : Option Nat) (mime_type : String)
  | wl_display_flush (data_device : Nat)
  | close_write_end
deriving DecidableEq, Repr

/-- The C function `Wayland_data_offer_receive(offer, &length, mime_type, null_terminate)`:
the buffer returned, `*length`, the read end of the pipe afterwards (when a pipe was made),
the other calls made, the heap and the error state; `none` when the fuel of the loop runs
out.  `offer` is the offer pointed to, `none` for `NULL`; `pipe` is the outcome of `pipe2`,
`none` when it fails, else the read end of the new pipe. -/
def Wayland_data_offer_receive (alloc : Nat → ReadAlloc) (fuel : Nat) (pipe : Option Fd)
    (err : SDL_Error) (h : Heap) (offer : Option SDL_WaylandDataOffer) (mime_type : String)
    (null_terminate : Bool) :
    Option (Option Ptr × Nat × Option Fd × List ReceiveCall × Heap × SDL_Error) :=
  match offer with
  | none => some (none, 0, none, [], h, (SDL_SetError "Invalid data offer").2)
  | some o =>
    match o.data_device with
    | none => some (none, 0, none, [], h, (SDL_SetError "Data device not initialized").2)
    | some d =>
      match pipe with
      | none => some (none, 0, none, [], h, (SDL_SetError "Could not read pipe").2)
      | some fd =>
        match Wayland_data_offer_receive_loop alloc fuel fd err h none 0 null_terminate with
        | none => none
        | some (buffer, length, fd1, h1, err1) =>
          some (buffer, length, some fd1.close,
            [ReceiveCall.wl_data_offer_receive o.offer mime_type,
              ReceiveCall.wl_display_flush d, ReceiveCall.close_write_end],
            h1, err1)

/-- What the caller of `Wayland_data_offer_receive` gets: the buffer returned, `*length`
and the error state. -/
def receive_outcome
    (r : Option (Option Ptr × Nat × Option Fd × List ReceiveCall × Heap × SDL_Error)) :
    Option (Option Ptr × Nat × SDL_Error) :=
  r.map (fun x => (x.1, x.2.1, x.2.2.2.2.2))

/-- An example descriptor whose peer closes the pipe at once: every poll is ready and
every read is at end of file. -/
def exampleClosedFd : Fd where
  ready := fun _ => 1
  wr := fun _ => -1
  rd := fun _ => some []
  polls := 0
  calls := 0
  trace := []

/-- An example descriptor whose first poll times out. -/
def exampleTimeoutFd : Fd where
  ready := fun _ => 0
  wr := fun _ => -1
  rd := fun _ => some []
  polls := 0
  calls := 0
  trace := []

/-- An example offer: handle 30, no label announced, device 0. -/
def exampleOffer : SDL_WaylandDataOffer where
  offer := some 30
  mimes := []
  data_device := some 0

/-! ## Sequences of operations on a device -/

/-- The device handle and the source handle that a protocol set-selection call names;
`none` for every other call. -/
def Call.selection : Call → Option (Option Nat × Option Nat)
  | Call.wl_data_device_set_selection dev src _ => some (dev, src)
  | _ => none

/-- The device handle and the source handle of the last protocol set-selection call of a
log (oldest call first); `none` when the log has no such call. -/
def last_selection : List Call → Option (Option Nat × Option Nat)
  | [] => none
  | c :: rest =>
    match last_selection rest with
    | some x => some x
    | none => c.selection

/-- An operation on a device: `Wayland_data_device_set_selection` with a source (`none` for
`NULL`), `Wayland_data_device_clear_selection`, `Wayland_data_device_set_serial` with a
serial, or `Wayland_data_source_destroy` of a source. -/
inductive Op where
  | set_selection (source : Option Nat)
  | clear_selection
  | set_serial (serial : Nat)
  | destroy (source : Option Nat)
deriving DecidableEq, Repr

/-- The world after one operation on the device at address `d`. -/
def apply_op (TEXT_MIME : String) (d : Nat) (w : World) : Op → World
  | Op.set_selection source =>
    (Wayland_data_device_set_selection TEXT_MIME w (some d) source).2
  | Op.clear_selection => (Wayland_data_device_clear_selection w (some d)).2
  | Op.set_serial serial => (Wayland_data_device_set_serial w (some d) serial).2
  | Op.destroy source => Wayland_data_source_destroy w source

/-- The world as the next operation finds it.  `SDL_free(source)` gives the memory of a
source object back to the allocator, and what a later read of that memory finds is not
determined by the program: `junk` stands for it, for every source whose release is in the
log. -/
def World.scrub (junk : SDL_WaylandDataSource) (w : World) : World :=
  { w with
    sources := fun s => if Call.SDL_free_source s ∈ w.calls then junk else w.sources s }

/-- The world after a sequence of operations on the device at address `d`, first one
first; between two operations the memory of the released sources is taken over by
`junk`. -/
def run_ops (junk : SDL_WaylandDataSource) (TEXT_MIME : String) (d : Nat) :
    World → List Op → World
  | w, [] => w
  | w, op :: rest => run_ops junk TEXT_MIME d ((apply_op TEXT_MIME d w op).scrub junk) rest

/-- The operation, run on the world `w`, stays within the defined behaviour of C: a source
object it is given is live (its release is not in the log), the store that
`Wayland_data_device_set_selection` offers is labelled, and the source given to
`Wayland_data_device_set_selection` is not the active source of the device (the function
would release it and then store it). -/
def op_defined (d : Nat) (w : World) : Op → Prop
  | Op.set_selection (some s) =>
    Call.SDL_free_source s ∉ w.calls ∧ (w.devices d).selection_source ≠ some s ∧
      Labelled (w.sources s).mimes
  | Op.destroy (some s) => Call.SDL_free_source s ∉ w.calls
  | _ => True

/-- Every operation of the sequence stays within the defined behaviour of C on the world
it is run on. -/
def ops_defined (junk : SDL_WaylandDataSource) (TEXT_MIME : String) (d : Nat) :
    World → List Op → Prop
  | _, [] => True
  | w, op :: rest =>
    op_defined d w op ∧
      ops_defined junk TEXT_MIME d ((apply_op TEXT_MIME d w op).scrub junk) rest

/-- The selection-device invariant for the device at address `d`, with the handles
`dev` of the device and `handle s` of each source `s`: live sources have their handles, the
active source of the device is live and refers back to the device, and when the device has
an active source and a stored serial that is not zero, the last protocol set-selection call
of the log is on the device and names that source. -/
def SelectionInvariant (d : Nat) (dev : Option Nat) (handle : Nat → Option Nat)
    (w : World) : Prop :=
  (w.devices d).data_device = dev ∧
  (∀ s, Call.SDL_free_source s ∉ w.calls → (w.sources s).source = handle s) ∧
  (∀ s, (w.devices d).selection_source = some s →
    Call.SDL_free_source s ∉ w.calls ∧ (w.sources s).data_device = some d) ∧
  ∀ s, (w.devices d).selection_source = some s → (w.devices d).selection_serial ≠ 0 →
    last_selection w.calls = some (dev, handle s)

/-- Example content of released memory: all zero. -/
def exampleJunk : SDL_WaylandDataSource where
  source := none
  mimes := []
  data_device := none

/-- Example content of released memory: the object of another source, with handle 99. -/
def exampleJunkOther : SDL_WaylandDataSource where
  source := some 99
  mimes := []
  data_device := none

/-! ## Filling a source -/

/-- The C function `Wayland_data_source_add_data(source, mime_type, buffer, length)`: the
status, the source with its new store, and the heap. -/
def Wayland_data_source_add_data (a : Alloc) (h : Heap) (source : SDL_WaylandDataSource)
    (mime_type : String) (buffer : Option Ptr) (length : Nat) :
    Int × SDL_WaylandDataSource × Heap :=
  ((mime_data_list_add a h source.mimes mime_type buffer length).1,
    { source with mimes := (mime_data_list_add a h source.mimes mime_type buffer length).2.1 },
    (mime_data_list_add a h source.mimes mime_type buffer length).2.2)

/-- The example world after `Wayland_data_source_add_data(source 2, "text/plain", block 0, 2)`
with every allocation succeeding: source 2 (handle 12) now holds the bytes 104, 105 under
the label "text/plain". -/
def exampleAliasWorld : World :=
  { (exampleWorld.set_source 2
      (Wayland_data_source_add_data { buffer := true, entry := true, label := true, junk := 0 }
        exampleWorld.heap (exampleWorld.sources 2) "text/plain" (some 0) 2).2.1) with
    heap :=
      (Wayland_data_source_add_data { buffer := true, entry := true, label := true, junk := 0 }
        exampleWorld.heap (exampleWorld.sources 2) "text/plain" (some 0) 2).2.2 }

/-- What the caller of `Wayland_data_source_send` gets: the status and the error state. -/
def send_outcome (r : Option (Int × Fd × SDL_Error)) : Option (Int × SDL_Error) :=
  r.map (fun x => (x.1, x.2.2))

/-! ## Allocation failures -/

/-- What `Wayland_data_offer_receive` hands back: the bytes of the buffer returned (`none`
when no buffer is returned) and `*length`. -/
def receive_buffer
    (r : Option (Option Ptr × Nat × Option Fd × List ReceiveCall × Heap × SDL_Error)) :
    Option (Option (List Uint8) × Nat) :=
  r.map (fun x => (x.1.bind x.2.2.2.2.1.read, x.2.1))

/-- Example allocation outcomes for the receive loop: the allocation after the first read
succeeds, every later one fails. -/
def exampleAllocSecondFails : Nat → ReadAlloc :=
  fun i => { ok := decide (i = 0), junk := 0 }

/-- Example allocation outcomes for the receive loop: every allocation fails. -/
def exampleAllocFails : Nat → ReadAlloc :=
  fun _ => { ok := false, junk := 0 }

/-! # Theorems -/

/-! ## Heap lemmas -/

theorem Heap.read_lt (h : Heap) (p : Ptr) (bs : List Uint8) (hr : h.read p = some bs) :
    p < h.blocks.length := by
  unfold Heap.read at hr
  by_contra hlt
  have hnone : h.blocks[p]? = none := List.getElem?_eq_none (Nat.le_of_not_lt hlt)
  rw [hnone] at hr
  simp at hr

theorem Heap.malloc_fst (h : Heap) (n : Nat) (junk : Uint8) :
    (h.malloc n junk).1 = h.blocks.length := rfl

theorem Heap.read_malloc_new (h : Heap) (n : Nat) (junk : Uint8) :
    (h.malloc n junk).2.read (h.malloc n junk).1 = some (List.replicate n junk) := by
  simp [Heap.malloc, Heap.read]

theorem Heap.read_malloc_old (h : Heap) (n : Nat) (junk : Uint8) (p : Ptr)
    (hp : p < h.blocks.length) : (h.malloc n junk).2.read p = h.read p := by
  simp [Heap.malloc, Heap.read, List.getElem?_append_left hp]

theorem Heap.read_memcpy_same (h : Heap) (p : Ptr) (off : Nat) (src block : List Uint8)
    (hr : h.read p = some block) :
    (h.memcpy p off src).read p = some (Heap.overwrite block off src) := by
  have hlt := Heap.read_lt h p block hr
  unfold Heap.memcpy
  rw [hr]
  simp [Heap.read, List.getElem?_set, hlt]

theorem Heap.read_memcpy_other (h : Heap) (p q : Ptr) (off : Nat) (src : List Uint8)
    (hne : p ≠ q) : (h.memcpy p off src).read q = h.read q := by
  unfold Heap.memcpy
  cases hr : h.read p with
  | none => rfl
  | some block => simp [Heap.read, List.getElem?_set, hne]

theorem Heap.read_free_other (h : Heap) (p q : Ptr) (hne : p ≠ q) :
    (h.free p).read q = h.read q := by
  simp [Heap.free, Heap.read, List.getElem?_set, hne]

theorem Heap.read_free_same (h : Heap) (p : Ptr) : (h.free p).read p = none := by
  simp only [Heap.free, Heap.read, List.getElem?_set]
  by_cases hlt : p < h.blocks.length
  · simp [hlt]
  · simp [hlt]

/-! ## Store lemmas -/

theorem find_some_getElem (list : MimeList) (m : String) (i : Nat)
    (hf : mime_data_list_find list m = some i) :
    ∃ e, list[i]? = some e ∧ e.mime_type = some m := by
  induction list generalizing i with
  | nil => simp [mime_data_list_find] at hf
  | cons x rest ih =>
    unfold mime_data_list_find at hf
    by_cases hx : x.mime_type = some m
    · simp [hx] at hf
      subst hf
      exact ⟨x, by simp, hx⟩
    · simp [hx] at hf
      obtain ⟨j, hj, rfl⟩ := hf
      obtain ⟨e, he, hm⟩ := ih j hj
      exact ⟨e, by simpa using he, hm⟩

theorem find_set_payload (list : MimeList) (m : String) (i : Nat) (p : Ptr) (n : Nat) :
    mime_data_list_find (set_payload list i p n) m = mime_data_list_find list m := by
  induction list generalizing i with
  | nil => simp [set_payload]
  | cons x rest ih =>
    cases i with
    | zero => simp [set_payload, mime_data_list_find]
    | succ j => simp [set_payload, mime_data_list_find, ih j]

theorem getElem_set_payload (list : MimeList) (i : Nat) (p : Ptr) (n : Nat)
    (e : SDL_MimeDataList) (he : list[i]? = some e) :
    (set_payload list i p n)[i]? = some { e with data := some p, length := n } := by
  induction list generalizing i with
  | nil => simp at he
  | cons x rest ih =>
    cases i with
    | zero =>
      simp at he
      subst he
      simp [set_payload]
    | succ j =>
      simp at he
      simpa [set_payload] using ih j he

/-- What a successful `mime_data_list_add` with a payload does: the copy is made in the
fresh block `h.blocks.length`, and installed in the entry found or made for the label. -/
theorem mime_data_list_add_payload (a : Alloc) (h : Heap) (list : MimeList) (L : String)
    (b : Ptr) (n : Nat) (hbuf : a.buffer = true) (hent : a.entry = true)
    (hlab : a.label = true) (hn : 0 < n) :
    mime_data_list_add a h list L (some b) n =
      match mime_data_list_find list L with
      | some i =>
        (0, set_payload list i h.blocks.length n,
          match (list[i]?).bind (·.data) with
          | some old =>
            ((h.malloc n a.junk).2.memcpy h.blocks.length 0
              (((h.read b).getD []).take n)).free old
          | none =>
            (h.malloc n a.junk).2.memcpy h.blocks.length 0 (((h.read b).getD []).take n))
      | none =>
        (0, { mime_type := some L, data := some h.blocks.length, length := n } :: list,
          (h.malloc n a.junk).2.memcpy h.blocks.length 0 (((h.read b).getD []).take n)) := by
  unfold mime_data_list_add
  cases hf : mime_data_list_find list L with
  | none => simp [hbuf, hent, hlab, hn, Heap.malloc, set_payload]
  | some i => simp [hbuf, hn, Heap.malloc]

/-- The entries of source 1 of the example world have their labels. -/
theorem example_source_1_labelled : Labelled (exampleWorld.sources 1).mimes := by
  intro e he
  have hm : (exampleWorld.sources 1).mimes =
      [{ mime_type := some "text/plain;charset=utf-8", data := some 0, length := 2 }] := rfl
  rw [hm] at he
  simp at he
  subst he
  simp

/-- The entries of source 3 of the example world have their labels. -/
theorem example_source_3_labelled : Labelled (exampleWorld.sources 3).mimes := by
  intro e he
  have hm : (exampleWorld.sources 3).mimes =
      [{ mime_type := some "image/png", data := some 1, length := 3 },
       { mime_type := some "text/html", data := none, length := 0 }] := rfl
  rw [hm] at he
  simp at he
  rcases he with he | he <;> subst he <;> simp

/-! ## C1: add then find -/

/-- The block that `mime_data_list_add` fills with the copy holds the caller's bytes. -/
theorem read_copy (h : Heap) (b : Ptr) (P : List Uint8) (junk : Uint8)
    (hb : h.read b = some P) :
    ((h.malloc P.length junk).2.memcpy h.blocks.length 0
      (((h.read b).getD []).take P.length)).read h.blocks.length = some P := by
  have hnew := Heap.read_malloc_new h P.length junk
  have hq : (h.malloc P.length junk).1 = h.blocks.length := rfl
  rw [hq] at hnew
  rw [Heap.read_memcpy_same _ _ _ _ _ hnew, hb]
  simp [Heap.overwrite]

/-- C1: after `mime_data_list_add(store, L, P, n)` with a non-empty payload `P` of length `n`
and every allocation succeeding, `mime_data_list_find(store, L)` returns an entry labelled
`L` whose payload block holds exactly `P` and whose length is `n`, whether or not `L` had an
entry before.  The payload block is the store's own: writing to the caller's buffer
afterwards, or freeing it, leaves the bytes of the entry unchanged. -/
theorem mime_data_list_add_then_find (a : Alloc) (h : Heap) (list : MimeList) (L : String)
    (b : Ptr) (P : List Uint8)
    (hbuf : a.buffer = true) (hent : a.entry = true) (hlab : a.label = true)
    (hP : P ≠ []) (hb : h.read b = some P) (_hlab : Labelled list)
    (hwf : PayloadsInHeap h list) :
    ∃ list1 h1 i e q,
      mime_data_list_add a h list L (some b) P.length = (0, list1, h1) ∧
      mime_data_list_find list1 L = some i ∧ list1[i]? = some e ∧
      e.mime_type = some L ∧ e.data = some q ∧ e.length = P.length ∧
      h1.read q = some P ∧
      (∀ off src, (h1.memcpy b off src).read q = some P) ∧
      (h1.free b).read q = some P := by
  have hn : 0 < P.length := List.length_pos.mpr hP
  have hblt : b < h.blocks.length := Heap.read_lt h b P hb
  have hbq : b ≠ h.blocks.length := Nat.ne_of_lt hblt
  have hcopy := read_copy h b P a.junk hb
  rw [mime_data_list_add_payload a h list L b P.length hbuf hent hlab hn]
  cases hf : mime_data_list_find list L with
  | none =>
    refine ⟨_, _, 0, { mime_type := some L, data := some h.blocks.length, length := P.length },
      h.blocks.length, rfl, ?_, by simp, rfl, rfl, rfl, hcopy, ?_, ?_⟩
    · simp [mime_data_list_find]
    · intro off src
      rw [Heap.read_memcpy_other _ _ _ _ _ hbq]
      exact hcopy
    · rw [Heap.read_free_other _ _ _ hbq]
      exact hcopy
  | some i =>
    obtain ⟨e, he, hm⟩ := find_some_getElem list L i hf
    have hfind : mime_data_list_find (set_payload list i h.blocks.length P.length) L = some i := by
      rw [find_set_payload]
      exact hf
    have hget := getElem_set_payload list i h.blocks.length P.length e he
    have hread : (match (list[i]?).bind (·.data) with
          | some old =>
            ((h.malloc P.length a.junk).2.memcpy h.blocks.length 0
              (((h.read b).getD []).take P.length)).free old
          | none =>
            (h.malloc P.length a.junk).2.memcpy h.blocks.length 0
              (((h.read b).getD []).take P.length)).read h.blocks.length = some P := by
      rw [he]
      cases hd : e.data with
      | none => simpa [hd] using hcopy
      | some old =>
        obtain ⟨bytes, hbytes⟩ := hwf e (List.getElem?_mem he) old hd
        have hold : old < h.blocks.length := Heap.read_lt h old bytes hbytes
        simp only [Option.some_bind, hd]
        rw [Heap.read_free_other _ _ _ (Nat.ne_of_lt hold)]
        exact hcopy
    refine ⟨_, _, i, _, h.blocks.length, rfl, hfind, hget, hm, rfl, rfl, hread, ?_, ?_⟩
    · intro off src
      rw [Heap.read_memcpy_other _ _ _ _ _ hbq]
      exact hread
    · rw [Heap.read_free_other _ _ _ hbq]
      exact hread

/-- Witness for C1: the label already has an entry (payload block 0); the caller's buffer is
block 1 with the bytes 7, 8, 9. -/
theorem mime_data_list_add_then_find_witness :
    ([7, 8, 9] : List Uint8) ≠ [] ∧
    ({ blocks := [some [1, 2], some [7, 8, 9]] } : Heap).read 1 = some [7, 8, 9] ∧
    Labelled [{ mime_type := some "text/plain", data := some 0, length := 2 }] ∧
    ∃ list1 h1 i e q,
      mime_data_list_add { buffer := true, entry := true, label := true, junk := 0 }
        { blocks := [some [1, 2], some [7, 8, 9]] }
        [{ mime_type := some "text/plain", data := some 0, length := 2 }]
        "text/plain" (some 1) ([7, 8, 9] : List Uint8).length = (0, list1, h1) ∧
      mime_data_list_find list1 "text/plain" = some i ∧ list1[i]? = some e ∧
      e.mime_type = some "text/plain" ∧ e.data = some q ∧
      e.length = ([7, 8, 9] : List Uint8).length ∧
      h1.read q = some [7, 8, 9] ∧
      (∀ off src, (h1.memcpy 1 off src).read q = some [7, 8, 9]) ∧
      (h1.free 1).read q = some [7, 8, 9] :=
  ⟨by decide, by decide,
   by intro e he; simp at he; subst he; simp,
   mime_data_list_add_then_find { buffer := true, entry := true, label := true, junk := 0 }
    { blocks := [some [1, 2], some [7, 8, 9]] }
    [{ mime_type := some "text/plain", data := some 0, length := 2 }]
    "text/plain" 1 [7, 8, 9] rfl rfl rfl (by decide) (by decide)
    (by intro e he; simp at he; subst he; simp)
    (by intro e he p hp; simp at he; subst he; simp at hp; subst hp; exact ⟨[1, 2], rfl⟩)⟩

/-! ## The selection device -/

@[simp] theorem World.call_calls (w : World) (cs : List Call) :
    (w.call cs).calls = w.calls ++ cs := rfl

@[simp] theorem World.call_devices (w : World) (cs : List Call) :
    (w.call cs).devices = w.devices := rfl

@[simp] theorem World.call_sources (w : World) (cs : List Call) :
    (w.call cs).sources = w.sources := rfl

@[simp] theorem World.call_heap (w : World) (cs : List Call) :
    (w.call cs).heap = w.heap := rfl

@[simp] theorem World.set_device_calls (w : World) (d : Nat) (dev : SDL_WaylandDataDevice) :
    (w.set_device d dev).calls = w.calls := rfl

@[simp] theorem World.set_device_sources (w : World) (d : Nat) (dev : SDL_WaylandDataDevice) :
    (w.set_device d dev).sources = w.sources := rfl

@[simp] theorem World.set_device_heap (w : World) (d : Nat) (dev : SDL_WaylandDataDevice) :
    (w.set_device d dev).heap = w.heap := rfl

@[simp] theorem World.set_device_same (w : World) (d : Nat) (dev : SDL_WaylandDataDevice) :
    (w.set_device d dev).devices d = dev := by
  simp [World.set_device]

theorem World.set_device_other (w : World) (d d1 : Nat) (dev : SDL_WaylandDataDevice)
    (hne : d1 ≠ d) : (w.set_device d dev).devices d1 = w.devices d1 := by
  simp [World.set_device, Function.update_noteq hne]

@[simp] theorem World.set_source_calls (w : World) (s : Nat) (src : SDL_WaylandDataSource) :
    (w.set_source s src).calls = w.calls := rfl

@[simp] theorem World.set_source_devices (w : World) (s : Nat) (src : SDL_WaylandDataSource) :
    (w.set_source s src).devices = w.devices := rfl

@[simp] theorem World.set_source_heap (w : World) (s : Nat) (src : SDL_WaylandDataSource) :
    (w.set_source s src).heap = w.heap := rfl

@[simp] theorem World.set_source_same (w : World) (s : Nat) (src : SDL_WaylandDataSource) :
    (w.set_source s src).sources s = src := by
  simp [World.set_source]

theorem World.set_source_other (w : World) (s s1 : Nat) (src : SDL_WaylandDataSource)
    (hne : s1 ≠ s) : (w.set_source s src).sources s1 = w.sources s1 := by
  simp [World.set_source, Function.update_noteq hne]

@[simp] theorem World.set_error_calls (w : World) (msg : String) :
    (w.set_error msg).calls = w.calls := rfl

@[simp] theorem World.set_error_devices (w : World) (msg : String) :
    (w.set_error msg).devices = w.devices := rfl

@[simp] theorem World.set_error_sources (w : World) (msg : String) :
    (w.set_error msg).sources = w.sources := rfl

@[simp] theorem World.set_error_error (w : World) (msg : String) :
    (w.set_error msg).error = some msg := rfl

theorem clear_back_reference_calls (w : World) (s : Nat) :
    (clear_back_reference w s).calls = w.calls := by
  unfold clear_back_reference
  split
  · split <;> rfl
  · rfl

theorem clear_back_reference_sources (w : World) (s : Nat) :
    (clear_back_reference w s).sources = w.sources := by
  unfold clear_back_reference
  split
  · split <;> rfl
  · rfl

theorem clear_back_reference_heap (w : World) (s : Nat) :
    (clear_back_reference w s).heap = w.heap := by
  unfold clear_back_reference
  split
  · split <;> rfl
  · rfl

/-- The device fields that the first statement of the destructor leaves alone. -/
theorem clear_back_reference_fields (w : World) (s d : Nat) :
    ((clear_back_reference w s).devices d).selection_serial = (w.devices d).selection_serial ∧
    ((clear_back_reference w s).devices d).data_device = (w.devices d).data_device ∧
    (((clear_back_reference w s).devices d).selection_source = (w.devices d).selection_source ∨
      ((clear_back_reference w s).devices d).selection_source = none) := by
  unfold clear_back_reference
  split
  · rename_i d1 _
    split
    · by_cases hdd : d = d1
      · subst hdd
        simp
      · simp [World.set_device_other _ _ _ _ hdd]
    · simp
  · simp

/-- A source other than the destroyed one stays the active source. -/
theorem clear_back_reference_keeps (w : World) (s s1 d : Nat) (hne : s1 ≠ s)
    (hsel : (w.devices d).selection_source = some s1) :
    ((clear_back_reference w s).devices d).selection_source = some s1 := by
  unfold clear_back_reference
  split
  · rename_i d1 _
    split
    · rename_i hs
      by_cases hdd : d = d1
      · subst hdd
        rw [hsel] at hs
        exact absurd (Option.some.inj hs) hne
      · rw [World.set_device_other _ _ _ _ hdd]
        exact hsel
    · exact hsel
  · exact hsel

/-- What `Wayland_data_source_destroy` adds to the calls: the release of the protocol handle
and of the object. -/
theorem destroy_calls (w : World) (s : Nat) :
    (Wayland_data_source_destroy w (some s)).calls =
      w.calls ++ [Call.wl_data_source_destroy (w.sources s).source, Call.SDL_free_source s] := by
  simp [Wayland_data_source_destroy, clear_back_reference_calls, clear_back_reference_sources]

theorem destroy_sources (w : World) (s : Option Nat) :
    (Wayland_data_source_destroy w s).sources = w.sources := by
  cases s with
  | none => rfl
  | some s => simp [Wayland_data_source_destroy, clear_back_reference_sources]

theorem destroy_devices (w : World) (s : Nat) :
    (Wayland_data_source_destroy w (some s)).devices = (clear_back_reference w s).devices := by
  simp [Wayland_data_source_destroy]

theorem destroy_heap (w : World) (s : Nat) :
    (Wayland_data_source_destroy w (some s)).heap =
      mime_data_list_free w.heap (w.sources s).mimes := by
  simp [Wayland_data_source_destroy, clear_back_reference_sources, clear_back_reference_heap]

theorem destroy_opt_calls (w : World) (o : Option Nat) :
    (Wayland_data_source_destroy w o).calls = w.calls ++ destroy_calls_of w o := by
  cases o with
  | none => simp [Wayland_data_source_destroy, destroy_calls_of]
  | some s => simp [destroy_calls, destroy_calls_of]

theorem destroy_opt_heap (w : World) (o : Option Nat) :
    (Wayland_data_source_destroy w o).heap =
      match o with
      | some old => mime_data_list_free w.heap (w.sources old).mimes
      | none => w.heap := by
  cases o with
  | none => rfl
  | some s => simp [destroy_heap]

/-- The device fields that `Wayland_data_source_destroy` leaves alone. -/
theorem destroy_opt_fields (w : World) (o : Option Nat) (d : Nat) :
    ((Wayland_data_source_destroy w o).devices d).selection_serial =
        (w.devices d).selection_serial ∧
    ((Wayland_data_source_destroy w o).devices d).data_device = (w.devices d).data_device := by
  cases o with
  | none => exact ⟨rfl, rfl⟩
  | some s =>
    rw [destroy_devices]
    exact ⟨(clear_back_reference_fields w s d).1, (clear_back_reference_fields w s d).2.1⟩

/-- The world of `Wayland_data_device_set_selection` after the offers and the set-selection
call. -/
theorem set_selection_step (w : World) (cs : List Call) (c : Call) (b : Prop) [Decidable b] :
    (if b then (w.call cs).call [c] else w.call cs) =
      w.call (cs ++ if b then [c] else []) := by
  by_cases hb : b
  · simp [hb, World.call, List.append_assoc]
  · simp [hb]

/-- What `Wayland_data_device_set_selection` does for a source whose store is not empty. -/
theorem set_selection_nonempty (TEXT_MIME : String) (w : World) (d s : Nat)
    (hne : (w.sources s).mimes ≠ []) :
    (Wayland_data_device_set_selection TEXT_MIME w (some d) (some s)).1 = 0 ∧
    (Wayland_data_device_set_selection TEXT_MIME w (some d) (some s)).2.calls =
      w.calls ++ offer_calls TEXT_MIME (w.sources s).source (w.sources s).mimes ++
        set_selection_call w d s ++ destroy_calls_of w (w.devices d).selection_source ∧
    ((Wayland_data_device_set_selection TEXT_MIME w (some d) (some s)).2.devices d) =
      { (w.devices d) with selection_source := some s } ∧
    ((Wayland_data_device_set_selection TEXT_MIME w (some d) (some s)).2.sources s) =
      { (w.sources s) with data_device := some d } ∧
    (∀ s1, s1 ≠ s →
      (Wayland_data_device_set_selection TEXT_MIME w (some d) (some s)).2.sources s1 =
        w.sources s1) ∧
    (Wayland_data_device_set_selection TEXT_MIME w (some d) (some s)).2.heap =
      match (w.devices d).selection_source with
      | some old => mime_data_list_free w.heap (w.sources old).mimes
      | none => w.heap := by
  have hlen : (w.sources s).mimes.length ≠ 0 := by
    intro h0
    exact hne (List.length_eq_zero.mp h0)
  unfold Wayland_data_device_set_selection
  simp only [hlen, if_false, World.call_devices, World.call_sources, set_selection_step]
  generalize hw2 : w.call (offer_calls TEXT_MIME (w.sources s).source (w.sources s).mimes ++
    if (w.devices d).selection_serial ≠ 0 then
      [Call.wl_data_device_set_selection (w.devices d).data_device (w.sources s).source
        (w.devices d).selection_serial]
    else []) = w2
  have hd2 : w2.devices = w.devices := by rw [← hw2]; rfl
  have hs2 : w2.sources = w.sources := by rw [← hw2]; rfl
  have hh2 : w2.heap = w.heap := by rw [← hw2]; rfl
  have hc2 : w2.calls = w.calls ++
      offer_calls TEXT_MIME (w.sources s).source (w.sources s).mimes ++
        set_selection_call w d s := by
    rw [← hw2]
    simp [set_selection_call, List.append_assoc]
  have hf := destroy_opt_fields w2 (w.devices d).selection_source d
  rw [hd2] at hf
  refine ⟨trivial, ?_, ?_, ?_, ?_, ?_⟩
  · simp only [World.set_source_calls, World.set_device_calls, destroy_opt_calls, hc2,
      destroy_calls_of, hs2]
  · simp only [World.set_source_devices, World.set_device_same]
    cases hdev : (Wayland_data_source_destroy w2 (w.devices d).selection_source).devices d
    cases hdev0 : w.devices d
    rw [hdev, hdev0] at hf
    simp at hf
    simp [hf.1, hf.2]
  · simp [destroy_sources, hs2]
  · intro s1 hs1
    rw [World.set_source_other _ _ _ _ hs1]
    simp [destroy_sources, hs2]
  · simp only [World.set_source_heap, World.set_device_heap, destroy_opt_heap, hh2, hs2]

/-- What `Wayland_data_device_set_selection` does for a source whose store is empty: it
clears the selection and fails. -/
theorem set_selection_empty (TEXT_MIME : String) (w : World) (d s : Nat)
    (hempty : (w.sources s).mimes = []) :
    Wayland_data_device_set_selection TEXT_MIME w (some d) (some s) =
      (-1, (Wayland_data_device_clear_selection (w.call []) (some d)).2.set_error
          "No mime data") := by
  unfold Wayland_data_device_set_selection
  simp [hempty, offer_calls, SDL_SetError]

theorem call_nil_calls (w : World) : (w.call []).calls = w.calls := by
  simp

/-- Every call of the offer loop is an offer. -/
theorem offer_calls_are_offers (TEXT_MIME : String) (h : Option Nat) (list : MimeList) :
    ∀ c ∈ offer_calls TEXT_MIME h list, c.is_offer = true := by
  induction list with
  | nil => simp [offer_calls]
  | cons md rest ih =>
    intro c hc
    simp only [offer_calls, List.mem_cons, List.mem_append, List.mem_map] at hc
    rcases hc with rfl | ⟨row, _, rfl⟩ | hc
    · rfl
    · rfl
    · exact ih c hc

theorem offer_calls_no_set_selection (TEXT_MIME : String) (h : Option Nat) (list : MimeList) :
    (offer_calls TEXT_MIME h list).filter Call.is_set_selection = [] := by
  rw [List.filter_eq_nil_iff]
  intro c hc
  have ho := offer_calls_are_offers TEXT_MIME h list c hc
  cases c <;> simp_all [Call.is_offer, Call.is_set_selection]

theorem offer_calls_no_release (TEXT_MIME : String) (h : Option Nat) (list : MimeList) :
    (offer_calls TEXT_MIME h list).filter Call.is_release = [] := by
  rw [List.filter_eq_nil_iff]
  intro c hc
  have ho := offer_calls_are_offers TEXT_MIME h list c hc
  cases c <;> simp_all [Call.is_offer, Call.is_release]

theorem set_selection_call_no_release (w : World) (d s : Nat) :
    (set_selection_call w d s).filter Call.is_release = [] := by
  unfold set_selection_call
  split <;> simp [Call.is_release]

theorem destroy_calls_no_set_selection (w : World) (o : Option Nat) :
    (destroy_calls_of w o).filter Call.is_set_selection = [] := by
  cases o <;> simp [destroy_calls_of, Call.is_set_selection]

/-- What `Wayland_data_device_clear_selection` does on a device. -/
theorem clear_selection_spec (w : World) (d : Nat) :
    ((w.devices d).data_device = none →
      (Wayland_data_device_clear_selection w (some d)).2.calls = w.calls ∧
      (Wayland_data_device_clear_selection w (some d)).2.devices = w.devices) ∧
    ((w.devices d).selection_source = none →
      (Wayland_data_device_clear_selection w (some d)).2.calls = w.calls ∧
      (Wayland_data_device_clear_selection w (some d)).2.devices = w.devices) ∧
    (∀ old, (w.devices d).data_device ≠ none → (w.devices d).selection_source = some old →
      (Wayland_data_device_clear_selection w (some d)).2.calls = w.calls ++
        [Call.wl_data_device_set_selection (w.devices d).data_device none 0,
         Call.wl_data_source_destroy (w.sources old).source, Call.SDL_free_source old] ∧
      ((Wayland_data_device_clear_selection w (some d)).2.devices d).selection_source = none ∧
      (Wayland_data_device_clear_selection w (some d)).2.heap =
        mime_data_list_free w.heap (w.sources old).mimes) := by
  unfold Wayland_data_device_clear_selection
  refine ⟨?_, ?_, ?_⟩
  · intro hh
    simp [hh]
  · intro hs
    by_cases hh : (w.devices d).data_device = none
    · simp [hh]
    · simp [hh, hs]
  · intro old hh hs
    simp [hh, hs, destroy_calls, destroy_heap]

/-! ## C6: a source without entries -/

/-- C6, as stated, fails.  In the example world device 0 (handle 10) has source 1 as its
active source and source 2 has an empty store: the call issues a protocol set-selection
call (null source, serial 0) and destroys source 1, so the calls are not what they were.
On device 2, which has no protocol handle, the active source stays. -/
theorem set_selection_no_mime_data_counterexample :
    (exampleWorld.sources 2).mimes = [] ∧
    (Wayland_data_device_set_selection exampleTextMime exampleWorld (some 0) (some 2)).2.calls =
      [Call.wl_data_device_set_selection (some 10) none 0,
       Call.wl_data_source_destroy (some 11), Call.SDL_free_source 1] ∧
    (Wayland_data_device_set_selection exampleTextMime exampleWorld (some 0) (some 2)).2.calls ≠
      exampleWorld.calls ∧
    ((Wayland_data_device_set_selection exampleTextMime exampleWorld (some 2)
      (some 2)).2.devices 2).selection_source = some 1 := by
  decide

/-- C6 (amended): for a source whose store has no entry, `Wayland_data_device_set_selection`
returns `-1` with the error "No mime data" and makes no offer.  When the device has no
active source nothing else happens.  When it has an active source and a protocol handle,
the only calls are one set-selection call with a null source and serial 0 and the
destruction of that source, and the device is left without an active source.  When the
device has no protocol handle, no call is made and the devices are left as they were. -/
theorem set_selection_no_mime_data (TEXT_MIME : String) (w : World) (d s : Nat)
    (hempty : (w.sources s).mimes = []) :
    (Wayland_data_device_set_selection TEXT_MIME w (some d) (some s)).1 = -1 ∧
    (Wayland_data_device_set_selection TEXT_MIME w (some d) (some s)).2.error =
      some "No mime data" ∧
    ((w.devices d).selection_source = none →
      (Wayland_data_device_set_selection TEXT_MIME w (some d) (some s)).2.calls = w.calls ∧
      ((Wayland_data_device_set_selection TEXT_MIME w (some d) (some s)).2.devices
        d).selection_source = none) ∧
    (∀ old, (w.devices d).data_device ≠ none → (w.devices d).selection_source = some old →
      (Wayland_data_device_set_selection TEXT_MIME w (some d) (some s)).2.calls = w.calls ++
        [Call.wl_data_device_set_selection (w.devices d).data_device none 0,
         Call.wl_data_source_destroy (w.sources old).source, Call.SDL_free_source old] ∧
      ((Wayland_data_device_set_selection TEXT_MIME w (some d) (some s)).2.devices
        d).selection_source = none) ∧
    ((w.devices d).data_device = none →
      (Wayland_data_device_set_selection TEXT_MIME w (some d) (some s)).2.calls = w.calls ∧
      (Wayland_data_device_set_selection TEXT_MIME w (some d) (some s)).2.devices =
        w.devices) := by
  rw [set_selection_empty TEXT_MIME w d s hempty]
  have hspec := clear_selection_spec (w.call []) d
  simp only [World.call_devices, World.call_sources, call_nil_calls] at hspec
  obtain ⟨hnull, hnone, hsome⟩ := hspec
  refine ⟨rfl, rfl, ?_, ?_, ?_⟩
  · intro hs
    obtain ⟨hc, hd⟩ := hnone hs
    refine ⟨hc, ?_⟩
    simp only [World.set_error_devices, hd]
    exact hs
  · intro old hh hs
    obtain ⟨hc, hd, _⟩ := hsome old hh hs
    exact ⟨hc, hd⟩
  · intro hh
    exact hnull hh

/-- Witness for C6 (amended): source 2 of the example world has no entry. -/
theorem set_selection_no_mime_data_witness :
    (exampleWorld.sources 2).mimes = [] ∧
    (Wayland_data_device_set_selection exampleTextMime exampleWorld (some 1) (some 2)).1 = -1 ∧
    (Wayland_data_device_set_selection exampleTextMime exampleWorld (some 1) (some 2)).2.calls =
      exampleWorld.calls :=
  ⟨rfl,
   (set_selection_no_mime_data exampleTextMime exampleWorld 1 2 rfl).1,
   ((set_selection_no_mime_data exampleTextMime exampleWorld 1 2 rfl).2.2.1 rfl).1⟩

/-! ## C7: one source after another -/

/-- Freeing a block does not bring another one back. -/
theorem Heap.read_free_none (h : Heap) (p q : Ptr) (hr : h.read p = none) :
    (h.free q).read p = none := by
  by_cases hpq : q = p
  · subst hpq
    exact Heap.read_free_same h q
  · rw [Heap.read_free_other _ _ _ hpq]
    exact hr

theorem mime_data_list_free_none (list : MimeList) (h : Heap) (p : Ptr)
    (hr : h.read p = none) : (mime_data_list_free h list).read p = none := by
  induction list generalizing h with
  | nil => exact hr
  | cons md rest ih =>
    unfold mime_data_list_free
    cases hd : md.data with
    | none => exact ih h hr
    | some q => exact ih (h.free q) (Heap.read_free_none h p q hr)

/-- The C function `mime_data_list_free` frees every payload block of the store. -/
theorem mime_data_list_free_frees (list : MimeList) (h : Heap) (e : SDL_MimeDataList)
    (he : e ∈ list) (p : Ptr) (hp : e.data = some p) :
    (mime_data_list_free h list).read p = none := by
  induction list generalizing h with
  | nil => simp at he
  | cons md rest ih =>
    unfold mime_data_list_free
    rcases List.mem_cons.mp he with rfl | hrest
    · rw [hp]
      exact mime_data_list_free_none rest _ p (Heap.read_free_same h p)
    · exact ih _ hrest

/-- C7: on a device without an active source, after
`Wayland_data_device_set_selection(device, A)` and then
`Wayland_data_device_set_selection(device, B)` for two distinct sources that each hold an
entry, both calls succeed, the active source of the device is `B` (so not `A`), `B` refers
back to the device, and `A` has been destroyed exactly once: among the calls made, the only
releases are one of the protocol handle of `A` and one of the object `A`, and every payload
block of the store of `A` is freed. -/
theorem set_selection_replaces (TEXT_MIME : String) (w : World) (d A B : Nat)
    (hnone : (w.devices d).selection_source = none) (hAB : A ≠ B)
    (hA : (w.sources A).mimes ≠ []) (hB : (w.sources B).mimes ≠ [])
    (_hlabA : Labelled (w.sources A).mimes) (_hlabB : Labelled (w.sources B).mimes) :
    (Wayland_data_device_set_selection TEXT_MIME w (some d) (some A)).1 = 0 ∧
    (set_selection_twice TEXT_MIME w d A B).1 = 0 ∧
    ((set_selection_twice TEXT_MIME w d A B).2.devices d).selection_source = some B ∧
    ((set_selection_twice TEXT_MIME w d A B).2.devices d).selection_source ≠ some A ∧
    ((set_selection_twice TEXT_MIME w d A B).2.sources B).data_device = some d ∧
    (∃ new, (set_selection_twice TEXT_MIME w d A B).2.calls = w.calls ++ new ∧
      new.filter Call.is_release =
        [Call.wl_data_source_destroy (w.sources A).source, Call.SDL_free_source A]) ∧
    (∀ e ∈ (w.sources A).mimes, ∀ p, e.data = some p →
      (set_selection_twice TEXT_MIME w d A B).2.heap.read p = none) := by
  obtain ⟨h1s, h1c, h1d, h1a, h1o, h1h⟩ := set_selection_nonempty TEXT_MIME w d A hA
  generalize hw1 : (Wayland_data_device_set_selection TEXT_MIME w (some d) (some A)).2 = w1
    at h1c h1d h1a h1o h1h
  have hBA : B ≠ A := fun h => hAB h.symm
  have hB1 : (w1.sources B).mimes ≠ [] := by
    rw [h1o B hBA]
    exact hB
  obtain ⟨h2s, h2c, h2d, h2a, _, h2h⟩ := set_selection_nonempty TEXT_MIME w1 d B hB1
  have htw : set_selection_twice TEXT_MIME w d A B =
      Wayland_data_device_set_selection TEXT_MIME w1 (some d) (some B) := by
    unfold set_selection_twice
    rw [hw1]
  rw [htw]
  have hsel1 : (w1.devices d).selection_source = some A := by
    rw [h1d]
  have hheap1 : w1.heap = w.heap := by
    rw [h1h, hnone]
  have hmimes1 : (w1.sources A).mimes = (w.sources A).mimes := by
    rw [h1a]
  have hsrc1 : (w1.sources A).source = (w.sources A).source := by
    rw [h1a]
  refine ⟨h1s, h2s, ?_, ?_, ?_, ?_, ?_⟩
  · rw [h2d]
  · rw [h2d]
    intro h
    exact hBA (Option.some.inj h)
  · rw [h2a]
  · refine ⟨offer_calls TEXT_MIME (w.sources A).source (w.sources A).mimes ++
        set_selection_call w d A ++
        (offer_calls TEXT_MIME (w1.sources B).source (w1.sources B).mimes ++
        set_selection_call w1 d B ++
        [Call.wl_data_source_destroy (w.sources A).source, Call.SDL_free_source A]), ?_, ?_⟩
    · rw [h2c, h1c, hnone, hsel1]
      simp only [destroy_calls_of, hsrc1, List.append_assoc, List.append_nil]
    · simp only [List.filter_append, offer_calls_no_release, set_selection_call_no_release,
        List.nil_append]
      simp [Call.is_release]
  · intro e he p hp
    rw [h2h, hsel1]
    simp only [hheap1, hmimes1]
    exact mime_data_list_free_frees _ _ e he p hp

/-- Witness for C7: device 1 of the example world has no active source, sources 1 and 3
hold entries. -/
theorem set_selection_replaces_witness :
    (exampleWorld.devices 1).selection_source = none ∧ (1 : Nat) ≠ 3 ∧
    (exampleWorld.sources 1).mimes ≠ [] ∧ (exampleWorld.sources 3).mimes ≠ [] ∧
    Labelled (exampleWorld.sources 1).mimes ∧ Labelled (exampleWorld.sources 3).mimes ∧
    ((set_selection_twice exampleTextMime exampleWorld 1 1 3).2.devices 1).selection_source =
      some 3 :=
  ⟨rfl, by decide, by decide, by decide, example_source_1_labelled, example_source_3_labelled,
   (set_selection_replaces exampleTextMime exampleWorld 1 1 3 rfl (by decide) (by decide)
      (by decide) example_source_1_labelled example_source_3_labelled).2.2.1⟩

/-! ## C8: the serial in set_selection -/

/-- C8: for a source `s` that holds an entry, `Wayland_data_device_set_selection(device, s)`
returns `0`, makes `s` the active source and leaves the stored serial `t` as it was; among
its calls there is exactly one set-selection call, made with the handle of `s` and the
serial `t`, when `t` is not zero, and none when `t` is zero. -/
theorem set_selection_uses_serial (TEXT_MIME : String) (w : World) (d s : Nat)
    (hne : (w.sources s).mimes ≠ []) (_hlab : Labelled (w.sources s).mimes) :
    (Wayland_data_device_set_selection TEXT_MIME w (some d) (some s)).1 = 0 ∧
    ((Wayland_data_device_set_selection TEXT_MIME w (some d) (some s)).2.devices
      d).selection_source = some s ∧
    ((Wayland_data_device_set_selection TEXT_MIME w (some d) (some s)).2.devices
      d).selection_serial = (w.devices d).selection_serial ∧
    ∃ new, (Wayland_data_device_set_selection TEXT_MIME w (some d) (some s)).2.calls =
        w.calls ++ new ∧
      new.filter Call.is_set_selection =
        if (w.devices d).selection_serial ≠ 0 then
          [Call.wl_data_device_set_selection (w.devices d).data_device (w.sources s).source
            (w.devices d).selection_serial]
        else [] := by
  obtain ⟨hs, hc, hd, _, _, _⟩ := set_selection_nonempty TEXT_MIME w d s hne
  refine ⟨hs, ?_, ?_, ?_⟩
  · rw [hd]
  · rw [hd]
  · refine ⟨offer_calls TEXT_MIME (w.sources s).source (w.sources s).mimes ++
        set_selection_call w d s ++ destroy_calls_of w (w.devices d).selection_source, ?_, ?_⟩
    · rw [hc]
      simp only [List.append_assoc]
    · simp only [List.filter_append, offer_calls_no_set_selection,
        destroy_calls_no_set_selection, List.nil_append, List.append_nil]
      unfold set_selection_call
      split <;> simp [Call.is_set_selection]

/-- Witness for C8: source 3 of the example world holds entries; device 1 has serial 5. -/
theorem set_selection_uses_serial_witness :
    (exampleWorld.sources 3).mimes ≠ [] ∧ Labelled (exampleWorld.sources 3).mimes ∧
    ((Wayland_data_device_set_selection exampleTextMime exampleWorld (some 1)
      (some 3)).2.devices 1).selection_source = some 3 :=
  ⟨by decide, example_source_3_labelled,
   (set_selection_uses_serial exampleTextMime exampleWorld 1 3 (by decide)
      example_source_3_labelled).2.1⟩

/-! ## C9 and C10: the serial arrives -/

/-- What `Wayland_data_device_set_serial` does on a device. -/
theorem set_serial_spec (w : World) (d serial : Nat) :
    (Wayland_data_device_set_serial w (some d) serial).1 = 0 ∧
    (Wayland_data_device_set_serial w (some d) serial).2.devices d =
      { (w.devices d) with selection_serial := serial } ∧
    (Wayland_data_device_set_serial w (some d) serial).2.sources = w.sources ∧
    (∀ d1, d1 ≠ d →
      (Wayland_data_device_set_serial w (some d) serial).2.devices d1 = w.devices d1) ∧
    (Wayland_data_device_set_serial w (some d) serial).2.calls = w.calls ++
      match (w.devices d).selection_source with
      | some s =>
        if (w.devices d).selection_serial = 0 then
          [Call.wl_data_device_set_selection (w.devices d).data_device (w.sources s).source
            (w.devices d).selection_serial]
        else []
      | none => [] := by
  refine ⟨?_, ?_, ?_, ?_, ?_⟩
  · rfl
  · unfold Wayland_data_device_set_serial
    cases hsrc : (w.devices d).selection_source with
    | none => simp [hsrc]
    | some s => by_cases hser : (w.devices d).selection_serial = 0 <;> simp [hsrc, hser]
  · unfold Wayland_data_device_set_serial
    cases hsrc : (w.devices d).selection_source with
    | none => simp [hsrc]
    | some s => by_cases hser : (w.devices d).selection_serial = 0 <;> simp [hsrc, hser]
  · intro d1 hd1
    unfold Wayland_data_device_set_serial
    simp only []
    rw [World.set_device_other _ _ _ _ hd1]
    cases hsrc : (w.devices d).selection_source with
    | none => simp [hsrc]
    | some s => by_cases hser : (w.devices d).selection_serial = 0 <;> simp [hsrc, hser]
  · unfold Wayland_data_device_set_serial
    cases hsrc : (w.devices d).selection_source with
    | none => simp [hsrc]
    | some s => by_cases hser : (w.devices d).selection_serial = 0 <;> simp [hsrc, hser]

/-- C9, as stated, fails.  Device 0 of the example world has the stored serial 0 and the
active source 1 (handle 11): `Wayland_data_device_set_serial(device, 0)` issues a protocol
set-selection call. -/
theorem set_serial_zero_counterexample :
    (exampleWorld.devices 0).selection_serial = 0 ∧
    (exampleWorld.devices 0).selection_source = some 1 ∧
    exampleWorld.calls = [] ∧
    (Wayland_data_device_set_serial exampleWorld (some 0) 0).2.calls =
      [Call.wl_data_device_set_selection (some 10) (some 11) 0] := by
  decide

/-- C9 (amended): `Wayland_data_device_set_serial(device, 0)` issues no call when the stored
serial is not zero or when no source is active; when the stored serial is zero and a source
`s` is active it issues exactly one set-selection call, with the handle of `s` and the
serial 0. -/
theorem set_serial_zero (w : World) (d : Nat) :
    ((w.devices d).selection_serial ≠ 0 ∨ (w.devices d).selection_source = none →
      (Wayland_data_device_set_serial w (some d) 0).2.calls = w.calls) ∧
    (∀ s, (w.devices d).selection_serial = 0 → (w.devices d).selection_source = some s →
      (Wayland_data_device_set_serial w (some d) 0).2.calls = w.calls ++
        [Call.wl_data_device_set_selection (w.devices d).data_device (w.sources s).source 0]) := by
  obtain ⟨_, _, _, _, hc⟩ := set_serial_spec w d 0
  refine ⟨?_, ?_⟩
  · intro h
    rw [hc]
    rcases h with hser | hsrc
    · cases hs : (w.devices d).selection_source with
      | none => simp
      | some s => simp [hser]
    · simp [hsrc]
  · intro s hser hsrc
    rw [hc]
    simp [hsrc, hser]

/-- C10: on a device whose stored serial is zero and whose active source is `s`,
`Wayland_data_device_set_serial(device, t)` returns `0` and issues exactly one call, a
set-selection call with the handle of `s` and the serial stored before the update, which
is zero and not `t`; afterwards the stored serial is `t` and the active source is still `s`.
When the stored serial is not zero, or no source is active, it issues no call and only the
stored serial changes, to `t`. -/
theorem set_serial_pending (w : World) (d t : Nat) (ht : t ≠ 0) :
    (∀ s, (w.devices d).selection_serial = 0 → (w.devices d).selection_source = some s →
      (Wayland_data_device_set_serial w (some d) t).1 = 0 ∧
      (Wayland_data_device_set_serial w (some d) t).2.calls = w.calls ++
        [Call.wl_data_device_set_selection (w.devices d).data_device (w.sources s).source 0] ∧
      Call.wl_data_device_set_selection (w.devices d).data_device (w.sources s).source 0 ≠
        Call.wl_data_device_set_selection (w.devices d).data_device (w.sources s).source t ∧
      ((Wayland_data_device_set_serial w (some d) t).2.devices d).selection_serial = t ∧
      ((Wayland_data_device_set_serial w (some d) t).2.devices d).selection_source = some s) ∧
    ((w.devices d).selection_serial ≠ 0 ∨ (w.devices d).selection_source = none →
      (Wayland_data_device_set_serial w (some d) t).1 = 0 ∧
      (Wayland_data_device_set_serial w (some d) t).2.calls = w.calls ∧
      (Wayland_data_device_set_serial w (some d) t).2.devices d =
        { (w.devices d) with selection_serial := t } ∧
      (∀ d1, d1 ≠ d →
        (Wayland_data_device_set_serial w (some d) t).2.devices d1 = w.devices d1) ∧
      (Wayland_data_device_set_serial w (some d) t).2.sources = w.sources) := by
  obtain ⟨hst, hd, hsrcs, hothers, hc⟩ := set_serial_spec w d t
  refine ⟨?_, ?_⟩
  · intro s hser hsrc
    refine ⟨hst, ?_, ?_, ?_, ?_⟩
    · rw [hc]
      simp [hsrc, hser]
    · intro h
      injection h with _ _ h3
      exact ht h3.symm
    · rw [hd]
    · rw [hd]
      exact hsrc
  · intro h
    refine ⟨hst, ?_, hd, hothers, hsrcs⟩
    rw [hc]
    rcases h with hser | hsrc
    · cases hs : (w.devices d).selection_source with
      | none => simp
      | some s => simp [hser]
    · simp [hsrc]

/-- Witness for C10: device 0 of the example world has serial 0 and the active source 1;
the new serial is 7. -/
theorem set_serial_pending_witness :
    (7 : Nat) ≠ 0 ∧
    (Wayland_data_device_set_serial exampleWorld (some 0) 7).2.calls = exampleWorld.calls ++
      [Call.wl_data_device_set_selection (exampleWorld.devices 0).data_device
        (exampleWorld.sources 1).source 0] :=
  ⟨by decide, ((set_serial_pending exampleWorld 0 7 (by decide)).1 1 rfl rfl).2.1⟩

/-! ## C2: fetching a copy -/

/-- The entry that `mime_data_list_find` points to. -/
theorem find_entry (list : MimeList) (L : String) (i : Nat) (e : SDL_MimeDataList)
    (hf : mime_data_list_find list L = some i) (he : list[i]? = some e) :
    (mime_data_list_find list L).bind (list[·]?) = some e := by
  rw [hf]
  simpa using he

/-- The copy made by `Wayland_source_get_data` of an entry with the payload `P`. -/
theorem source_get_data_copy (a : ReadAlloc) (h : Heap) (err : SDL_Error)
    (e : SDL_MimeDataList) (p : Ptr) (P : List Uint8) (null_terminate : Bool)
    (hok : a.ok = true) (hd : e.data = some p) (hr : h.read p = some P)
    (hl : e.length = P.length) (hP : P ≠ []) :
    ∃ h1, Wayland_source_get_data a h err (some e) 0 null_terminate =
        (some h.blocks.length, P.length, h1, err) ∧
      h1.read h.blocks.length = some (if null_terminate then P ++ [0] else P) ∧
      ∀ p1, p1 < h.blocks.length → h1.read p1 = h.read p1 := by
  have hn : 0 < P.length := List.length_pos.mpr hP
  unfold Wayland_source_get_data
  simp only [hl, hn, hok, hd, gt_iff_lt, if_true, Bool.not_true, Bool.false_eq_true, if_false,
    Option.some_bind, hr, Option.getD_some, List.take_length]
  cases null_terminate with
  | false =>
    have hnew := Heap.read_malloc_new h P.length a.junk
    have hq : (h.malloc P.length a.junk).1 = h.blocks.length := rfl
    rw [hq] at hnew
    refine ⟨_, rfl, ?_, ?_⟩
    · simp only [Bool.false_eq_true, if_false, Heap.malloc_fst]
      rw [Heap.read_memcpy_same _ _ _ _ _ hnew]
      simp [Heap.overwrite]
    · intro p1 hp1
      simp only [Bool.false_eq_true, if_false, Heap.malloc_fst]
      rw [Heap.read_memcpy_other _ _ _ _ _ (Nat.ne_of_gt hp1)]
      exact Heap.read_malloc_old h _ _ p1 hp1
  | true =>
    have hnew := Heap.read_malloc_new h (P.length + 1) a.junk
    have hq : (h.malloc (P.length + 1) a.junk).1 = h.blocks.length := rfl
    rw [hq] at hnew
    have h2 := Heap.read_memcpy_same _ _ 0 P _ hnew
    refine ⟨_, rfl, ?_, ?_⟩
    · simp only [if_true, Heap.malloc_fst]
      rw [Heap.read_memcpy_same _ _ _ _ _ h2]
      simp [Heap.overwrite, List.replicate_succ']
    · intro p1 hp1
      simp only [if_true, Heap.malloc_fst]
      rw [Heap.read_memcpy_other _ _ _ _ _ (Nat.ne_of_gt hp1),
        Heap.read_memcpy_other _ _ _ _ _ (Nat.ne_of_gt hp1)]
      exact Heap.read_malloc_old h _ _ p1 hp1

/-- C2: for a non-null data source, when the store has an entry for `L` with a non-empty
payload `P`, `Wayland_data_source_get_data` (its allocation succeeding) returns a new
block, one that was not in the heap, which holds `P` when `null_terminate` is false and `P`
followed by one zero byte when it is true, and reports the length `|P|`; the blocks that
were in the heap keep their content.  When the store has no entry for `L`, or the entry
has no payload (no block and length 0, as `mime_data_list_add` makes a placeholder), it
returns no buffer and reports the length 0. -/
theorem get_data_copies (a : ReadAlloc) (h : Heap) (err : SDL_Error)
    (source : SDL_WaylandDataSource) (L : String) (null_terminate : Bool)
    (_hlab : Labelled source.mimes) :
    (∀ i e p P, a.ok = true → mime_data_list_find source.mimes L = some i →
      source.mimes[i]? = some e → e.data = some p → h.read p = some P →
      e.length = P.length → P ≠ [] →
      ∃ q h1, Wayland_data_source_get_data a h err (some source) L null_terminate =
          (some q, P.length, h1, err) ∧
        h.read q = none ∧
        h1.read q = some (if null_terminate then P ++ [0] else P) ∧
        ∀ p1, p1 < h.blocks.length → h1.read p1 = h.read p1) ∧
    (mime_data_list_find source.mimes L = none →
      Wayland_data_source_get_data a h err (some source) L null_terminate =
        (none, 0, h, err)) ∧
    (∀ i e, mime_data_list_find source.mimes L = some i → source.mimes[i]? = some e →
      e.data = none → e.length = 0 →
      Wayland_data_source_get_data a h err (some source) L null_terminate =
        (none, 0, h, err)) := by
  refine ⟨?_, ?_, ?_⟩
  · intro i e p P hok hf he hd hr hl hP
    obtain ⟨h1, heq, hread, hold⟩ :=
      source_get_data_copy a h err e p P null_terminate hok hd hr hl hP
    refine ⟨h.blocks.length, h1, ?_, ?_, hread, hold⟩
    · unfold Wayland_data_source_get_data
      simp only [find_entry _ _ _ _ hf he]
      exact heq
    · unfold Heap.read
      rw [List.getElem?_eq_none (Nat.le_refl _)]
      rfl
  · intro hf
    unfold Wayland_data_source_get_data
    simp [hf, Wayland_source_get_data]
  · intro i e hf he _ hl
    unfold Wayland_data_source_get_data
    simp only [find_entry _ _ _ _ hf he]
    simp [Wayland_source_get_data, hl]

/-- Witness for C2: source 1 of the example world holds the bytes 104, 105 under its
label. -/
theorem get_data_copies_witness :
    Labelled (exampleWorld.sources 1).mimes ∧
    ∃ q h1, Wayland_data_source_get_data { ok := true, junk := 7 } exampleWorld.heap none
        (some (exampleWorld.sources 1)) "text/plain;charset=utf-8" true =
          (some q, ([104, 105] : List Uint8).length, h1, none) ∧
      exampleWorld.heap.read q = none ∧
      h1.read q = some (if true = true then [104, 105] ++ [0] else [104, 105]) ∧
      ∀ p1, p1 < exampleWorld.heap.blocks.length → h1.read p1 = exampleWorld.heap.read p1 :=
  ⟨example_source_1_labelled,
   (get_data_copies { ok := true, junk := 7 } exampleWorld.heap none (exampleWorld.sources 1)
    "text/plain;charset=utf-8" true example_source_1_labelled).1 0
    { mime_type := some "text/plain;charset=utf-8", data := some 0, length := 2 } 0 [104, 105]
    rfl (by decide) (by decide) rfl (by decide) rfl (by decide)⟩

/-! ## C3: sending an unknown label -/

/-- C3: when the store of the source has no entry for the converted label, or the entry
has no payload, `Wayland_data_source_send` returns `-1` with the error "Invalid mime type";
the only thing done to the descriptor is one `close`: no poll, no write. -/
theorem send_invalid_mime_type (TEXT_MIME : String) (fuel : Nat) (fd : Fd) (err : SDL_Error)
    (h : Heap) (source : SDL_WaylandDataSource) (L : String)
    (_hlab : Labelled source.mimes)
    (hmiss : mime_data_list_find source.mimes (Wayland_convert_mime_type TEXT_MIME L) = none ∨
      ∃ i e, mime_data_list_find source.mimes (Wayland_convert_mime_type TEXT_MIME L) = some i ∧
        source.mimes[i]? = some e ∧ e.data = none) :
    ∃ fd1, Wayland_data_source_send TEXT_MIME fuel fd err h source L =
        some (-1, fd1, some "Invalid mime type") ∧
      fd1.trace = fd.trace ++ [FdEvent.close] ∧ fd1.polls = fd.polls ∧ fd1.calls = fd.calls := by
  refine ⟨fd.close, ?_, rfl, rfl, rfl⟩
  unfold Wayland_data_source_send Wayland_source_send
  rcases hmiss with hf | ⟨i, e, hf, he, hd⟩
  · simp [hf, SDL_SetError]
  · simp only [find_entry _ _ _ _ hf he]
    simp [hd, SDL_SetError]

/-- Witness for C3: source 1 of the example world has no entry for "image/png". -/
theorem send_invalid_mime_type_witness :
    Labelled (exampleWorld.sources 1).mimes ∧
    mime_data_list_find (exampleWorld.sources 1).mimes
      (Wayland_convert_mime_type exampleTextMime "image/png") = none ∧
    ∃ fd1, Wayland_data_source_send exampleTextMime 0 exampleFd none exampleWorld.heap
        (exampleWorld.sources 1) "image/png" = some (-1, fd1, some "Invalid mime type") ∧
      fd1.trace = exampleFd.trace ++ [FdEvent.close] ∧ fd1.polls = exampleFd.polls ∧
      fd1.calls = exampleFd.calls :=
  ⟨example_source_1_labelled, by decide,
   send_invalid_mime_type exampleTextMime 0 exampleFd none exampleWorld.heap
    (exampleWorld.sources 1) "image/png" example_source_1_labelled (Or.inl (by decide))⟩

/-! ## C4: sending a payload -/

theorem accepted_append (xs ys : List FdEvent) :
    accepted (xs ++ ys) = accepted xs ++ accepted ys := by
  induction xs with
  | nil => rfl
  | cons x rest ih =>
    cases x <;> simp [accepted, ih]

/-- The descriptor after the poll of a `write_pipe` or `read_pipe` call. -/
theorem SDL_IOReady_eq (fd : Fd) :
    fd.SDL_IOReady =
      (fd.ready fd.polls,
        { fd with polls := fd.polls + 1, trace := fd.trace ++ [FdEvent.poll] }) := rfl

/-- The C function `write_pipe` when the poll times out or fails. -/
theorem write_pipe_not_ready (fd : Fd) (err : SDL_Error) (h : Heap) (b : Option Ptr)
    (n pos : Nat) (hready : fd.ready fd.polls ≤ 0) :
    ∃ msg, write_pipe fd err h b n pos =
      (-1, pos, { fd with polls := fd.polls + 1, trace := fd.trace ++ [FdEvent.poll] },
        some msg) := by
  unfold write_pipe
  by_cases hz : fd.ready fd.polls = 0
  · exact ⟨"Pipe timeout", by simp [SDL_IOReady_eq, hz, SDL_SetError]⟩
  · have hneg : fd.ready fd.polls < 0 := by omega
    exact ⟨"Pipe select error", by simp [SDL_IOReady_eq, hz, hneg, SDL_SetError]⟩

/-- The C function `write_pipe` when the descriptor is ready and nothing is left to
write. -/
theorem write_pipe_done (fd : Fd) (err : SDL_Error) (h : Heap) (b : Option Ptr)
    (n pos : Nat) (hready : 0 < fd.ready fd.polls) (hpos : n ≤ pos) :
    write_pipe fd err h b n pos =
      (0, pos, { fd with polls := fd.polls + 1, trace := fd.trace ++ [FdEvent.poll] }, err) := by
  unfold write_pipe
  have hz : ¬ fd.ready fd.polls = 0 := by omega
  have hneg : ¬ fd.ready fd.polls < 0 := by omega
  have hlen : ¬ ((n : Int) - (pos : Int) > 0) := by omega
  simp [SDL_IOReady_eq, hz, hneg, hlen]

/-- The C function `write_pipe` when the descriptor is ready and bytes are left. -/
theorem write_pipe_write (fd : Fd) (err : SDL_Error) (h : Heap) (b : Option Ptr)
    (n pos : Nat) (hready : 0 < fd.ready fd.polls) (hpos : pos < n) :
    write_pipe fd err h b n pos =
      (Fd.write_result (fd.wr fd.calls)
          ((((b.bind h.read).getD []).drop pos).take (min (n - pos) PIPE_BUF)).length,
        (if Fd.write_result (fd.wr fd.calls)
            ((((b.bind h.read).getD []).drop pos).take (min (n - pos) PIPE_BUF)).length > 0
          then pos + (Fd.write_result (fd.wr fd.calls)
            ((((b.bind h.read).getD []).drop pos).take (min (n - pos) PIPE_BUF)).length).toNat
          else pos),
        { fd with
            polls := fd.polls + 1
            calls := fd.calls + 1
            trace := fd.trace ++ [FdEvent.poll,
              FdEvent.write ((((b.bind h.read).getD []).drop pos).take (min (n - pos) PIPE_BUF))
                (Fd.write_result (fd.wr fd.calls)
                  ((((b.bind h.read).getD []).drop pos).take
                    (min (n - pos) PIPE_BUF)).length)] },
        err) := by
  unfold write_pipe
  have hz : ¬ fd.ready fd.polls = 0 := by omega
  have hneg : ¬ fd.ready fd.polls < 0 := by omega
  have hlen : (n : Int) - (pos : Int) > 0 := by omega
  have hcount : (min ((n : Int) - (pos : Int)) (PIPE_BUF : Int)).toNat = min (n - pos) PIPE_BUF := by
    omega
  simp only [SDL_IOReady_eq, hz, hneg, hlen, if_true, if_false, Fd.write, hcount]
  split <;> simp [List.append_assoc]

/-- Two adjacent windows of a list make one window. -/
theorem take_drop_window (P : List Uint8) (a b c : Nat) (hab : a ≤ b) (hbc : b ≤ c) :
    (P.drop a).take (b - a) ++ (P.drop b).take (c - b) = (P.drop a).take (c - a) := by
  have hsplit : c - a = (b - a) + (c - b) := by omega
  rw [hsplit, List.take_add, List.drop_drop]
  have hb : a + (b - a) = b := by omega
  rw [hb]

/-- One call of `write_pipe` on a payload `P` from a position `pos` within it. -/
theorem write_pipe_step (fd : Fd) (err : SDL_Error) (h : Heap) (p : Ptr) (P : List Uint8)
    (pos : Nat) (hr : h.read p = some P) (hpos : pos ≤ P.length) :
    ∃ r pos1 fd1 err1 evs,
      write_pipe fd err h (some p) P.length pos = (r, pos1, fd1, err1) ∧
      fd1.trace = fd.trace ++ evs ∧ fd1.ready = fd.ready ∧ fd1.wr = fd.wr ∧
      pos ≤ pos1 ∧ pos1 ≤ P.length ∧ (r > 0 → pos < pos1) ∧ (r ≤ 0 → pos1 = pos) ∧
      accepted evs = (P.drop pos).take (pos1 - pos) ∧
      FdEvent.close ∉ evs ∧ writes_bounded evs ∧
      ((∀ i, 0 < fd.ready i) → (∀ i, (PIPE_BUF : Int) ≤ fd.wr i) → pos < P.length → r > 0) := by
  by_cases hready : 0 < fd.ready fd.polls
  · by_cases hlt : pos < P.length
    · have hlen : ((P.drop pos).take (min (P.length - pos) PIPE_BUF)).length =
          min (P.length - pos) PIPE_BUF := by
        simp
      have heq := write_pipe_write fd err h (some p) P.length pos hready hlt
      simp only [Option.some_bind, hr, Option.getD_some, hlen] at heq
      refine ⟨_, _, _, _, [FdEvent.poll, FdEvent.write _ _], heq, rfl, rfl, rfl, ?_, ?_, ?_, ?_,
        ?_, ?_, ?_, ?_⟩
      · split <;> omega
      · unfold Fd.write_result
        split
        · split <;> omega
        · split <;> omega
      · intro hgt
        rw [if_pos hgt]
        omega
      · intro hle
        have hng : ¬ Fd.write_result (fd.wr fd.calls) (min (P.length - pos) PIPE_BUF) > 0 := by
          omega
        rw [if_neg hng]
      · by_cases hgt : Fd.write_result (fd.wr fd.calls) (min (P.length - pos) PIPE_BUF) > 0
        · have hk : (Fd.write_result (fd.wr fd.calls) (min (P.length - pos) PIPE_BUF)).toNat ≤
              min (P.length - pos) PIPE_BUF := by
            unfold Fd.write_result at hgt ⊢
            split at hgt
            · omega
            · rename_i hnn
              rw [if_neg hnn]
              omega
          simp only [accepted, hgt, if_true, List.append_nil, List.take_take,
            Nat.add_sub_cancel_left, Nat.min_eq_left hk]
        · simp [accepted, hgt]
      · simp
      · intro offered result hmem
        simp only [List.mem_cons, List.mem_singleton, FdEvent.write.injEq] at hmem
        rcases hmem with hmem | hmem | hmem
        · cases hmem
        · rw [hmem.1, hlen]
          exact Nat.min_le_right _ _
        · simp at hmem
      · intro _ haccept _
        have hw := haccept fd.calls
        unfold Fd.write_result
        have hpb : (0 : Int) < PIPE_BUF := by decide
        split <;> omega
    · have heq := write_pipe_done fd err h (some p) P.length pos hready (by omega)
      refine ⟨_, _, _, _, [FdEvent.poll], heq, rfl, rfl, rfl, Nat.le_refl _, hpos, ?_, ?_, ?_,
        ?_, ?_, ?_⟩
      · intro hgt
        omega
      · intro _
        rfl
      · simp [accepted]
      · simp
      · intro offered result hmem
        simp at hmem
      · intro _ _ hlt2
        omega
  · obtain ⟨msg, heq⟩ := write_pipe_not_ready fd err h (some p) P.length pos (by omega)
    refine ⟨_, _, _, _, [FdEvent.poll], heq, rfl, rfl, rfl, Nat.le_refl _, hpos, ?_, ?_, ?_, ?_,
      ?_, ?_⟩
    · intro hgt
      omega
    · intro _
      rfl
    · simp [accepted]
    · simp
    · intro offered result hmem
      simp at hmem
    · intro hall _ _
      have := hall fd.polls
      omega

/-- The loop of `Wayland_source_send` on a payload `P` from a position `pos` within it:
with more fuel than bytes left it ends, at a position `k`, having handed over the bytes
between `pos` and `k`. -/
theorem send_loop_spec (fuel : Nat) (fd : Fd) (err : SDL_Error) (h : Heap) (p : Ptr)
    (P : List Uint8) (pos : Nat) (hr : h.read p = some P) (hpos : pos ≤ P.length)
    (hfuel : P.length - pos < fuel) :
    ∃ k fd1 err1 evs,
      Wayland_source_send_loop fuel fd err h (some p) P.length pos = some (k, fd1, err1) ∧
      fd1.trace = fd.trace ++ evs ∧ pos ≤ k ∧ k ≤ P.length ∧
      accepted evs = (P.drop pos).take (k - pos) ∧
      FdEvent.close ∉ evs ∧ writes_bounded evs ∧
      ((∀ i, 0 < fd.ready i) → (∀ i, (PIPE_BUF : Int) ≤ fd.wr i) → k = P.length) := by
  induction fuel generalizing fd err pos with
  | zero => omega
  | succ fuel ih =>
    obtain ⟨r, pos1, fd1, err1, evs, heq, htr, hrdy, hwr, hle, hle1, hgt, hnot, hacc, hcl, hbd,
      hall⟩ := write_pipe_step fd err h p P pos hr hpos
    unfold Wayland_source_send_loop
    rw [heq]
    by_cases hpos_r : r > 0
    · simp only [hpos_r, if_true]
      have hlt := hgt hpos_r
      obtain ⟨k, fd2, err2, evs2, heq2, htr2, hk1, hk2, hacc2, hcl2, hbd2, hall2⟩ :=
        ih fd1 err1 pos1 hle1 (by omega)
      refine ⟨k, fd2, err2, evs ++ evs2, heq2, ?_, by omega, hk2, ?_, ?_, ?_, ?_⟩
      · rw [htr2, htr, List.append_assoc]
      · rw [accepted_append, hacc, hacc2]
        exact take_drop_window P pos pos1 k hle hk1
      · simp only [List.mem_append, not_or]
        exact ⟨hcl, hcl2⟩
      · intro offered result hmem
        rcases List.mem_append.mp hmem with hm | hm
        · exact hbd offered result hm
        · exact hbd2 offered result hm
      · intro hready haccept
        exact hall2 (by rw [hrdy]; exact hready) (by rw [hwr]; exact haccept)
    · simp only [hpos_r, if_false]
      have hp1 : pos1 = pos := hnot (by omega)
      refine ⟨pos1, fd1, err1, evs, rfl, htr, hle, hle1, hacc, hcl, hbd, ?_⟩
      intro hready haccept
      by_contra hne
      have hlt : pos < P.length := by omega
      exact hpos_r (hall hready haccept hlt)

/-- C4: when the entry of the source for the converted label has a non-empty payload `P`,
`Wayland_data_source_send`, given more fuel than `P` has bytes, returns a number `k` (never
a failure), whatever the polls and writes on the descriptor do: the events on the
descriptor are those of the loop followed by one `close`, the loop itself closes nothing,
the bytes its writes handed over are the first `k` bytes of `P` in order, there are `k` of
them, and each write was offered at most `PIPE_BUF` bytes.  When every poll is ready and
every write takes all it is offered, `k` is the length of `P`. -/
theorem send_payload (TEXT_MIME : String) (fuel : Nat) (fd : Fd) (err : SDL_Error) (h : Heap)
    (source : SDL_WaylandDataSource) (L : String) (i : Nat) (e : SDL_MimeDataList) (p : Ptr)
    (P : List Uint8) (_hlab : Labelled source.mimes)
    (hf : mime_data_list_find source.mimes (Wayland_convert_mime_type TEXT_MIME L) = some i)
    (he : source.mimes[i]? = some e) (hd : e.data = some p) (hr : h.read p = some P)
    (hl : e.length = P.length) (hfuel : P.length < fuel) :
    ∃ (k : Nat) (fd1 : Fd) (err1 : SDL_Error) (evs : List FdEvent),
      Wayland_data_source_send TEXT_MIME fuel fd err h source L = some ((k : Int), fd1, err1) ∧
      fd1.trace = fd.trace ++ evs ++ [FdEvent.close] ∧ FdEvent.close ∉ evs ∧
      k ≤ P.length ∧ accepted evs = P.take k ∧ (accepted evs).length = k ∧
      writes_bounded evs ∧
      ((∀ i, 0 < fd.ready i) → (∀ i, (PIPE_BUF : Int) ≤ fd.wr i) → k = P.length) := by
  obtain ⟨k, fd1, err1, evs, heq, htr, _, hk, hacc, hcl, hbd, hall⟩ :=
    send_loop_spec fuel fd err h p P 0 hr (Nat.zero_le _) (by omega)
  have hacc1 : accepted evs = P.take k := by simpa using hacc
  refine ⟨k, fd1.close, err1, evs, ?_, ?_, hcl, hk, hacc1, ?_, hbd, hall⟩
  · unfold Wayland_data_source_send Wayland_source_send
    simp only [find_entry _ _ _ _ hf he, Option.some_bind, hd, Option.map_some', hl,
      Option.getD_some, heq]
  · simp [Fd.close, htr]
  · rw [hacc1, List.length_take]
    exact Nat.min_eq_left hk

/-- Witness for C4: source 1 of the example world is asked for "TEXT", which converts to
its label; its payload is the two bytes 104, 105. -/
theorem send_payload_witness :
    Labelled (exampleWorld.sources 1).mimes ∧
    mime_data_list_find (exampleWorld.sources 1).mimes
      (Wayland_convert_mime_type exampleTextMime "TEXT") = some 0 ∧
    exampleWorld.heap.read 0 = some [104, 105] ∧
    ∃ (k : Nat) (fd1 : Fd) (err1 : SDL_Error) (evs : List FdEvent),
      Wayland_data_source_send exampleTextMime 3 exampleFd none exampleWorld.heap
        (exampleWorld.sources 1) "TEXT" = some ((k : Int), fd1, err1) ∧
      fd1.trace = exampleFd.trace ++ evs ++ [FdEvent.close] ∧ FdEvent.close ∉ evs ∧
      k ≤ ([104, 105] : List Uint8).length ∧ accepted evs = ([104, 105] : List Uint8).take k ∧
      (accepted evs).length = k ∧ writes_bounded evs ∧
      ((∀ i, 0 < exampleFd.ready i) → (∀ i, (PIPE_BUF : Int) ≤ exampleFd.wr i) →
        k = ([104, 105] : List Uint8).length) :=
  ⟨example_source_1_labelled, by decide, by decide,
   send_payload exampleTextMime 3 exampleFd none exampleWorld.heap (exampleWorld.sources 1)
    "TEXT" 0 { mime_type := some "text/plain;charset=utf-8", data := some 0, length := 2 } 0
    [104, 105] example_source_1_labelled (by decide) (by decide) rfl (by decide) rfl
    (by decide)⟩

/-! ## C5: receiving chunks -/

theorem overwrite_append (xs ys c : List Uint8) :
    Heap.overwrite (xs ++ ys) xs.length c = xs ++ c ++ ys.drop c.length := by
  simp [Heap.overwrite, List.drop_append_eq_append_drop]

theorem overwrite_replicate_zero (old : List Uint8) (n : Nat) (junk : Uint8) :
    Heap.overwrite (List.replicate n junk) 0 old = old ++ List.replicate (n - old.length) junk := by
  simp [Heap.overwrite]

/-- The block that `SDL_realloc` returns holds the old bytes, then uninitialised ones. -/
theorem Heap.read_realloc (h : Heap) (b : Ptr) (old : List Uint8) (n : Nat) (junk : Uint8)
    (hr : h.read b = some old) (hle : old.length ≤ n) :
    (h.realloc b n junk).1 = h.blocks.length ∧
    (h.realloc b n junk).2.read h.blocks.length =
      some (old ++ List.replicate (n - old.length) junk) := by
  have hb : b < h.blocks.length := Heap.read_lt h b old hr
  have hnew := Heap.read_malloc_new h n junk
  rw [Heap.malloc_fst] at hnew
  unfold Heap.realloc
  simp only [hr, Option.getD_some, Heap.malloc_fst, true_and]
  rw [Heap.read_free_other _ _ _ (Nat.ne_of_lt hb), Heap.read_memcpy_same _ _ _ _ _ hnew,
    List.take_of_length_le hle, overwrite_replicate_zero old n junk]

/-- The C function `read_pipe` when the poll is not ready, the read fails, or the pipe is at
end of file: the result is not positive and neither the buffer, nor the length, nor the
heap changes. -/
theorem read_pipe_end (a : ReadAlloc) (fd : Fd) (err : SDL_Error) (h : Heap)
    (buffer : Option Ptr) (total : Nat) (null_terminate : Bool)
    (hend : fd.ready fd.polls ≤ 0 ∨ fd.rd fd.calls = none ∨ fd.rd fd.calls = some []) :
    (read_pipe a fd err h buffer total null_terminate).1 ≤ 0 ∧
    (read_pipe a fd err h buffer total null_terminate).2.1 = buffer ∧
    (read_pipe a fd err h buffer total null_terminate).2.2.1 = total ∧
    (read_pipe a fd err h buffer total null_terminate).2.2.2.2.1 = h := by
  unfold read_pipe
  simp only [SDL_IOReady_eq]
  by_cases hz : fd.ready fd.polls = 0
  · simp [hz, SDL_SetError]
  · by_cases hneg : fd.ready fd.polls < 0
    · simp [hz, hneg, SDL_SetError]
    · have hrd : fd.rd fd.calls = none ∨ fd.rd fd.calls = some [] := by
        rcases hend with h1 | h2
        · omega
        · exact h2
      rcases hrd with hrd | hrd
      · simp [hz, hneg, Fd.read, hrd]
      · simp [hz, hneg, Fd.read, hrd]

/-- The C function `read_pipe` when a chunk arrives and the allocation succeeds. -/
theorem read_pipe_chunk (a : ReadAlloc) (fd : Fd) (err : SDL_Error) (h : Heap)
    (buffer : Option Ptr) (total : Nat) (null_terminate : Bool) (c : List Uint8)
    (hready : 0 < fd.ready fd.polls) (hrd : fd.rd fd.calls = some c) (hc : c ≠ [])
    (hlen : c.length ≤ PIPE_BUF) (hok : a.ok = true) :
    read_pipe a fd err h buffer total null_terminate =
      ((c.length : Int),
        some (match buffer with
          | none => h.malloc (if null_terminate then total + c.length + 1
              else total + c.length) a.junk
          | some b => h.realloc b (if null_terminate then total + c.length + 1
              else total + c.length) a.junk).1,
        total + c.length,
        { fd with
            polls := fd.polls + 1
            calls := fd.calls + 1
            trace := fd.trace ++ [FdEvent.poll, FdEvent.read c.length c] },
        (if null_terminate then
          ((match buffer with
            | none => h.malloc (total + c.length + 1) a.junk
            | some b => h.realloc b (total + c.length + 1) a.junk).2.memcpy
              (match buffer with
                | none => h.malloc (total + c.length + 1) a.junk
                | some b => h.realloc b (total + c.length + 1) a.junk).1 total c).memcpy
              (match buffer with
                | none => h.malloc (total + c.length + 1) a.junk
                | some b => h.realloc b (total + c.length + 1) a.junk).1 (total + c.length) [0]
        else
          (match buffer with
            | none => h.malloc (total + c.length) a.junk
            | some b => h.realloc b (total + c.length) a.junk).2.memcpy
              (match buffer with
                | none => h.malloc (total + c.length) a.junk
                | some b => h.realloc b (total + c.length) a.junk).1 total c),
        err) := by
  have hz : ¬ fd.ready fd.polls = 0 := by omega
  have hneg : ¬ fd.ready fd.polls < 0 := by omega
  have hpos : 0 < c.length := List.length_pos.mpr hc
  have htake : c.take PIPE_BUF = c := List.take_of_length_le hlen
  unfold read_pipe
  simp only [SDL_IOReady_eq, hz, hneg, if_false, Fd.read, hrd, htake]
  have hgt : (c.length : Int) > 0 := by omega
  simp only [hgt, if_true, hok, Bool.not_true, Bool.false_eq_true, if_false, Int.toNat_ofNat,
    List.take_length]
  cases null_terminate <;> cases buffer <;> simp [List.append_assoc]

/-- After a chunk arrives, the buffer of the receive loop holds the bytes read so far
followed by the terminator. -/
theorem read_pipe_chunk_received (a : ReadAlloc) (fd : Fd) (err : SDL_Error) (h : Heap)
    (buffer : Option Ptr) (total : Nat) (null_terminate : Bool) (c data : List Uint8)
    (hready : 0 < fd.ready fd.polls) (hrd : fd.rd fd.calls = some c) (hc : c ≠ [])
    (hlen : c.length ≤ PIPE_BUF) (hok : a.ok = true)
    (hinv : Received h buffer total null_terminate data) :
    ∃ q fd1 h1,
      read_pipe a fd err h buffer total null_terminate =
        ((c.length : Int), some q, total + c.length, fd1, h1, err) ∧
      fd1.ready = fd.ready ∧ fd1.rd = fd.rd ∧ fd1.polls = fd.polls + 1 ∧
      fd1.calls = fd.calls + 1 ∧
      Received h1 (some q) (total + c.length) null_terminate (data ++ c) := by
  have hpos : 0 < c.length := List.length_pos.mpr hc
  obtain ⟨c0, crest, hcons⟩ := List.exists_cons_of_ne_nil hc
  refine ⟨_, _, _, read_pipe_chunk a fd err h buffer total null_terminate c hready hrd hc hlen
    hok, rfl, rfl, rfl, rfl, ?_⟩
  obtain ⟨htotal, hbuf⟩ := hinv
  refine ⟨by simp [htotal], ?_⟩
  cases buffer with
  | none =>
    simp only at hbuf
    subst hbuf
    simp only [List.length_nil] at htotal
    subst htotal
    cases null_terminate with
    | false =>
      simp only [Bool.false_eq_true, if_false, Nat.zero_add, Heap.malloc_fst, terminator,
        List.nil_append, List.append_nil]
      have hnew := Heap.read_malloc_new h c.length a.junk
      rw [Heap.malloc_fst] at hnew
      rw [Heap.read_memcpy_same _ _ _ _ _ hnew]
      simp [Heap.overwrite]
    | true =>
      simp only [if_true, Nat.zero_add, Heap.malloc_fst, terminator, List.nil_append]
      have hnew := Heap.read_malloc_new h (c.length + 1) a.junk
      rw [Heap.malloc_fst] at hnew
      have h2 := Heap.read_memcpy_same _ _ 0 c _ hnew
      rw [Heap.read_memcpy_same _ _ _ _ _ h2]
      simp [Heap.overwrite, List.replicate_succ']
  | some b =>
    simp only at hbuf
    cases null_terminate with
    | false =>
      simp only [terminator, Bool.false_eq_true, if_false, List.append_nil] at hbuf ⊢
      obtain ⟨hq, hread⟩ := Heap.read_realloc h b data (total + c.length) a.junk hbuf
        (by omega)
      rw [hq, Heap.read_memcpy_same _ _ _ _ _ hread, htotal, overwrite_append]
      simp
    | true =>
      simp only [terminator, if_true] at hbuf ⊢
      obtain ⟨hq, hread⟩ := Heap.read_realloc h b (data ++ [0]) (total + c.length + 1) a.junk
        hbuf (by simp; omega)
      have hshape : data ++ [0] ++ List.replicate (total + c.length + 1 - (data ++ [0]).length)
          a.junk = data ++ ((0 : Uint8) :: List.replicate c.length a.junk) := by
        simp [htotal]
      rw [hshape] at hread
      have h2 := Heap.read_memcpy_same _ _ total c _ hread
      rw [htotal, overwrite_append] at h2
      have hdrop : ((0 : Uint8) :: List.replicate c.length a.junk).drop c.length = [a.junk] := by
        rw [hcons]
        simp [List.replicate_succ']
      rw [hdrop] at h2
      rw [hq]
      rw [← htotal] at h2
      rw [Heap.read_memcpy_same _ _ _ _ _ h2]
      have hlen2 : total + c.length = (data ++ c).length := by simp [htotal]
      rw [hlen2, overwrite_append]
      simp

/-- The receive loop on a descriptor that delivers the chunks `chunks` and then ends: with
more fuel than chunks, it ends with the chunks appended to what was read before. -/
theorem receive_loop_spec (alloc : Nat → ReadAlloc) (null_terminate : Bool)
    (chunks : List (List Uint8)) :
    ∀ (fuel : Nat) (fd : Fd) (err : SDL_Error) (h : Heap) (buffer : Option Ptr) (total : Nat)
      (data : List Uint8),
      (∀ c ∈ chunks, c ≠ [] ∧ c.length ≤ PIPE_BUF) →
      (∀ j c, chunks[j]? = some c →
        0 < fd.ready (fd.polls + j) ∧ fd.rd (fd.calls + j) = some c) →
      (∀ j, (alloc j).ok = true) →
      (fd.ready (fd.polls + chunks.length) ≤ 0 ∨ fd.rd (fd.calls + chunks.length) = none ∨
        fd.rd (fd.calls + chunks.length) = some []) →
      chunks.length < fuel →
      Received h buffer total null_terminate data →
      ∃ buffer1 fd1 h1 err1,
        Wayland_data_offer_receive_loop alloc fuel fd err h buffer total null_terminate =
          some (buffer1, total + chunks.flatten.length, fd1, h1, err1) ∧
        Received h1 buffer1 (total + chunks.flatten.length) null_terminate
          (data ++ chunks.flatten) ∧
        (chunks = [] → buffer1 = buffer) ∧ (chunks ≠ [] → buffer1 ≠ none) := by
  induction chunks with
  | nil =>
    intro fuel fd err h buffer total data _ _ _ hend hfuel hinv
    cases fuel with
    | zero => simp at hfuel
    | succ fuel =>
      have hend1 := read_pipe_end (alloc fd.calls) fd err h buffer total null_terminate
        (by simpa using hend)
      unfold Wayland_data_offer_receive_loop
      rcases hrp : read_pipe (alloc fd.calls) fd err h buffer total null_terminate with
        ⟨r, b1, t1, fd1, h1, e1⟩
      rw [hrp] at hend1
      simp only at hend1
      obtain ⟨hr, hb, ht, hh⟩ := hend1
      subst hb ht hh
      have hnot : ¬ r > 0 := by omega
      simp only [hnot, if_false]
      refine ⟨b1, fd1, h1, e1, by simp, by simpa using hinv, fun _ => rfl, fun hne => ?_⟩
      exact absurd rfl hne
  | cons c rest ih =>
    intro fuel fd err h buffer total data hchunks hdeliver halloc hend hfuel hinv
    cases fuel with
    | zero => simp at hfuel
    | succ fuel =>
      obtain ⟨hc, hclen⟩ := hchunks c (List.mem_cons_self _ _)
      obtain ⟨hready, hrd⟩ := hdeliver 0 c (by simp)
      obtain ⟨q, fd1, h1, heq, hrdy1, hrd1, hpolls1, hcalls1, hinv1⟩ :=
        read_pipe_chunk_received (alloc fd.calls) fd err h buffer total null_terminate c data
          (by simpa using hready) (by simpa using hrd) hc hclen (halloc _) hinv
      have hpos : (c.length : Int) > 0 := by
        have := List.length_pos.mpr hc
        omega
      obtain ⟨buffer2, fd2, h2, err2, heq2, hinv2, _, _⟩ :=
        ih fuel fd1 err h1 (some q) (total + c.length) (data ++ c)
          (fun c1 hc1 => hchunks c1 (List.mem_cons_of_mem _ hc1))
          (by
            intro j c1 hj
            have := hdeliver (j + 1) c1 (by simpa using hj)
            rw [hrdy1, hrd1, hpolls1, hcalls1]
            have e1 : fd.polls + 1 + j = fd.polls + (j + 1) := by omega
            have e2 : fd.calls + 1 + j = fd.calls + (j + 1) := by omega
            rw [e1, e2]
            exact this)
          halloc
          (by
            rw [hrdy1, hrd1, hpolls1, hcalls1]
            have e1 : fd.polls + 1 + rest.length = fd.polls + (c :: rest).length := by
              simp; omega
            have e2 : fd.calls + 1 + rest.length = fd.calls + (c :: rest).length := by
              simp; omega
            rw [e1, e2]
            exact hend)
          (by simp at hfuel; omega)
          hinv1
      unfold Wayland_data_offer_receive_loop
      rw [heq]
      simp only [hpos, if_true]
      have hlen : total + (c :: rest).flatten.length = total + c.length + rest.flatten.length := by
        simp; omega
      refine ⟨buffer2, fd2, h2, err2, ?_, ?_, ?_, ?_⟩
      · rw [hlen]
        exact heq2
      · rw [hlen]
        simpa [List.append_assoc] using hinv2
      · intro hnil
        simp at hnil
      · intro _ hnone
        subst hnone
        obtain ⟨hl2, hd2⟩ := hinv2
        simp only at hd2
        have := List.append_eq_nil.mp hd2
        exact hc (List.append_eq_nil.mp this.1).2

/-- C5: when successive reads deliver the chunks `chunks` (each non-empty and of at most
`PIPE_BUF` bytes) and the next call meets a poll that is not ready, a failed read or a
zero-byte read, with every allocation succeeding, the read loop of
`Wayland_data_offer_receive`, started with no buffer and length 0 and given more fuel than
there are chunks, reports the sum of the chunk lengths.  With no chunk it returns no
buffer; otherwise it returns a block that holds the chunks in order, followed by exactly
one zero byte when `null_terminate` is true and by nothing when it is false. -/
theorem receive_loop_chunks (alloc : Nat → ReadAlloc) (null_terminate : Bool)
    (chunks : List (List Uint8)) (fuel : Nat) (fd : Fd) (err : SDL_Error) (h : Heap)
    (hchunks : ∀ c ∈ chunks, c ≠ [] ∧ c.length ≤ PIPE_BUF)
    (hdeliver : ∀ j c, chunks[j]? = some c →
      0 < fd.ready (fd.polls + j) ∧ fd.rd (fd.calls + j) = some c)
    (halloc : ∀ j, (alloc j).ok = true)
    (hend : fd.ready (fd.polls + chunks.length) ≤ 0 ∨
      fd.rd (fd.calls + chunks.length) = none ∨ fd.rd (fd.calls + chunks.length) = some [])
    (hfuel : chunks.length < fuel) :
    ∃ buffer fd1 h1 err1,
      Wayland_data_offer_receive_loop alloc fuel fd err h none 0 null_terminate =
        some (buffer, (chunks.map List.length).sum, fd1, h1, err1) ∧
      (chunks = [] → buffer = none) ∧
      (chunks ≠ [] → ∃ q, buffer = some q ∧
        h1.read q = some (chunks.flatten ++ if null_terminate then [0] else [])) := by
  obtain ⟨buffer, fd1, h1, err1, heq, hinv, hnil, hcons⟩ :=
    receive_loop_spec alloc null_terminate chunks fuel fd err h none 0 [] hchunks hdeliver
      halloc hend hfuel ⟨rfl, rfl⟩
  rw [Nat.zero_add, List.length_flatten] at heq
  refine ⟨buffer, fd1, h1, err1, heq, hnil, ?_⟩
  intro hne
  cases hb : buffer with
  | none => exact absurd hb (hcons hne)
  | some q =>
    refine ⟨q, rfl, ?_⟩
    obtain ⟨_, hread⟩ := hinv
    rw [hb] at hread
    simpa [terminator] using hread

/-- Witness for C5: the example descriptor delivers the chunks 1, 2 and 3 and then is at
end of file. -/
theorem receive_loop_chunks_witness :
    (∀ c ∈ ([[1, 2], [3]] : List (List Uint8)), c ≠ [] ∧ c.length ≤ PIPE_BUF) ∧
    ∃ buffer fd1 h1 err1,
      Wayland_data_offer_receive_loop (fun _ => { ok := true, junk := 9 }) 3 exampleReadFd none
          { blocks := [] } none 0 true =
        some (buffer, (([[1, 2], [3]] : List (List Uint8)).map List.length).sum, fd1, h1,
          err1) ∧
      (([[1, 2], [3]] : List (List Uint8)) = [] → buffer = none) ∧
      (([[1, 2], [3]] : List (List Uint8)) ≠ [] → ∃ q, buffer = some q ∧
        h1.read q = some (([[1, 2], [3]] : List (List Uint8)).flatten ++
          if true = true then [0] else [])) :=
  ⟨by decide,
   receive_loop_chunks (fun _ => { ok := true, junk := 9 }) true [[1, 2], [3]] 3 exampleReadFd
    none { blocks := [] } (by decide)
    (by
      intro j c hj
      rcases j with _ | _ | j
      · simp at hj
        subst hj
        decide
      · simp at hj
        subst hj
        decide
      · simp at hj)
    (fun _ => rfl) (by decide) (by decide)⟩

/-! ## C12: label conversion -/

/-- The four rows of the table, one case each. -/
theorem convert_cases (T L : String) :
    Wayland_convert_mime_type T L =
      if L = "text/plain" ∨ L = "TEXT" ∨ L = "UTF8_STRING" ∨ L = "STRING" then T else L := by
  unfold Wayland_convert_mime_type mime_conversion_list
  by_cases h1 : L = "text/plain"
  · simp [h1]
  · by_cases h2 : L = "TEXT"
    · simp [h2]
    · by_cases h3 : L = "UTF8_STRING"
      · simp [h3]
      · by_cases h4 : L = "STRING"
        · simp [h4]
        · have e1 : ¬ "text/plain" = L := fun h => h1 h.symm
          have e2 : ¬ "TEXT" = L := fun h => h2 h.symm
          have e3 : ¬ "UTF8_STRING" = L := fun h => h3 h.symm
          have e4 : ¬ "STRING" = L := fun h => h4 h.symm
          simp [List.find?, h1, h2, h3, h4, e1, e2, e3, e4]

theorem mem_alias_labels (L : String) :
    L ∈ alias_labels ↔ L = "text/plain" ∨ L = "TEXT" ∨ L = "UTF8_STRING" ∨ L = "STRING" := by
  simp [alias_labels]

/-- An alias converts to the canonical label. -/
theorem convert_alias (T L : String) (hL : L ∈ alias_labels) :
    Wayland_convert_mime_type T L = T := by
  rw [convert_cases, if_pos ((mem_alias_labels L).mp hL)]

/-- A label that is no alias converts to itself. -/
theorem convert_other (T L : String) (hL : L ∉ alias_labels) :
    Wayland_convert_mime_type T L = L := by
  rw [convert_cases, if_neg (fun h => hL ((mem_alias_labels L).mpr h))]

/-- The canonical label converts to itself. -/
theorem convert_canonical (T : String) : Wayland_convert_mime_type T T = T := by
  rw [convert_cases]
  split <;> rfl

/-- C12: `Wayland_convert_mime_type` maps each of the four labels "text/plain", "TEXT",
"UTF8_STRING", "STRING" to the canonical text label `TEXT_MIME`, maps every other label to
itself (labels are compared exactly: "text" and "Text/Plain" are no aliases), and is
idempotent. -/
theorem convert_mime_type_spec (TEXT_MIME : String) :
    Wayland_convert_mime_type TEXT_MIME "text/plain" = TEXT_MIME ∧
    Wayland_convert_mime_type TEXT_MIME "TEXT" = TEXT_MIME ∧
    Wayland_convert_mime_type TEXT_MIME "UTF8_STRING" = TEXT_MIME ∧
    Wayland_convert_mime_type TEXT_MIME "STRING" = TEXT_MIME ∧
    (∀ L, L ≠ "text/plain" → L ≠ "TEXT" → L ≠ "UTF8_STRING" → L ≠ "STRING" →
      Wayland_convert_mime_type TEXT_MIME L = L) ∧
    Wayland_convert_mime_type TEXT_MIME "text" = "text" ∧
    Wayland_convert_mime_type TEXT_MIME "Text/Plain" = "Text/Plain" ∧
    (∀ L, Wayland_convert_mime_type TEXT_MIME (Wayland_convert_mime_type TEXT_MIME L) =
      Wayland_convert_mime_type TEXT_MIME L) := by
  refine ⟨convert_alias _ _ (by decide), convert_alias _ _ (by decide),
    convert_alias _ _ (by decide), convert_alias _ _ (by decide), ?_,
    convert_other _ _ (by decide), convert_other _ _ (by decide), ?_⟩
  · intro L h1 h2 h3 h4
    apply convert_other
    rw [mem_alias_labels]
    rintro (h | h | h | h)
    · exact h1 h
    · exact h2 h
    · exact h3 h
    · exact h4 h
  · intro L
    by_cases hL : L ∈ alias_labels
    · rw [convert_alias _ _ hL, convert_canonical]
    · rw [convert_other _ _ hL, convert_other _ _ hL]

/-! ## C11: which operations convert the label -/

/-- C11, as stated, fails.  Source 1 of the example world holds the bytes 104, 105 under the
canonical text label, and "TEXT" converts to that label; yet
`Wayland_data_source_has_mime` answers false for "TEXT" and true for the canonical label,
and `Wayland_data_source_get_data` returns no buffer and length 0 for "TEXT" and a buffer
of length 2 for the canonical label. -/
theorem lookup_alias_counterexample :
    Wayland_convert_mime_type exampleTextMime "TEXT" = exampleTextMime ∧
    Wayland_data_source_has_mime (some (exampleWorld.sources 1)) "TEXT" = false ∧
    Wayland_data_source_has_mime (some (exampleWorld.sources 1)) exampleTextMime = true ∧
    Wayland_data_source_get_data { ok := true, junk := 0 } exampleWorld.heap none
      (some (exampleWorld.sources 1)) "TEXT" false = (none, 0, exampleWorld.heap, none) ∧
    (Wayland_data_source_get_data { ok := true, junk := 0 } exampleWorld.heap none
      (some (exampleWorld.sources 1)) exampleTextMime false).1 = some 2 ∧
    (Wayland_data_source_get_data { ok := true, junk := 0 } exampleWorld.heap none
      (some (exampleWorld.sources 1)) exampleTextMime false).2.1 = 2 := by
  decide

/-- C11 (amended): of the operations on a data source only `Wayland_data_source_send`
converts the label: called with one of the four alias labels it gives the same result as
with the canonical text label.  `Wayland_data_source_has_mime` and
`Wayland_data_source_get_data` look the label up as it is given: `has_mime` says whether
the store has an entry under that very label, and when the store has none under the alias
itself they report absence (false; no buffer and length 0), whatever is stored under the
canonical label. -/
theorem lookups_take_label_as_given (TEXT_MIME : String) (fuel : Nat) (fd : Fd)
    (err : SDL_Error) (h : Heap) (source : SDL_WaylandDataSource) (L : String)
    (hL : L ∈ alias_labels) (_hlab : Labelled source.mimes) :
    Wayland_data_source_send TEXT_MIME fuel fd err h source L =
      Wayland_data_source_send TEXT_MIME fuel fd err h source TEXT_MIME ∧
    Wayland_data_source_has_mime (some source) L =
      (mime_data_list_find source.mimes L).isSome ∧
    (mime_data_list_find source.mimes L = none →
      Wayland_data_source_has_mime (some source) L = false ∧
      ∀ a null_terminate,
        Wayland_data_source_get_data a h err (some source) L null_terminate =
          (none, 0, h, err)) := by
  refine ⟨?_, rfl, ?_⟩
  · unfold Wayland_data_source_send
    rw [convert_alias _ _ hL, convert_canonical]
  · intro hf
    refine ⟨by simp [Wayland_data_source_has_mime, hf], ?_⟩
    intro a null_terminate
    simp [Wayland_data_source_get_data, hf, Wayland_source_get_data]

/-- Witness for C11 (amended): "TEXT" is an alias, and source 1 of the example world has no
entry under "TEXT" itself. -/
theorem lookups_take_label_as_given_witness :
    "TEXT" ∈ alias_labels ∧ Labelled (exampleWorld.sources 1).mimes ∧
    mime_data_list_find (exampleWorld.sources 1).mimes "TEXT" = none ∧
    Wayland_data_source_has_mime (some (exampleWorld.sources 1)) "TEXT" = false :=
  ⟨by decide, example_source_1_labelled, by decide,
   ((lookups_take_label_as_given exampleTextMime 3 exampleFd none exampleWorld.heap
      (exampleWorld.sources 1) "TEXT" (by decide) example_source_1_labelled).2.2
      (by decide)).1⟩

/-! ## C13: the offers of set_selection -/

/-- The offers of the loop, entry by entry: the label of the entry, and the four aliases
after a canonical text label. -/
theorem offer_calls_eq (TEXT_MIME : String) (source : Option Nat) (list : MimeList) :
    offer_calls TEXT_MIME source list =
      list.flatMap (fun e =>
        Call.wl_data_source_offer source e.mime_type ::
          if e.mime_type = some TEXT_MIME then
            alias_labels.map (fun l => Call.wl_data_source_offer source (some l))
          else []) := by
  induction list with
  | nil => rfl
  | cons md rest ih =>
    rw [offer_calls, List.flatMap_cons, ih]
    by_cases hm : md.mime_type = some TEXT_MIME
    · rw [hm]
      simp [mime_conversion_list, alias_labels]
    · have hm2 : ¬ some TEXT_MIME = md.mime_type := fun h => hm h.symm
      simp [mime_conversion_list, hm, hm2]

theorem offer_calls_length (TEXT_MIME : String) (source : Option Nat) (list : MimeList) :
    (offer_calls TEXT_MIME source list).length =
      list.length + 4 * list.countP (fun e => e.mime_type = some TEXT_MIME) := by
  rw [offer_calls_eq]
  induction list with
  | nil => rfl
  | cons md rest ih =>
    rw [List.flatMap_cons, List.length_append, ih, List.countP_cons]
    by_cases hm : md.mime_type = some TEXT_MIME
    · simp [hm, alias_labels]
      omega
    · simp [hm]
      omega

theorem offer_calls_filter_offer (TEXT_MIME : String) (source : Option Nat) (list : MimeList) :
    (offer_calls TEXT_MIME source list).filter Call.is_offer =
      offer_calls TEXT_MIME source list :=
  List.filter_eq_self.mpr (offer_calls_are_offers TEXT_MIME source list)

theorem set_selection_call_no_offer (w : World) (d s : Nat) :
    (set_selection_call w d s).filter Call.is_offer = [] := by
  unfold set_selection_call
  split <;> simp [Call.is_offer]

theorem destroy_calls_no_offer (w : World) (o : Option Nat) :
    (destroy_calls_of w o).filter Call.is_offer = [] := by
  cases o <;> simp [destroy_calls_of, Call.is_offer]

/-- C13: for a source with at least one entry, the offer calls that
`Wayland_data_device_set_selection` issues are, for each entry in the order of the store,
one offer of the label of the entry and, when that label is the canonical text label, one
offer of each of the four alias labels after it.  Their number is the number `n` of entries
plus four for each canonical text entry: `n` when the store has no canonical text entry,
`n + 4` when it has one. -/
theorem set_selection_offers (TEXT_MIME : String) (w : World) (d s : Nat)
    (hne : (w.sources s).mimes ≠ []) (_hlab : Labelled (w.sources s).mimes) :
    ∃ new, (Wayland_data_device_set_selection TEXT_MIME w (some d) (some s)).2.calls =
        w.calls ++ new ∧
      new.filter Call.is_offer =
        (w.sources s).mimes.flatMap (fun e =>
          Call.wl_data_source_offer (w.sources s).source e.mime_type ::
            if e.mime_type = some TEXT_MIME then
              [Call.wl_data_source_offer (w.sources s).source (some "text/plain"),
               Call.wl_data_source_offer (w.sources s).source (some "TEXT"),
               Call.wl_data_source_offer (w.sources s).source (some "UTF8_STRING"),
               Call.wl_data_source_offer (w.sources s).source (some "STRING")]
            else []) ∧
      (new.filter Call.is_offer).length = (w.sources s).mimes.length +
        4 * (w.sources s).mimes.countP (fun e => e.mime_type = some TEXT_MIME) ∧
      ((w.sources s).mimes.countP (fun e => e.mime_type = some TEXT_MIME) = 0 →
        (new.filter Call.is_offer).length = (w.sources s).mimes.length) ∧
      ((w.sources s).mimes.countP (fun e => e.mime_type = some TEXT_MIME) = 1 →
        (new.filter Call.is_offer).length = (w.sources s).mimes.length + 4) := by
  obtain ⟨_, hc, _, _, _, _⟩ := set_selection_nonempty TEXT_MIME w d s hne
  have hfil : (offer_calls TEXT_MIME (w.sources s).source (w.sources s).mimes ++
      set_selection_call w d s ++ destroy_calls_of w (w.devices d).selection_source).filter
        Call.is_offer = offer_calls TEXT_MIME (w.sources s).source (w.sources s).mimes := by
    simp only [List.filter_append, offer_calls_filter_offer, set_selection_call_no_offer,
      destroy_calls_no_offer, List.append_nil]
  refine ⟨offer_calls TEXT_MIME (w.sources s).source (w.sources s).mimes ++
      set_selection_call w d s ++ destroy_calls_of w (w.devices d).selection_source, ?_, ?_, ?_,
      ?_, ?_⟩
  · rw [hc]
    simp only [List.append_assoc]
  · rw [hfil, offer_calls_eq]
    rfl
  · rw [hfil, offer_calls_length]
  · intro h0
    rw [hfil, offer_calls_length, h0]
    omega
  · intro h1
    rw [hfil, offer_calls_length, h1]

/-- Witness for C13: source 3 of the example world has two entries, none with the canonical
text label. -/
theorem set_selection_offers_witness :
    (exampleWorld.sources 3).mimes ≠ [] ∧ Labelled (exampleWorld.sources 3).mimes ∧
    ∃ new, (Wayland_data_device_set_selection exampleTextMime exampleWorld (some 1)
        (some 3)).2.calls = exampleWorld.calls ++ new ∧
      (new.filter Call.is_offer).length = (exampleWorld.sources 3).mimes.length +
        4 * (exampleWorld.sources 3).mimes.countP
          (fun e => e.mime_type = some exampleTextMime) := by
  obtain ⟨new, h1, _, h3, _⟩ := set_selection_offers exampleTextMime exampleWorld 1 3
    (by decide) example_source_3_labelled
  exact ⟨by decide, example_source_3_labelled, new, h1, h3⟩

/-! ## C14: the same source set again -/

/-- C14 fails on the code.  In the example world device 1 has no active source and source 3
(handle 13) holds two entries, the first with its payload in block 1.  After
`Wayland_data_device_set_selection(device, source)` source 3 is the active source; the same
call again releases it, protocol handle, payload and object, and leaves the device pointing
to the released object. -/
theorem set_selection_same_source_released :
    (exampleWorld.devices 1).selection_source = none ∧
    ((Wayland_data_device_set_selection exampleTextMime exampleWorld (some 1)
      (some 3)).2.devices 1).selection_source = some 3 ∧
    (Wayland_data_device_set_selection exampleTextMime exampleWorld (some 1)
      (some 3)).2.calls.filter Call.is_release = [] ∧
    (set_selection_twice exampleTextMime exampleWorld 1 3 3).1 = 0 ∧
    (set_selection_twice exampleTextMime exampleWorld 1 3 3).2.calls.filter Call.is_release =
      [Call.wl_data_source_destroy (some 13), Call.SDL_free_source 3] ∧
    exampleWorld.heap.read 1 = some [1, 2, 3] ∧
    (set_selection_twice exampleTextMime exampleWorld 1 3 3).2.heap.read 1 = none ∧
    ((set_selection_twice exampleTextMime exampleWorld 1 3 3).2.devices 1).selection_source =
      some 3 := by
  decide

/-! ## C15, C16, C20: the entries of a store -/

theorem set_payload_labels (list : MimeList) (i : Nat) (p : Ptr) (n : Nat) :
    (set_payload list i p n).map (·.mime_type) = list.map (·.mime_type) := by
  induction list generalizing i with
  | nil => rfl
  | cons x rest ih =>
    cases i with
    | zero => simp [set_payload]
    | succ j => simp [set_payload, ih j]

theorem set_payload_length (list : MimeList) (i : Nat) (p : Ptr) (n : Nat) :
    (set_payload list i p n).length = list.length := by
  have h := congrArg List.length (set_payload_labels list i p n)
  simpa using h

/-- The lookup finds nothing exactly when no entry carries the label. -/
theorem find_none_iff (list : MimeList) (L : String) :
    mime_data_list_find list L = none ↔ some L ∉ list.map (·.mime_type) := by
  induction list with
  | nil => simp [mime_data_list_find]
  | cons x rest ih =>
    unfold mime_data_list_find
    by_cases hx : x.mime_type = some L
    · simp [hx]
    · have hx2 : ¬ some L = x.mime_type := fun h => hx h.symm
      simp only [hx, if_false, Option.map_eq_none', ih, List.map_cons, List.mem_cons, hx2,
        false_or]

/-- The store after `mime_data_list_add`, whatever its allocations do: the store as it was,
the store with a new payload in the entry found, or the store with one new entry in
front. -/
theorem mime_data_list_add_store (a : Alloc) (h : Heap) (list : MimeList) (L : String)
    (b : Option Ptr) (n : Nat) :
    (mime_data_list_add a h list L b n).2.1 = list ∨
    (∃ i, mime_data_list_find list L = some i ∧ b ≠ none ∧ 0 < n ∧
      (mime_data_list_add a h list L b n).2.1 = set_payload list i h.blocks.length n) ∨
    (∃ e, mime_data_list_find list L = none ∧
      (mime_data_list_add a h list L b n).2.1 = e :: list ∧
      (e.mime_type = some L ∨ (e.mime_type = none ∧ a.label = false)) ∧
      ((e.data = none ∧ e.length = 0) ∨
        (b ≠ none ∧ 0 < n ∧ e.data = some h.blocks.length ∧ e.length = n))) := by
  unfold mime_data_list_add
  by_cases hfail : (b.isSome && !a.buffer) = true
  · left
    simp [hfail]
  · simp only [hfail, if_false]
    cases hf : mime_data_list_find list L with
    | some i =>
      cases b with
      | none => left; simp
      | some bp =>
        by_cases hn : 0 < n
        · right; left
          exact ⟨i, rfl, by simp, hn, by simp [hn, Heap.malloc]⟩
        · left
          simp [hn]
    | none =>
      by_cases hent : a.entry = true
      · right; right
        by_cases hlab : a.label = true
        · cases b with
          | none =>
            exact ⟨{ mime_type := some L, data := none, length := 0 }, rfl,
              by simp [hent, hlab], Or.inl rfl, Or.inl ⟨rfl, rfl⟩⟩
          | some bp =>
            by_cases hn : 0 < n
            · exact ⟨{ mime_type := some L, data := some h.blocks.length, length := n }, rfl,
                by simp [hent, hlab, hn, Heap.malloc, set_payload], Or.inl rfl,
                Or.inr ⟨by simp, hn, rfl, rfl⟩⟩
            · exact ⟨{ mime_type := some L, data := none, length := 0 }, rfl,
                by simp [hent, hlab, hn], Or.inl rfl, Or.inl ⟨rfl, rfl⟩⟩
        · have hlab2 : a.label = false := by simpa using hlab
          cases b with
          | none =>
            exact ⟨{ mime_type := none, data := none, length := 0 }, rfl,
              by simp [hent, hlab2], Or.inr ⟨rfl, hlab2⟩, Or.inl ⟨rfl, rfl⟩⟩
          | some bp =>
            by_cases hn : 0 < n
            · exact ⟨{ mime_type := none, data := some h.blocks.length, length := n }, rfl,
                by simp [hent, hlab2, hn, Heap.malloc, set_payload], Or.inr ⟨rfl, hlab2⟩,
                Or.inr ⟨by simp, hn, rfl, rfl⟩⟩
            · exact ⟨{ mime_type := none, data := none, length := 0 }, rfl,
                by simp [hent, hlab2, hn], Or.inr ⟨rfl, hlab2⟩, Or.inl ⟨rfl, rfl⟩⟩
      · left
        have hent2 : a.entry = false := by simpa using hent
        cases b <;> simp [hent2]

/-- An addition for a label that has an entry keeps the number and the labels of the
entries, whatever its allocations do. -/
theorem mime_data_list_add_present (a : Alloc) (h : Heap) (list : MimeList) (L : String)
    (b : Option Ptr) (n : Nat) (i : Nat) (hf : mime_data_list_find list L = some i) :
    (mime_data_list_add a h list L b n).2.1.length = list.length ∧
    (mime_data_list_add a h list L b n).2.1.map (·.mime_type) = list.map (·.mime_type) := by
  rcases mime_data_list_add_store a h list L b n with heq | ⟨j, _, _, _, heq⟩ | ⟨e, hnone, _⟩
  · rw [heq]
    exact ⟨rfl, rfl⟩
  · rw [heq]
    exact ⟨set_payload_length _ _ _ _, set_payload_labels _ _ _ _⟩
  · rw [hf] at hnone
    exact absurd hnone (by simp)

/-- A successful addition for a label that has no entry puts one entry with that label in
front of the store. -/
theorem mime_data_list_add_absent (a : Alloc) (h : Heap) (list : MimeList) (L : String)
    (b : Option Ptr) (n : Nat) (hbuf : a.buffer = true) (hent : a.entry = true)
    (hlab : a.label = true) (hf : mime_data_list_find list L = none) :
    (mime_data_list_add a h list L b n).1 = 0 ∧
    ∃ e, (mime_data_list_add a h list L b n).2.1 = e :: list ∧ e.mime_type = some L := by
  unfold mime_data_list_add
  cases b with
  | none =>
    exact ⟨by simp [hf, hent, hlab],
      { mime_type := some L, data := none, length := 0 }, by simp [hf, hent, hlab], rfl⟩
  | some bp =>
    by_cases hn : 0 < n
    · exact ⟨by simp [hbuf, hf, hent, hlab, hn],
        { mime_type := some L, data := some h.blocks.length, length := n },
        by simp [hbuf, hf, hent, hlab, hn, Heap.malloc, set_payload], rfl⟩
    · exact ⟨by simp [hbuf, hf, hent, hlab, hn],
        { mime_type := some L, data := none, length := 0 },
        by simp [hbuf, hf, hent, hlab, hn], rfl⟩

/-- A successful addition keeps the entries labelled and their labels distinct. -/
theorem mime_data_list_add_keeps_unique (c : AddCall) (h : Heap) (list : MimeList)
    (hok : c.allocated) (hlab : Labelled list) (hnd : (list.map (·.mime_type)).Nodup) :
    Labelled (mime_data_list_add c.alloc h list c.mime_type c.buffer c.length).2.1 ∧
    ((mime_data_list_add c.alloc h list c.mime_type c.buffer c.length).2.1.map
      (·.mime_type)).Nodup := by
  cases hf : mime_data_list_find list c.mime_type with
  | some i =>
    obtain ⟨_, hlabels⟩ :=
      mime_data_list_add_present c.alloc h list c.mime_type c.buffer c.length i hf
    refine ⟨?_, by rw [hlabels]; exact hnd⟩
    intro e he hnone
    have hmem : e.mime_type ∈ (mime_data_list_add c.alloc h list c.mime_type c.buffer
        c.length).2.1.map (·.mime_type) := List.mem_map_of_mem _ he
    rw [hlabels, List.mem_map] at hmem
    obtain ⟨e0, he0, heq⟩ := hmem
    exact hlab e0 he0 (heq.trans hnone)
  | none =>
    obtain ⟨_, e, heq, hm⟩ := mime_data_list_add_absent c.alloc h list c.mime_type c.buffer
      c.length hok.1 hok.2.1 hok.2.2 hf
    rw [heq]
    refine ⟨?_, ?_⟩
    · intro e1 he1
      rcases List.mem_cons.mp he1 with rfl | hrest
      · rw [hm]
        simp
      · exact hlab e1 hrest
    · rw [List.map_cons, List.nodup_cons, hm]
      exact ⟨(find_none_iff list c.mime_type).mp hf, hnd⟩

/-- The invariant of a store built by successful additions. -/
theorem mime_data_list_add_all_unique (calls : List AddCall) :
    ∀ (h : Heap) (list : MimeList), (∀ c ∈ calls, c.allocated) → Labelled list →
      (list.map (·.mime_type)).Nodup →
      Labelled (mime_data_list_add_all h list calls).1 ∧
      ((mime_data_list_add_all h list calls).1.map (·.mime_type)).Nodup := by
  induction calls with
  | nil =>
    intro h list _ hlab hnd
    exact ⟨hlab, hnd⟩
  | cons c rest ih =>
    intro h list hok hlab hnd
    obtain ⟨hlab1, hnd1⟩ :=
      mime_data_list_add_keeps_unique c h list (hok c (List.mem_cons_self _ _)) hlab hnd
    exact ih _ _ (fun c1 hc1 => hok c1 (List.mem_cons_of_mem _ hc1)) hlab1 hnd1

/-- C15: in a store built from the empty store by any sequence of `mime_data_list_add`
calls, with or without payload and with every allocation succeeding, every entry has a
label and no two entries carry the same label; and a further `mime_data_list_add` for a
label that has an entry leaves the number of entries unchanged. -/
theorem add_all_labels_unique (h : Heap) (calls : List AddCall)
    (hok : ∀ c ∈ calls, c.allocated) :
    Labelled (mime_data_list_add_all h [] calls).1 ∧
    ((mime_data_list_add_all h [] calls).1.map (·.mime_type)).Nodup ∧
    (∀ (i j : Nat) (e1 e2 : SDL_MimeDataList),
      (mime_data_list_add_all h [] calls).1[i]? = some e1 →
      (mime_data_list_add_all h [] calls).1[j]? = some e2 →
      e1.mime_type = e2.mime_type → i = j) ∧
    ∀ (a : Alloc) (L : String) (b : Option Ptr) (n i : Nat),
      mime_data_list_find (mime_data_list_add_all h [] calls).1 L = some i →
      (mime_data_list_add a (mime_data_list_add_all h [] calls).2
        (mime_data_list_add_all h [] calls).1 L b n).2.1.length =
        (mime_data_list_add_all h [] calls).1.length := by
  obtain ⟨hlab, hnd⟩ := mime_data_list_add_all_unique calls h [] hok
    (by intro e he; simp at he) (by simp)
  refine ⟨hlab, hnd, ?_, ?_⟩
  · intro i j e1 e2 h1 h2 heq
    have hi : ((mime_data_list_add_all h [] calls).1.map (·.mime_type))[i]? =
        some e1.mime_type := by simp [h1]
    have hj : ((mime_data_list_add_all h [] calls).1.map (·.mime_type))[j]? =
        some e1.mime_type := by simp [h2, heq]
    exact (List.nodup_iff_getElem?_ne_getElem?.mp hnd) |> fun hne => by
      by_contra hij
      rcases Nat.lt_or_gt_of_ne hij with hlt | hgt
      · have hjlt : j < ((mime_data_list_add_all h [] calls).1.map (·.mime_type)).length := by
          rcases List.getElem?_eq_some.mp hj with ⟨hl, _⟩
          exact hl
        exact hne i j hlt hjlt (by rw [hi, hj])
      · have hilt : i < ((mime_data_list_add_all h [] calls).1.map (·.mime_type)).length := by
          rcases List.getElem?_eq_some.mp hi with ⟨hl, _⟩
          exact hl
        exact hne j i hgt hilt (by rw [hi, hj])
  · intro a L b n i hf
    exact (mime_data_list_add_present a _ _ L b n i hf).1

/-- Witness for C15: three successful additions, the third for the label of the first. -/
theorem add_all_labels_unique_witness :
    (∀ c ∈ ([{ alloc := { buffer := true, entry := true, label := true, junk := 0 },
               mime_type := "a", buffer := none, length := 0 },
             { alloc := { buffer := true, entry := true, label := true, junk := 0 },
               mime_type := "b", buffer := some 0, length := 2 },
             { alloc := { buffer := true, entry := true, label := true, junk := 0 },
               mime_type := "a", buffer := some 0, length := 1 }] : List AddCall),
      c.allocated) ∧
    ((mime_data_list_add_all { blocks := [some [1, 2]] } []
      [{ alloc := { buffer := true, entry := true, label := true, junk := 0 },
         mime_type := "a", buffer := none, length := 0 },
       { alloc := { buffer := true, entry := true, label := true, junk := 0 },
         mime_type := "b", buffer := some 0, length := 2 },
       { alloc := { buffer := true, entry := true, label := true, junk := 0 },
         mime_type := "a", buffer := some 0, length := 1 }]).1.map (·.mime_type)).Nodup :=
  ⟨by
    intro c hc
    simp at hc
    rcases hc with rfl | rfl | rfl <;> exact ⟨rfl, rfl, rfl⟩,
   (add_all_labels_unique { blocks := [some [1, 2]] }
      [{ alloc := { buffer := true, entry := true, label := true, junk := 0 },
         mime_type := "a", buffer := none, length := 0 },
       { alloc := { buffer := true, entry := true, label := true, junk := 0 },
         mime_type := "b", buffer := some 0, length := 2 },
       { alloc := { buffer := true, entry := true, label := true, junk := 0 },
         mime_type := "a", buffer := some 0, length := 1 }]
      (by
        intro c hc
        simp at hc
        rcases hc with rfl | rfl | rfl <;> exact ⟨rfl, rfl, rfl⟩)).2.1⟩

theorem Heap.read_out_of_range (h : Heap) (p : Ptr) (hp : h.blocks.length ≤ p) :
    h.read p = none := by
  unfold Heap.read
  rw [List.getElem?_eq_none hp]
  rfl

/-- A block that is allocated, written and freed again leaves every block as it was. -/
theorem Heap.read_malloc_free (h : Heap) (n : Nat) (junk : Uint8) (src : List Uint8)
    (p : Nat) :
    (((h.malloc n junk).2.memcpy h.blocks.length 0 src).free h.blocks.length).read p =
      h.read p := by
  by_cases hp : h.blocks.length = p
  · subst hp
    rw [Heap.read_free_same, Heap.read_out_of_range h _ (Nat.le_refl _)]
  · rw [Heap.read_free_other _ _ _ hp, Heap.read_memcpy_other _ _ _ _ _ hp]
    by_cases hlt : p < h.blocks.length
    · exact Heap.read_malloc_old h n junk p hlt
    · have hgt : h.blocks.length < p := by omega
      rw [Heap.read_out_of_range h p (by omega)]
      apply Heap.read_out_of_range
      simp [Heap.malloc]
      omega

/-- The heap after `mime_data_list_add` without payload: every block reads as before. -/
theorem mime_data_list_add_placeholder_heap (a : Alloc) (h : Heap) (list : MimeList)
    (L : String) (b : Option Ptr) (n : Nat) (hplace : b = none ∨ n = 0) (p : Nat) :
    (mime_data_list_add a h list L b n).2.2.read p = h.read p := by
  unfold mime_data_list_add
  cases b with
  | none =>
    simp only [Option.isSome_none, Bool.false_and, Bool.false_eq_true, if_false]
  | some bp =>
    have hn : n = 0 := by
      rcases hplace with hb | hn
      · exact absurd hb (by simp)
      · exact hn
    subst hn
    by_cases hbuf : a.buffer = true
    · simp only [Option.isSome_some, hbuf, Bool.not_true, Bool.and_false, Bool.false_eq_true,
        if_false, Heap.malloc_fst, gt_iff_lt, Nat.lt_irrefl]
      cases hf : mime_data_list_find list L with
      | some i => exact Heap.read_malloc_free h 0 a.junk _ p
      | none =>
        by_cases hent : a.entry = true
        · by_cases hlab : a.label = true
          · simp only [hent, hlab, Bool.not_true, Bool.false_eq_true, if_false]
            exact Heap.read_malloc_free h 0 a.junk _ p
          · simp only [hent, hlab, Bool.not_true, Bool.false_eq_true, if_false,
              Bool.not_eq_true, Bool.not_false, if_true]
            exact Heap.read_malloc_free h 0 a.junk _ p
        · simp only [Bool.not_eq_true] at hent
          simp only [hent, Bool.not_false, if_true]
          exact Heap.read_malloc_free h 0 a.junk _ p
    · have hbuf2 : a.buffer = false := by simpa using hbuf
      simp [hbuf2]

/-! ## C16: placeholder entries -/

/-- An addition for a label that has an entry returns 0 once its copy is allocated. -/
theorem mime_data_list_add_status_present (a : Alloc) (h : Heap) (list : MimeList)
    (L : String) (b : Option Ptr) (n : Nat) (i : Nat) (hbuf : a.buffer = true)
    (hf : mime_data_list_find list L = some i) :
    (mime_data_list_add a h list L b n).1 = 0 := by
  unfold mime_data_list_add
  cases b with
  | none => simp [hf]
  | some bp =>
    by_cases hn : 0 < n
    · simp [hbuf, hf, hn]
    · simp [hbuf, hf, hn]

/-- The store after an addition without payload: as it was, or one new entry without payload
in front. -/
theorem mime_data_list_add_placeholder_store (a : Alloc) (h : Heap) (list : MimeList)
    (L : String) (b : Option Ptr) (n : Nat) (hplace : b = none ∨ n = 0) :
    (mime_data_list_add a h list L b n).2.1 = list ∨
    (∃ e, mime_data_list_find list L = none ∧
      (mime_data_list_add a h list L b n).2.1 = e :: list ∧
      e.data = none ∧ e.length = 0) := by
  rcases mime_data_list_add_store a h list L b n with heq | ⟨j, _, hb, hn, _⟩ |
    ⟨e, hnone, heq, _, hpay⟩
  · exact Or.inl heq
  · rcases hplace with hb0 | hn0
    · exact absurd hb0 hb
    · omega
  · right
    refine ⟨e, hnone, heq, ?_⟩
    rcases hpay with hp | ⟨hb, hn, _, _⟩
    · exact hp
    · rcases hplace with hb0 | hn0
      · exact absurd hb0 hb
      · omega

/-- C16: `mime_data_list_add` with no buffer or with length 0 disturbs no payload, whatever
its allocations do: the store afterwards is the store as it was, or, when the label had no
entry, the store with one new entry without payload in front of it, so that every entry
that existed before, an entry for the label included, keeps its label, payload pointer and
length; and every block of the heap reads as before.  When the allocations succeed the
call returns 0 and an entry labelled `L` is found afterwards.  `Wayland_data_offer_add_mime`
is this call with no buffer and length 0 on the store of the offer. -/
theorem add_placeholder_frame (a : Alloc) (h : Heap) (list : MimeList) (L : String)
    (b : Option Ptr) (n : Nat) (offer : SDL_WaylandDataOffer)
    (hplace : b = none ∨ n = 0) (_hlab : Labelled list) :
    ((mime_data_list_add a h list L b n).2.1 = list ∨
      (∃ e, mime_data_list_find list L = none ∧
        (mime_data_list_add a h list L b n).2.1 = e :: list ∧
        e.data = none ∧ e.length = 0)) ∧
    (∀ i, mime_data_list_find list L = some i →
      (mime_data_list_add a h list L b n).2.1 = list) ∧
    (∀ p, (mime_data_list_add a h list L b n).2.2.read p = h.read p) ∧
    (a.buffer = true → a.entry = true → a.label = true →
      (mime_data_list_add a h list L b n).1 = 0 ∧
      ∃ i e, mime_data_list_find (mime_data_list_add a h list L b n).2.1 L = some i ∧
        (mime_data_list_add a h list L b n).2.1[i]? = some e ∧ e.mime_type = some L) ∧
    Wayland_data_offer_add_mime a h offer L =
      ((mime_data_list_add a h offer.mimes L none 0).1,
        { offer with mimes := (mime_data_list_add a h offer.mimes L none 0).2.1 },
        (mime_data_list_add a h offer.mimes L none 0).2.2) := by
  have hstore := mime_data_list_add_placeholder_store a h list L b n hplace
  refine ⟨hstore, ?_, mime_data_list_add_placeholder_heap a h list L b n hplace, ?_, rfl⟩
  · intro i hf
    rcases hstore with heq | ⟨e, hnone, _⟩
    · exact heq
    · rw [hf] at hnone
      exact absurd hnone (by simp)
  · intro hbuf hent hlab
    cases hf : mime_data_list_find list L with
    | some i =>
      have hst := mime_data_list_add_status_present a h list L b n i hbuf hf
      refine ⟨hst, ?_⟩
      rcases hstore with heq | ⟨e, hnone, _⟩
      · rw [heq]
        obtain ⟨e, he, hm⟩ := find_some_getElem list L i hf
        exact ⟨i, e, hf, he, hm⟩
      · rw [hf] at hnone
        exact absurd hnone (by simp)
    | none =>
      obtain ⟨hst, e, heq, hm⟩ := mime_data_list_add_absent a h list L b n hbuf hent hlab hf
      refine ⟨hst, 0, e, ?_, ?_, hm⟩
      · rw [heq]
        simp [mime_data_list_find, hm]
      · rw [heq]
        simp

/-- Witness for C16: a placeholder for a second label on a store whose entry has the payload
block 0. -/
theorem add_placeholder_frame_witness :
    ((none : Option Ptr) = none ∨ 0 = 0) ∧
    Labelled [{ mime_type := some "text/plain", data := some 0, length := 2 }] ∧
    (mime_data_list_add { buffer := true, entry := true, label := true, junk := 0 }
        { blocks := [some [1, 2]] }
        [{ mime_type := some "text/plain", data := some 0, length := 2 }]
        "text/html" none 0).2.1 =
      [{ mime_type := some "text/html", data := none, length := 0 },
        { mime_type := some "text/plain", data := some 0, length := 2 }] ∧
    (∀ p, (mime_data_list_add { buffer := true, entry := true, label := true, junk := 0 }
        { blocks := [some [1, 2]] }
        [{ mime_type := some "text/plain", data := some 0, length := 2 }]
        "text/html" none 0).2.2.read p = ({ blocks := [some [1, 2]] } : Heap).read p) :=
  ⟨Or.inl rfl, by intro e he; simp at he; subst he; simp, by decide,
    (add_placeholder_frame { buffer := true, entry := true, label := true, junk := 0 }
      { blocks := [some [1, 2]] }
      [{ mime_type := some "text/plain", data := some 0, length := 2 }]
      "text/html" none 0 { offer := none, mimes := [], data_device := none }
      (Or.inl rfl) (by intro e he; simp at he; subst he; simp)).2.2.1⟩

/-! ## C20: the order of the store -/

/-- Adding the label "a" and then the label "b" to the empty store gives a store whose
traversal meets "b" first, and `Wayland_data_device_set_selection` offers "b" before "a". -/
theorem add_order_counterexample :
    (mime_data_list_add_all { blocks := [] } []
      [{ alloc := { buffer := true, entry := true, label := true, junk := 0 },
         mime_type := "a", buffer := none, length := 0 },
       { alloc := { buffer := true, entry := true, label := true, junk := 0 },
         mime_type := "b", buffer := none, length := 0 }]).1.map (·.mime_type) =
      [some "b", some "a"] ∧
    offer_calls exampleTextMime (some 7)
      (mime_data_list_add_all { blocks := [] } []
        [{ alloc := { buffer := true, entry := true, label := true, junk := 0 },
           mime_type := "a", buffer := none, length := 0 },
         { alloc := { buffer := true, entry := true, label := true, junk := 0 },
           mime_type := "b", buffer := none, length := 0 }]).1 =
      [Call.wl_data_source_offer (some 7) (some "b"),
        Call.wl_data_source_offer (some 7) (some "a")] := by
  decide

/-- Successful additions of distinct labels that the store does not hold put them in front
of the store, the last one first. -/
theorem mime_data_list_add_all_labels (calls : List AddCall) :
    ∀ (h : Heap) (list : MimeList), (∀ c ∈ calls, c.allocated) →
      (calls.map (·.mime_type)).Nodup →
      (∀ c ∈ calls, some c.mime_type ∉ list.map (·.mime_type)) →
      (mime_data_list_add_all h list calls).1.map (·.mime_type) =
        (calls.map (fun c => some c.mime_type)).reverse ++ list.map (·.mime_type) := by
  induction calls with
  | nil =>
    intro h list _ _ _
    simp [mime_data_list_add_all]
  | cons c rest ih =>
    intro h list hok hnd hnew
    have hc := hok c (List.mem_cons_self _ _)
    have hf : mime_data_list_find list c.mime_type = none :=
      (find_none_iff list c.mime_type).mpr (hnew c (List.mem_cons_self _ _))
    obtain ⟨_, e, heq, hm⟩ :=
      mime_data_list_add_absent c.alloc h list c.mime_type c.buffer c.length hc.1 hc.2.1
        hc.2.2 hf
    rw [List.map_cons, List.nodup_cons] at hnd
    rw [mime_data_list_add_all, ih _ _ (fun c1 hc1 => hok c1 (List.mem_cons_of_mem _ hc1))
      hnd.2, heq]
    · simp [hm]
    · intro c1 hc1
      rw [heq, List.map_cons, List.mem_cons, hm]
      intro hmem
      rcases hmem with h1 | h2
      · apply hnd.1
        rw [← Option.some.inj h1]
        exact List.mem_map_of_mem _ hc1
      · exact hnew c1 (List.mem_cons_of_mem _ hc1) h2

/-- C20 (as the code has it): for every sequence of `mime_data_list_add` calls with pairwise
distinct labels L1, ..., Ln made in that order on an empty store, with every allocation
succeeding, traversing the store visits the entries in the order Ln, ..., L1, the label
added last first; and the loop of `Wayland_data_device_set_selection` offers the labels in
that order (each canonical text label followed by its four aliases). -/
theorem add_all_reverse_order (TEXT_MIME : String) (source : Option Nat) (h : Heap)
    (calls : List AddCall) (hok : ∀ c ∈ calls, c.allocated)
    (hnd : (calls.map (·.mime_type)).Nodup) :
    (mime_data_list_add_all h [] calls).1.map (·.mime_type) =
      (calls.map (fun c => some c.mime_type)).reverse ∧
    offer_calls TEXT_MIME source (mime_data_list_add_all h [] calls).1 =
      calls.reverse.flatMap (fun c =>
        Call.wl_data_source_offer source (some c.mime_type) ::
          if c.mime_type = TEXT_MIME then
            alias_labels.map (fun l => Call.wl_data_source_offer source (some l))
          else []) := by
  have hlabels := mime_data_list_add_all_labels calls h [] hok hnd (by simp)
  rw [List.map_nil, List.append_nil] at hlabels
  refine ⟨hlabels, ?_⟩
  rw [offer_calls_eq]
  have hmap : ∀ (l : MimeList),
      l.flatMap (fun e =>
        Call.wl_data_source_offer source e.mime_type ::
          if e.mime_type = some TEXT_MIME then
            alias_labels.map (fun l => Call.wl_data_source_offer source (some l))
          else []) =
      (l.map (·.mime_type)).flatMap (fun m =>
        Call.wl_data_source_offer source m ::
          if m = some TEXT_MIME then
            alias_labels.map (fun l => Call.wl_data_source_offer source (some l))
          else []) := by
    intro l
    induction l with
    | nil => rfl
    | cons x rest ih => simp [List.flatMap_cons, ih]
  rw [hmap, hlabels, ← List.map_reverse]
  generalize calls.reverse = cs
  induction cs with
  | nil => rfl
  | cons x rest ih => simp [List.flatMap_cons, ih]

/-- Witness for C20: the labels "a", "b", "c" added in that order. -/
theorem add_all_reverse_order_witness :
    (∀ c ∈ ([{ alloc := { buffer := true, entry := true, label := true, junk := 0 },
               mime_type := "a", buffer := none, length := 0 },
             { alloc := { buffer := true, entry := true, label := true, junk := 0 },
               mime_type := "b", buffer := some 0, length := 2 },
             { alloc := { buffer := true, entry := true, label := true, junk := 0 },
               mime_type := "c", buffer := some 0, length := 1 }] : List AddCall),
      c.allocated) ∧
    (mime_data_list_add_all { blocks := [some [1, 2]] } []
      [{ alloc := { buffer := true, entry := true, label := true, junk := 0 },
         mime_type := "a", buffer := none, length := 0 },
       { alloc := { buffer := true, entry := true, label := true, junk := 0 },
         mime_type := "b", buffer := some 0, length := 2 },
       { alloc := { buffer := true, entry := true, label := true, junk := 0 },
         mime_type := "c", buffer := some 0, length := 1 }]).1.map (·.mime_type) =
      [some "c", some "b", some "a"] :=
  ⟨by
    intro c hc
    simp at hc
    rcases hc with rfl | rfl | rfl <;> exact ⟨rfl, rfl, rfl⟩,
   (add_all_reverse_order exampleTextMime (some 7) { blocks := [some [1, 2]] }
      [{ alloc := { buffer := true, entry := true, label := true, junk := 0 },
         mime_type := "a", buffer := none, length := 0 },
       { alloc := { buffer := true, entry := true, label := true, junk := 0 },
         mime_type := "b", buffer := some 0, length := 2 },
       { alloc := { buffer := true, entry := true, label := true, junk := 0 },
         mime_type := "c", buffer := some 0, length := 1 }]
      (by
        intro c hc
        simp at hc
        rcases hc with rfl | rfl | rfl <;> exact ⟨rfl, rfl, rfl⟩)
      (by decide)).1⟩

/-! ## C19: the send loop terminates -/

/-- Every call of `write_pipe` polls the descriptor exactly once. -/
theorem write_pipe_polls (fd : Fd) (err : SDL_Error) (h : Heap) (buffer : Option Ptr)
    (n pos : Nat) :
    (write_pipe fd err h buffer n pos).2.2.1.polls = fd.polls + 1 := by
  unfold write_pipe
  simp only [Fd.SDL_IOReady]
  split_ifs <;> simp [Fd.write]

/-- A call of `write_pipe` that returns a positive count moves the position forward, not
beyond the length; any other call leaves the position where it was. -/
theorem write_pipe_progress (fd : Fd) (err : SDL_Error) (h : Heap) (buffer : Option Ptr)
    (n pos : Nat) :
    (0 < (write_pipe fd err h buffer n pos).1 →
      pos < (write_pipe fd err h buffer n pos).2.1 ∧
      (write_pipe fd err h buffer n pos).2.1 ≤ n) ∧
    (¬ 0 < (write_pipe fd err h buffer n pos).1 →
      (write_pipe fd err h buffer n pos).2.1 = pos) := by
  unfold write_pipe
  simp only [Fd.SDL_IOReady]
  by_cases h0 : fd.ready fd.polls = 0
  · simp [h0, SDL_SetError]
  · by_cases hneg : fd.ready fd.polls < 0
    · simp [h0, hneg, SDL_SetError]
    · simp only [h0, hneg, if_false]
      by_cases hlen : (n : Int) - (pos : Int) > 0
      · simp only [hlen, if_true, Fd.write]
        have hle : Fd.write_result (fd.wr fd.calls)
            ((List.drop pos ((buffer.bind h.read).getD [])).take
              (min ((n : Int) - (pos : Int)) (PIPE_BUF : Int)).toNat).length ≤
            (n : Int) - (pos : Int) := by
          unfold Fd.write_result
          split_ifs
          · omega
          · have := List.length_take_le (min ((n : Int) - (pos : Int)) (PIPE_BUF : Int)).toNat
              (List.drop pos ((buffer.bind h.read).getD []))
            omega
        by_cases hw : Fd.write_result (fd.wr fd.calls)
            ((List.drop pos ((buffer.bind h.read).getD [])).take
              (min ((n : Int) - (pos : Int)) (PIPE_BUF : Int)).toNat).length > 0
        · simp only [hw, if_true]
          refine ⟨fun _ => ⟨?_, ?_⟩, fun hn => absurd trivial hn⟩
          · omega
          · omega
        · simp only [hw, if_false]
          exact ⟨fun hp => hp.elim, fun _ => trivial⟩
      · simp [hlen]

/-- The send loop from any position: with more fuel than bytes left it ends, and it has
called `write_pipe` at least once and at most once more than there were bytes left. -/
theorem send_loop_terminates (h : Heap) (data : Option Ptr) (n : Nat) :
    ∀ (fuel : Nat) (fd : Fd) (err : SDL_Error) (pos : Nat), pos ≤ n → n - pos < fuel →
      ∃ (wb : Nat) (fd1 : Fd) (err1 : SDL_Error),
        Wayland_source_send_loop fuel fd err h data n pos = some (wb, fd1, err1) ∧
        pos ≤ wb ∧ wb ≤ n ∧ fd.polls < fd1.polls ∧ fd1.polls ≤ fd.polls + (n - pos) + 1 := by
  intro fuel
  induction fuel with
  | zero =>
    intro fd err pos _ hf
    omega
  | succ k ih =>
    intro fd err pos hpos hf
    have hpolls := write_pipe_polls fd err h data n pos
    obtain ⟨hadv, hstay⟩ := write_pipe_progress fd err h data n pos
    unfold Wayland_source_send_loop
    by_cases hr : 0 < (write_pipe fd err h data n pos).1
    · obtain ⟨hlt, hle⟩ := hadv hr
      obtain ⟨wb, fd1, err1, heq, h1, h2, h3, h4⟩ :=
        ih (write_pipe fd err h data n pos).2.2.1 (write_pipe fd err h data n pos).2.2.2
          (write_pipe fd err h data n pos).2.1 hle (by omega)
      refine ⟨wb, fd1, err1, ?_, by omega, h2, by omega, by omega⟩
      simp only [gt_iff_lt, hr, if_true]
      exact heq
    · refine ⟨(write_pipe fd err h data n pos).2.1, (write_pipe fd err h data n pos).2.2.1,
        (write_pipe fd err h data n pos).2.2.2, ?_, ?_, ?_, by omega, by omega⟩
      · simp only [gt_iff_lt, hr, if_false]
      · rw [hstay hr]
      · rw [hstay hr]
        exact hpos

/-- C19: the send loop always terminates.  For every entry (also none, or one without
payload pointer), with n its length, every heap and every behaviour of the descriptor,
`Wayland_source_send` run with fuel for n + 1 calls of `write_pipe` returns: it makes at
most n + 1 calls (each call polls the descriptor exactly once, so the polls count the
calls) and returns at most n.  Every call that returns a positive count moves the write
position strictly forward and not beyond n; any other return ends the loop. -/
theorem send_terminates (fuel : Nat) (fd : Fd) (err : SDL_Error) (h : Heap)
    (mime_data : Option SDL_MimeDataList) (mime_type : String)
    (hfuel : (mime_data.map (·.length)).getD 0 + 1 ≤ fuel) :
    (∃ (status : Int) (fd1 : Fd) (err1 : SDL_Error),
      Wayland_source_send fuel fd err h mime_data mime_type = some (status, fd1, err1) ∧
      status ≤ ((mime_data.map (·.length)).getD 0 : Nat) ∧
      fd1.polls ≤ fd.polls + ((mime_data.map (·.length)).getD 0 + 1)) ∧
    (∀ (fd0 : Fd) (err0 : SDL_Error) (data : Option Ptr) (n pos : Nat),
      (write_pipe fd0 err0 h data n pos).2.2.1.polls = fd0.polls + 1) ∧
    (∀ (fd0 : Fd) (err0 : SDL_Error) (data : Option Ptr) (n pos : Nat),
      0 < (write_pipe fd0 err0 h data n pos).1 →
      pos < (write_pipe fd0 err0 h data n pos).2.1 ∧
      (write_pipe fd0 err0 h data n pos).2.1 ≤ n) ∧
    (∀ (k : Nat) (fd0 : Fd) (err0 : SDL_Error) (data : Option Ptr) (n pos : Nat),
      ¬ 0 < (write_pipe fd0 err0 h data n pos).1 →
      Wayland_source_send_loop (k + 1) fd0 err0 h data n pos =
        some ((write_pipe fd0 err0 h data n pos).2.1,
          (write_pipe fd0 err0 h data n pos).2.2.1,
          (write_pipe fd0 err0 h data n pos).2.2.2)) := by
  refine ⟨?_, fun fd0 err0 data n pos => write_pipe_polls fd0 err0 h data n pos,
    fun fd0 err0 data n pos => (write_pipe_progress fd0 err0 h data n pos).1, ?_⟩
  · cases hd : mime_data.bind (·.data) with
    | none =>
      refine ⟨-1, fd.close, some "Invalid mime type", ?_, by omega, ?_⟩
      · unfold Wayland_source_send
        simp only [hd]
        rfl
      · simp only [Fd.close]
        omega
    | some data =>
      obtain ⟨wb, fd1, err1, heq, _, h2, _, h4⟩ :=
        send_loop_terminates h (some data) ((mime_data.map (·.length)).getD 0) fuel fd err 0
          (Nat.zero_le _) (by omega)
      refine ⟨(wb : Int), fd1.close, err1, ?_, by omega, ?_⟩
      · unfold Wayland_source_send
        simp only [hd, heq]
      · simp only [Fd.close]
        omega
  · intro k fd0 err0 data n pos hr
    unfold Wayland_source_send_loop
    simp only [gt_iff_lt, hr, if_false]

/-- Witness for C19: the entry of source 1 of the example (two bytes) on the example
descriptor, with fuel for three calls. -/
theorem send_terminates_witness :
    ((some ({ mime_type := some exampleTextMime, data := some 0, length := 2 } :
      SDL_MimeDataList)).map (·.length)).getD 0 + 1 ≤ 3 ∧
    ∃ (status : Int) (fd1 : Fd) (err1 : SDL_Error),
      Wayland_source_send 3 exampleFd none exampleWorld.heap
        (some { mime_type := some exampleTextMime, data := some 0, length := 2 })
        exampleTextMime = some (status, fd1, err1) ∧
      status ≤ (2 : Nat) ∧ fd1.polls ≤ exampleFd.polls + (2 + 1) :=
  ⟨by decide, (send_terminates 3 exampleFd none exampleWorld.heap
    (some { mime_type := some exampleTextMime, data := some 0, length := 2 })
    exampleTextMime (by decide)).1⟩

/-! ## C17: nothing collected -/

/-- A read error before any byte: `Wayland_data_offer_receive` gives the caller exactly
what it gives when the peer closes the pipe at once, no buffer, length 0 and an error state
in which nothing is reported. -/
theorem receive_read_error_counterexample :
    receive_outcome (Wayland_data_offer_receive (fun _ => { ok := true, junk := 0 }) 1
      (some exampleFd) none { blocks := [] } (some exampleOffer) exampleTextMime false) =
      some (none, 0, none) ∧
    receive_outcome (Wayland_data_offer_receive (fun _ => { ok := true, junk := 0 }) 1
      (some exampleClosedFd) none { blocks := [] } (some exampleOffer) exampleTextMime
      false) = some (none, 0, none) := by
  decide

/-- The error state after a call of `read_pipe` that collects nothing. -/
theorem read_pipe_end_error (a : ReadAlloc) (fd : Fd) (err : SDL_Error) (h : Heap)
    (buffer : Option Ptr) (total : Nat) (null_terminate : Bool)
    (hend : fd.ready fd.polls ≤ 0 ∨ fd.rd fd.calls = none ∨ fd.rd fd.calls = some []) :
    (read_pipe a fd err h buffer total null_terminate).2.2.2.2.2 =
      if fd.ready fd.polls = 0 then some "Pipe timeout"
      else if fd.ready fd.polls < 0 then some "Pipe select error"
      else err := by
  unfold read_pipe
  simp only [SDL_IOReady_eq]
  by_cases hz : fd.ready fd.polls = 0
  · simp [hz, SDL_SetError]
  · by_cases hneg : fd.ready fd.polls < 0
    · simp [hz, hneg, SDL_SetError]
    · have hrd : fd.rd fd.calls = none ∨ fd.rd fd.calls = some [] := by
        rcases hend with h1 | h2
        · omega
        · exact h2
      rcases hrd with hrd | hrd
      · simp [hz, hneg, Fd.read, hrd]
      · simp [hz, hneg, Fd.read, hrd]

/-- C17 (as the code has it): when the first call of `read_pipe` collects nothing, because
the poll times out, the poll fails, the read fails, or the peer has closed the pipe without
writing, `Wayland_data_offer_receive` returns no buffer and length 0 in every one of these
cases, and the heap is as before.  The cases differ only in the error state: a poll timeout
leaves the message "Pipe timeout", a poll error the message "Pipe select error", and a read
error, like the close by the peer, leaves the error state as it was. -/
theorem receive_nothing_collected (alloc : Nat → ReadAlloc) (fuel : Nat) (fd : Fd)
    (err : SDL_Error) (h : Heap) (o : SDL_WaylandDataOffer) (d : Nat) (mime_type : String)
    (null_terminate : Bool) (hdev : o.data_device = some d) (hfuel : 0 < fuel)
    (hend : fd.ready fd.polls ≤ 0 ∨ fd.rd fd.calls = none ∨ fd.rd fd.calls = some []) :
    ∃ fd1,
      Wayland_data_offer_receive alloc fuel (some fd) err h (some o) mime_type
          null_terminate =
        some (none, 0, some fd1,
          [ReceiveCall.wl_data_offer_receive o.offer mime_type,
            ReceiveCall.wl_display_flush d, ReceiveCall.close_write_end], h,
          if fd.ready fd.polls = 0 then some "Pipe timeout"
          else if fd.ready fd.polls < 0 then some "Pipe select error"
          else err) := by
  obtain ⟨hle, hbuf, hlen, hheap⟩ :=
    read_pipe_end (alloc fd.calls) fd err h none 0 null_terminate hend
  have herr := read_pipe_end_error (alloc fd.calls) fd err h none 0 null_terminate hend
  obtain ⟨k, rfl⟩ : ∃ k, fuel = k + 1 := ⟨fuel - 1, by omega⟩
  have hnot : ¬ (read_pipe (alloc fd.calls) fd err h none 0 null_terminate).1 > 0 := by
    omega
  refine ⟨(read_pipe (alloc fd.calls) fd err h none 0 null_terminate).2.2.2.1.close, ?_⟩
  unfold Wayland_data_offer_receive
  simp only [hdev, Wayland_data_offer_receive_loop, hnot, if_false, hbuf, hlen, hheap, herr]

/-- Witness for C17: the first poll times out. -/
theorem receive_nothing_collected_witness :
    exampleOffer.data_device = some 0 ∧ 0 < 1 ∧
    (exampleTimeoutFd.ready exampleTimeoutFd.polls ≤ 0 ∨
      exampleTimeoutFd.rd exampleTimeoutFd.calls = none ∨
      exampleTimeoutFd.rd exampleTimeoutFd.calls = some []) ∧
    ∃ fd1,
      Wayland_data_offer_receive (fun _ => { ok := true, junk := 0 }) 1
          (some exampleTimeoutFd) none { blocks := [] } (some exampleOffer) exampleTextMime
          false =
        some (none, 0, some fd1,
          [ReceiveCall.wl_data_offer_receive exampleOffer.offer exampleTextMime,
            ReceiveCall.wl_display_flush 0, ReceiveCall.close_write_end], { blocks := [] },
          if exampleTimeoutFd.ready exampleTimeoutFd.polls = 0 then some "Pipe timeout"
          else if exampleTimeoutFd.ready exampleTimeoutFd.polls < 0 then
            some "Pipe select error"
          else none) :=
  ⟨rfl, by decide, Or.inl (by decide),
    receive_nothing_collected (fun _ => { ok := true, junk := 0 }) 1 exampleTimeoutFd none
      { blocks := [] } exampleOffer 0 exampleTextMime false rfl (by decide)
      (Or.inl (by decide))⟩

/-! ## C18: the selection-device invariant -/

theorem last_selection_append (a b : List Call) :
    last_selection (a ++ b) =
      match last_selection b with
      | some x => some x
      | none => last_selection a := by
  induction a with
  | nil =>
    cases hb : last_selection b with
    | none => simp [hb, last_selection]
    | some x => simp [hb]
  | cons c rest ih =>
    rw [List.cons_append, last_selection, ih]
    cases hb : last_selection b with
    | none => simp [last_selection]
    | some x => simp

theorem last_selection_none (b : List Call) (hb : ∀ c ∈ b, c.is_set_selection = false) :
    last_selection b = none := by
  induction b with
  | nil => rfl
  | cons c rest ih =>
    rw [last_selection, ih (fun c1 hc1 => hb c1 (List.mem_cons_of_mem _ hc1))]
    have hc := hb c (List.mem_cons_self _ _)
    cases c <;> simp [Call.is_set_selection, Call.selection] at hc ⊢

theorem last_selection_append_none (a b : List Call)
    (hb : ∀ c ∈ b, c.is_set_selection = false) :
    last_selection (a ++ b) = last_selection a := by
  rw [last_selection_append, last_selection_none b hb]

theorem last_selection_append_call (a : List Call) (dev src : Option Nat) (t : Nat) :
    last_selection (a ++ [Call.wl_data_device_set_selection dev src t]) =
      some (dev, src) := by
  rw [last_selection_append]
  rfl

theorem destroy_calls_of_no_set_selection (w : World) (o : Option Nat) :
    ∀ c ∈ destroy_calls_of w o, c.is_set_selection = false := by
  intro c hc
  cases o with
  | none => simp [destroy_calls_of] at hc
  | some s =>
    simp [destroy_calls_of] at hc
    rcases hc with rfl | rfl <;> rfl

/-- C18 fails on the code, through the defect of C14.  Device 1 of the example world
(handle 20, no active source) gets the serial 0; source 3 (handle 13, a live source with two
entries) is made the selection twice, and then the serial 7 arrives.  Source 3 is live and
active when it is given the second time; the second
`Wayland_data_device_set_selection` releases source 3 and leaves it the active source, so
`Wayland_data_device_set_serial` takes the handle for its set-selection call from released
memory.  Afterwards the device has the active source 3 and the stored serial 7, the log
holds the release of source 3 before the only set-selection call, and that call names what
the released memory held: no source when it was zeroed, the handle 99 when another object
had taken its place, and not the handle 13 of source 3. -/
theorem selection_invariant_broken :
    (exampleWorld.devices 1).selection_source = none ∧
    ((run_ops exampleJunk exampleTextMime 1 exampleWorld
      [Op.set_serial 0, Op.set_selection (some 3)]).devices 1).selection_source = some 3 ∧
    Call.SDL_free_source 3 ∉ (run_ops exampleJunk exampleTextMime 1 exampleWorld
      [Op.set_serial 0, Op.set_selection (some 3)]).calls ∧
    ((run_ops exampleJunk exampleTextMime 1 exampleWorld
      [Op.set_serial 0, Op.set_selection (some 3), Op.set_selection (some 3),
        Op.set_serial 7]).devices 1).selection_source = some 3 ∧
    ((run_ops exampleJunk exampleTextMime 1 exampleWorld
      [Op.set_serial 0, Op.set_selection (some 3), Op.set_selection (some 3),
        Op.set_serial 7]).devices 1).selection_serial = 7 ∧
    (run_ops exampleJunk exampleTextMime 1 exampleWorld
      [Op.set_serial 0, Op.set_selection (some 3), Op.set_selection (some 3),
        Op.set_serial 7]).calls.filter (fun c => c.is_release || c.is_set_selection) =
      [Call.wl_data_source_destroy (some 13), Call.SDL_free_source 3,
        Call.wl_data_device_set_selection (some 20) none 0] ∧
    last_selection (run_ops exampleJunk exampleTextMime 1 exampleWorld
      [Op.set_serial 0, Op.set_selection (some 3), Op.set_selection (some 3),
        Op.set_serial 7]).calls = some (some 20, none) ∧
    last_selection (run_ops exampleJunkOther exampleTextMime 1 exampleWorld
      [Op.set_serial 0, Op.set_selection (some 3), Op.set_selection (some 3),
        Op.set_serial 7]).calls = some (some 20, some 99) := by
  decide

/-- A list without release calls does not hold the release of a source. -/
theorem free_not_mem (b : List Call) (s : Nat) (hb : b.filter Call.is_release = []) :
    Call.SDL_free_source s ∉ b := by
  intro hmem
  have hf : Call.SDL_free_source s ∈ b.filter Call.is_release :=
    List.mem_filter.mpr ⟨hmem, rfl⟩
  rw [hb] at hf
  cases hf

/-- A release that is not in a longer log is not in the log it extends. -/
theorem free_not_mem_left (a b : List Call) (s : Nat)
    (h : Call.SDL_free_source s ∉ a ++ b) : Call.SDL_free_source s ∉ a :=
  fun hmem => h (List.mem_append_left b hmem)

/-- The invariant depends on the world only through the device, the sources and the log. -/
theorem selection_invariant_congr (d : Nat) (dev : Option Nat) (handle : Nat → Option Nat)
    (w w1 : World) (hd : w1.devices d = w.devices d) (hs : w1.sources = w.sources)
    (hc : w1.calls = w.calls) (hinv : SelectionInvariant d dev handle w) :
    SelectionInvariant d dev handle w1 := by
  unfold SelectionInvariant
  rw [hd, hs, hc]
  exact hinv

/-- The invariant when the device has no active source. -/
theorem selection_invariant_inactive (d : Nat) (dev : Option Nat) (handle : Nat → Option Nat)
    (w : World) (hdev : (w.devices d).data_device = dev)
    (hsrc : ∀ s, Call.SDL_free_source s ∉ w.calls → (w.sources s).source = handle s)
    (hnone : (w.devices d).selection_source = none) :
    SelectionInvariant d dev handle w := by
  refine ⟨hdev, hsrc, ?_, ?_⟩
  · intro s hs
    rw [hnone] at hs
    cases hs
  · intro s hs
    rw [hnone] at hs
    cases hs

/-- The invariant does not read released memory: it holds whatever takes that memory. -/
theorem scrub_keeps_invariant (junk : SDL_WaylandDataSource) (d : Nat) (dev : Option Nat)
    (handle : Nat → Option Nat) (w : World) (hinv : SelectionInvariant d dev handle w) :
    SelectionInvariant d dev handle (w.scrub junk) := by
  obtain ⟨hdev, hsrc, hact, hlast⟩ := hinv
  have hlive : ∀ s, Call.SDL_free_source s ∉ w.calls →
      (w.scrub junk).sources s = w.sources s := by
    intro s hs
    simp [World.scrub, hs]
  refine ⟨hdev, ?_, ?_, hlast⟩
  · intro s hs
    have hs1 : Call.SDL_free_source s ∉ w.calls := hs
    rw [hlive s hs1]
    exact hsrc s hs1
  · intro s hs
    obtain ⟨h1, h2⟩ := hact s hs
    refine ⟨h1, ?_⟩
    rw [hlive s h1]
    exact h2

/-- The release of the active source, by `Wayland_data_source_destroy`, clears the pointer
of the device. -/
theorem clear_back_reference_active (w : World) (s d : Nat)
    (hback : (w.sources s).data_device = some d)
    (hsel : (w.devices d).selection_source = some s) :
    ((clear_back_reference w s).devices d).selection_source = none := by
  simp [clear_back_reference, hback, hsel]

theorem destroy_keeps_invariant (d : Nat) (dev : Option Nat) (handle : Nat → Option Nat)
    (w : World) (o : Option Nat) (hinv : SelectionInvariant d dev handle w)
    (hdef : op_defined d w (Op.destroy o)) :
    SelectionInvariant d dev handle (Wayland_data_source_destroy w o) := by
  obtain ⟨hdev, hsrc, hact, hlast⟩ := hinv
  cases o with
  | none => exact ⟨hdev, hsrc, hact, hlast⟩
  | some s1 =>
    obtain ⟨hser, hh, hsel⟩ := clear_back_reference_fields w s1 d
    have hkeep : ∀ s, ((Wayland_data_source_destroy w (some s1)).devices d).selection_source =
        some s → (w.devices d).selection_source = some s ∧ s ≠ s1 := by
      intro s hs
      rw [destroy_devices] at hs
      rcases hsel with h1 | h2
      · rw [h1] at hs
        refine ⟨hs, ?_⟩
        intro heq
        subst heq
        have hnone := clear_back_reference_active w s d (hact s hs).2 hs
        rw [h1, hs] at hnone
        cases hnone
      · rw [h2] at hs
        cases hs
    refine ⟨?_, ?_, ?_, ?_⟩
    · rw [destroy_devices, hh]
      exact hdev
    · intro s hs
      rw [destroy_sources]
      rw [destroy_calls] at hs
      exact hsrc s (free_not_mem_left _ _ s hs)
    · intro s hs
      obtain ⟨hs0, hne⟩ := hkeep s hs
      obtain ⟨h1, h2⟩ := hact s hs0
      rw [destroy_sources, destroy_calls]
      refine ⟨?_, h2⟩
      intro hmem
      rcases List.mem_append.mp hmem with hm | hm
      · exact h1 hm
      · simp at hm
        exact hne hm
    · intro s hs hne
      obtain ⟨hs0, _⟩ := hkeep s hs
      rw [destroy_devices, hser] at hne
      rw [destroy_opt_calls,
        last_selection_append_none _ _ (destroy_calls_of_no_set_selection w (some s1))]
      exact hlast s hs0 hne

theorem set_serial_keeps_invariant (d : Nat) (dev : Option Nat) (handle : Nat → Option Nat)
    (w : World) (t : Nat) (hinv : SelectionInvariant d dev handle w) :
    SelectionInvariant d dev handle (Wayland_data_device_set_serial w (some d) t).2 := by
  obtain ⟨hdev, hsrc, hact, hlast⟩ := hinv
  obtain ⟨_, hd, hs, _, hc⟩ := set_serial_spec w d t
  have hnew : ∀ s, Call.SDL_free_source s ∉
      (match (w.devices d).selection_source with
      | some s =>
        if (w.devices d).selection_serial = 0 then
          [Call.wl_data_device_set_selection (w.devices d).data_device (w.sources s).source
            (w.devices d).selection_serial]
        else []
      | none => []) := by
    intro s
    apply free_not_mem
    cases (w.devices d).selection_source with
    | none => rfl
    | some s0 =>
      by_cases h0 : (w.devices d).selection_serial = 0
      · simp [h0, Call.is_release]
      · simp [h0]
  refine ⟨by rw [hd]; exact hdev, ?_, ?_, ?_⟩
  · intro s hlive
    rw [hs]
    rw [hc] at hlive
    exact hsrc s (free_not_mem_left _ _ s hlive)
  · intro s hsel
    rw [hd] at hsel
    have hsel1 : (w.devices d).selection_source = some s := hsel
    obtain ⟨h1, h2⟩ := hact s hsel1
    rw [hs, hc]
    refine ⟨?_, h2⟩
    intro hmem
    rcases List.mem_append.mp hmem with hm | hm
    · exact h1 hm
    · exact hnew s hm
  · intro s hsel hne
    rw [hd] at hsel hne
    have hsel1 : (w.devices d).selection_source = some s := hsel
    rw [hc, hsel1]
    by_cases h0 : (w.devices d).selection_serial = 0
    · simp only [if_pos h0]
      rw [last_selection_append_call, hdev, hsrc s (hact s hsel1).1]
    · simp only [if_neg h0]
      rw [List.append_nil]
      exact hlast s hsel1 h0

theorem clear_selection_keeps_invariant (d : Nat) (dev : Option Nat)
    (handle : Nat → Option Nat) (w : World) (hinv : SelectionInvariant d dev handle w) :
    SelectionInvariant d dev handle (Wayland_data_device_clear_selection w (some d)).2 := by
  obtain ⟨hdev, hsrc, hact, hlast⟩ := hinv
  unfold Wayland_data_device_clear_selection
  by_cases hh : (w.devices d).data_device = none
  · simp only [hh, if_true]
    exact selection_invariant_congr d dev handle w _ rfl rfl rfl ⟨hdev, hsrc, hact, hlast⟩
  · simp only [hh, if_false]
    cases ha : (w.devices d).selection_source with
    | none => exact ⟨hdev, hsrc, hact, hlast⟩
    | some s0 =>
      apply selection_invariant_inactive
      · simp only [World.set_device_same]
        rw [(destroy_opt_fields _ (some s0) d).2]
        exact hdev
      · intro s hs
        simp only [World.set_device_sources, destroy_sources, World.call_sources]
        simp only [World.set_device_calls, destroy_calls, World.call_calls,
          World.call_sources, List.append_assoc] at hs
        exact hsrc s (free_not_mem_left _ _ s hs)
      · simp only [World.set_device_same]

theorem set_selection_keeps_invariant (TEXT_MIME : String) (d : Nat) (dev : Option Nat)
    (handle : Nat → Option Nat) (w : World) (o : Option Nat)
    (hinv : SelectionInvariant d dev handle w)
    (hdef : op_defined d w (Op.set_selection o)) :
    SelectionInvariant d dev handle
      (Wayland_data_device_set_selection TEXT_MIME w (some d) o).2 := by
  cases o with
  | none =>
    exact selection_invariant_congr d dev handle w _ rfl rfl rfl hinv
  | some s =>
    obtain ⟨hlive, hother_src, _⟩ := hdef
    by_cases hempty : (w.sources s).mimes = []
    · rw [set_selection_empty TEXT_MIME w d s hempty]
      apply selection_invariant_congr d dev handle
        (Wayland_data_device_clear_selection (w.call []) (some d)).2 _ rfl rfl rfl
      apply clear_selection_keeps_invariant
      exact selection_invariant_congr d dev handle w _ rfl rfl (call_nil_calls w) hinv
    · obtain ⟨hdev, hsrc, hact, hlast⟩ := hinv
      obtain ⟨_, hc, hd, hs, hother, _⟩ := set_selection_nonempty TEXT_MIME w d s hempty
      have hmono : ∀ s1, Call.SDL_free_source s1 ∉
          (Wayland_data_device_set_selection TEXT_MIME w (some d) (some s)).2.calls →
          Call.SDL_free_source s1 ∉ w.calls := by
        intro s1 h1
        rw [hc, List.append_assoc, List.append_assoc] at h1
        exact free_not_mem_left _ _ s1 h1
      refine ⟨by rw [hd]; exact hdev, ?_, ?_, ?_⟩
      · intro s1 hs1
        by_cases h1 : s1 = s
        · subst h1
          rw [hs]
          exact hsrc s1 (hmono s1 hs1)
        · rw [hother s1 h1]
          exact hsrc s1 (hmono s1 hs1)
      · intro s1 hsel
        rw [hd] at hsel
        have hs1 : s = s1 := Option.some.inj hsel
        subst hs1
        refine ⟨?_, by rw [hs]⟩
        rw [hc]
        intro hmem
        rcases List.mem_append.mp hmem with hm | hm
        · rcases List.mem_append.mp hm with hm1 | hm1
          · rcases List.mem_append.mp hm1 with hm2 | hm2
            · exact hlive hm2
            · exact free_not_mem _ s (offer_calls_no_release _ _ _) hm2
          · exact free_not_mem _ s (set_selection_call_no_release w d s) hm1
        · cases hold : (w.devices d).selection_source with
          | none =>
            rw [hold] at hm
            simp [destroy_calls_of] at hm
          | some old =>
            rw [hold] at hm
            simp [destroy_calls_of] at hm
            rw [hm] at hother_src
            exact hother_src hold
      · intro s1 hsel hne
        rw [hd] at hsel hne
        have hs1 : s = s1 := Option.some.inj hsel
        subst hs1
        have hne1 : (w.devices d).selection_serial ≠ 0 := hne
        rw [hc, last_selection_append_none _ _ (destroy_calls_of_no_set_selection w _)]
        unfold set_selection_call
        rw [if_pos hne1, last_selection_append_call, hdev, hsrc s hlive]

/-- The invariant holds after every sequence of operations that stays within the defined
behaviour of C, when it holds before, whatever takes the memory of released sources. -/
theorem run_ops_keeps_invariant (junk : SDL_WaylandDataSource) (TEXT_MIME : String)
    (d : Nat) (dev : Option Nat) (handle : Nat → Option Nat) (ops : List Op) :
    ∀ (w : World), SelectionInvariant d dev handle w → ops_defined junk TEXT_MIME d w ops →
      SelectionInvariant d dev handle (run_ops junk TEXT_MIME d w ops) := by
  induction ops with
  | nil =>
    intro w hinv _
    exact hinv
  | cons op rest ih =>
    intro w hinv hdef
    obtain ⟨hop, hrest⟩ := hdef
    apply ih _ _ hrest
    apply scrub_keeps_invariant
    cases op with
    | set_selection o =>
      exact set_selection_keeps_invariant TEXT_MIME d dev handle w o hinv hop
    | clear_selection => exact clear_selection_keeps_invariant d dev handle w hinv
    | set_serial t => exact set_serial_keeps_invariant d dev handle w t hinv
    | destroy o => exact destroy_keeps_invariant d dev handle w o hinv hop

/-- The selection-device invariant away from the defect of C14.  Start from a world in
which the device has no active source and apply a sequence of operations that stays within
the defined behaviour of C: every source given to an operation is live, and
`Wayland_data_device_set_selection` is not given the source that is already active.  In the
world reached, whatever took the memory of the released sources, the active source of the
device is live, and when the device has an active source `s` and a stored serial that is not
zero, the last protocol set-selection call of the log is on the device and names the handle
of `s`. -/
theorem defined_ops_selection_invariant (junk : SDL_WaylandDataSource) (TEXT_MIME : String)
    (w : World) (d : Nat) (ops : List Op)
    (hinit : (w.devices d).selection_source = none)
    (hdef : ops_defined junk TEXT_MIME d w ops) :
    ∀ s, ((run_ops junk TEXT_MIME d w ops).devices d).selection_source = some s →
      Call.SDL_free_source s ∉ (run_ops junk TEXT_MIME d w ops).calls ∧
      (((run_ops junk TEXT_MIME d w ops).devices d).selection_serial ≠ 0 →
        last_selection (run_ops junk TEXT_MIME d w ops).calls =
          some ((w.devices d).data_device, (w.sources s).source)) := by
  obtain ⟨_, _, hact, hlast⟩ := run_ops_keeps_invariant junk TEXT_MIME d
    (w.devices d).data_device (fun s => (w.sources s).source) ops w
    (selection_invariant_inactive d _ _ w rfl (fun _ _ => rfl) hinit) hdef
  intro s hs
  exact ⟨(hact s hs).1, hlast s hs⟩

/-- An example of `defined_ops_selection_invariant`: on device 1 of the example (handle 20,
no active source) the serial is set to 0, source 3 (handle 13) is made the selection, the
serial 7 arrives, and source 1 is destroyed. -/
theorem defined_ops_selection_invariant_example :
    ops_defined exampleJunk exampleTextMime 1 exampleWorld
      [Op.set_serial 0, Op.set_selection (some 3), Op.set_serial 7, Op.destroy (some 1)] ∧
    ((run_ops exampleJunk exampleTextMime 1 exampleWorld
      [Op.set_serial 0, Op.set_selection (some 3), Op.set_serial 7,
        Op.destroy (some 1)]).devices 1).selection_source = some 3 ∧
    last_selection (run_ops exampleJunk exampleTextMime 1 exampleWorld
      [Op.set_serial 0, Op.set_selection (some 3), Op.set_serial 7,
        Op.destroy (some 1)]).calls = some (some 20, some 13) := by
  have hdef : ops_defined exampleJunk exampleTextMime 1 exampleWorld
      [Op.set_serial 0, Op.set_selection (some 3), Op.set_serial 7, Op.destroy (some 1)] :=
    ⟨trivial, ⟨by decide, by decide, example_source_3_labelled⟩, trivial,
      (by unfold op_defined; decide), trivial⟩
  exact ⟨hdef, by decide,
    (defined_ops_selection_invariant exampleJunk exampleTextMime exampleWorld 1 _ rfl hdef 3
      (by decide)).2 (by decide)⟩

/-! ## C21: serving the labels that were advertised -/

/-- C21, as stated, fails.  Source 2 of the world holds the bytes 104, 105 under the label
"text/plain", put there by `Wayland_data_source_add_data`.
`Wayland_data_device_set_selection` offers that label to the peer, and
`Wayland_data_source_send` called with it converts it to the canonical text label, finds
no entry and fails with "Invalid mime type". -/
theorem advertised_alias_counterexample :
    (exampleAliasWorld.sources 2).mimes =
      [{ mime_type := some "text/plain", data := some 2, length := 2 }] ∧
    exampleAliasWorld.heap.read 2 = some [104, 105] ∧
    (Wayland_data_device_set_selection exampleTextMime exampleAliasWorld (some 1)
      (some 2)).2.calls.filter Call.is_offer =
      [Call.wl_data_source_offer (some 12) (some "text/plain")] ∧
    send_outcome (Wayland_data_source_send exampleTextMime 3 exampleFd none
      exampleAliasWorld.heap (exampleAliasWorld.sources 2) "text/plain") =
      some (-1, some "Invalid mime type") := by
  decide

/-- The labels offered on behalf of one entry: its own label, and the four aliases when its
label is the canonical text label. -/
theorem offered_labels (TEXT_MIME : String) (src : Option Nat) (e : SDL_MimeDataList)
    (L X : String) (hL : e.mime_type = some L)
    (hX : Call.wl_data_source_offer src (some X) ∈ offer_calls TEXT_MIME src [e]) :
    X = L ∨ (L = TEXT_MIME ∧ X ∈ alias_labels) := by
  rw [offer_calls_eq] at hX
  simp only [List.flatMap_cons, List.flatMap_nil, List.append_nil, hL] at hX
  by_cases hT : L = TEXT_MIME
  · subst hT
    simp only [if_true, List.mem_cons, List.mem_map, Call.wl_data_source_offer.injEq,
      Option.some.injEq, true_and] at hX
    rcases hX with h1 | ⟨l, hl, h2⟩
    · exact Or.inl h1
    · subst h2
      exact Or.inr ⟨rfl, hl⟩
  · have hT2 : ¬ some L = some TEXT_MIME := fun h => hT (Option.some.inj h)
    simp [hT2] at hX
    exact Or.inl hX

/-- C21 (as the code has it): every label advertised for an entry whose own label is
canonical can be served.  Let the store of the source hold, for the label `L`, the entry
`e` with the non-empty payload `P`, where `L` converts to itself (it is none of the four
alias labels, or it is the canonical text label).  Then for each label `X` that the loop of
`Wayland_data_device_set_selection` offers on behalf of `e` (`L` itself and, when `L` is the
canonical text label, the four aliases), `Wayland_data_source_send` called with `X` on a
descriptor that is always ready and accepts every write returns the length of `P`, not a
failure, and the bytes its writes hand over are exactly `P`. -/
theorem advertised_labels_served (TEXT_MIME : String) (fuel : Nat) (fd : Fd)
    (err : SDL_Error) (h : Heap) (source : SDL_WaylandDataSource) (L X : String) (i : Nat)
    (e : SDL_MimeDataList) (p : Ptr) (P : List Uint8) (_hlab : Labelled source.mimes)
    (hf : mime_data_list_find source.mimes L = some i) (he : source.mimes[i]? = some e)
    (hcanon : Wayland_convert_mime_type TEXT_MIME L = L)
    (hd : e.data = some p) (hr : h.read p = some P) (hl : e.length = P.length)
    (hP : P ≠ [])
    (hX : Call.wl_data_source_offer source.source (some X) ∈
      offer_calls TEXT_MIME source.source [e])
    (hready : ∀ j, 0 < fd.ready j) (hwr : ∀ j, (PIPE_BUF : Int) ≤ fd.wr j)
    (hfuel : P.length < fuel) :
    ∃ (fd1 : Fd) (err1 : SDL_Error) (evs : List FdEvent),
      Wayland_data_source_send TEXT_MIME fuel fd err h source X =
        some ((P.length : Int), fd1, err1) ∧
      0 < P.length ∧
      fd1.trace = fd.trace ++ evs ++ [FdEvent.close] ∧ FdEvent.close ∉ evs ∧
      accepted evs = P := by
  obtain ⟨e1, he1, hm⟩ := find_some_getElem source.mimes L i hf
  have hee : e1 = e := Option.some.inj (he1.symm.trans he)
  subst hee
  have hconv : Wayland_convert_mime_type TEXT_MIME X = L := by
    rcases offered_labels TEXT_MIME source.source e1 L X hm hX with h1 | ⟨h1, h2⟩
    · rw [h1]
      exact hcanon
    · rw [convert_alias TEXT_MIME X h2, h1]
  obtain ⟨k, fd1, err1, evs, heq, htr, _, _, hacc, hcl, _, hall⟩ :=
    send_loop_spec fuel fd err h p P 0 hr (Nat.zero_le _) (by omega)
  have hk : k = P.length := hall hready hwr
  subst hk
  refine ⟨fd1.close, err1, evs, ?_, List.length_pos.mpr hP, ?_, hcl, ?_⟩
  · unfold Wayland_data_source_send Wayland_source_send
    simp only [hconv, find_entry _ _ _ _ hf he, Option.some_bind, hd, Option.map_some', hl,
      Option.getD_some, heq]
  · simp [Fd.close, htr]
  · simpa using hacc

/-- Witness for C21: source 1 of the example world holds the bytes 104, 105 under the
canonical text label; the alias "STRING" is offered for that entry and is served. -/
theorem advertised_labels_served_witness :
    Labelled (exampleWorld.sources 1).mimes ∧
    mime_data_list_find (exampleWorld.sources 1).mimes exampleTextMime = some 0 ∧
    Wayland_convert_mime_type exampleTextMime exampleTextMime = exampleTextMime ∧
    Call.wl_data_source_offer (exampleWorld.sources 1).source (some "STRING") ∈
      offer_calls exampleTextMime (exampleWorld.sources 1).source
        [{ mime_type := some "text/plain;charset=utf-8", data := some 0, length := 2 }] ∧
    ∃ (fd1 : Fd) (err1 : SDL_Error) (evs : List FdEvent),
      Wayland_data_source_send exampleTextMime 3 exampleFd none exampleWorld.heap
        (exampleWorld.sources 1) "STRING" =
        some ((([104, 105] : List Uint8).length : Int), fd1, err1) ∧
      0 < ([104, 105] : List Uint8).length ∧
      fd1.trace = exampleFd.trace ++ evs ++ [FdEvent.close] ∧ FdEvent.close ∉ evs ∧
      accepted evs = [104, 105] :=
  ⟨example_source_1_labelled, by decide, by decide, by decide,
    advertised_labels_served exampleTextMime 3 exampleFd none exampleWorld.heap
      (exampleWorld.sources 1) exampleTextMime "STRING" 0
      { mime_type := some "text/plain;charset=utf-8", data := some 0, length := 2 } 0
      [104, 105] example_source_1_labelled (by decide) (by decide) (by decide) rfl
      (by decide) rfl (by decide) (by decide) (fun _ => by simp [exampleFd])
      (fun _ => by simp [exampleFd, PIPE_BUF]) (by decide)⟩

/-! ## C22: a failed label allocation -/

/-- C22 fails on the code.  The store holds one entry, labelled "text/html"; the label
"a" is added with the two bytes of block 0 as payload, and the copy of the payload and the
entry are allocated but the copy of the label is not.  The call returns the out-of-memory
status, and yet the store has a new entry in front, without label and holding the copy of
the payload: the store is no longer labelled. -/
theorem add_label_failure_changes_store :
    mime_data_list_add { buffer := true, entry := true, label := false, junk := 0 }
        { blocks := [some [7, 8]] }
        [{ mime_type := some "text/html", data := none, length := 0 }] "a" (some 0) 2 =
      (SDL_OutOfMemory,
        [{ mime_type := none, data := some 1, length := 2 },
          { mime_type := some "text/html", data := none, length := 0 }],
        { blocks := [some [7, 8], some [7, 8]] }) ∧
    ¬ Labelled (mime_data_list_add
        { buffer := true, entry := true, label := false, junk := 0 }
        { blocks := [some [7, 8]] }
        [{ mime_type := some "text/html", data := none, length := 0 }] "a" (some 0) 2).2.1 ∧
    (mime_data_list_add { buffer := false, entry := true, label := true, junk := 0 }
        { blocks := [some [7, 8]] }
        [{ mime_type := some "text/html", data := none, length := 0 }] "a" (some 0) 2).2.1 =
      [{ mime_type := some "text/html", data := none, length := 0 }] ∧
    (mime_data_list_add { buffer := true, entry := false, label := true, junk := 0 }
        { blocks := [some [7, 8]] }
        [{ mime_type := some "text/html", data := none, length := 0 }] "a" (some 0) 2).2.1 =
      [{ mime_type := some "text/html", data := none, length := 0 }] := by
  refine ⟨by decide, ?_, by decide, by decide⟩
  intro hlab
  exact hlab _ (List.mem_cons_self _ _) rfl

/-! ## C23: a failed allocation in the receive loop -/

/-- C23 fails on the code.  The peer sends the bytes 1, 2 and then the byte 3.  When the
allocation for the second chunk fails, `Wayland_data_offer_receive` returns a buffer that
holds the two bytes 1, 2 and reports the length 3; when the allocation for the first chunk
fails, it returns no buffer and reports the length 2. -/
theorem receive_length_after_failed_allocation :
    receive_buffer (Wayland_data_offer_receive exampleAllocSecondFails 3
      (some exampleReadFd) none { blocks := [] } (some exampleOffer) exampleTextMime false) =
      some (some [1, 2], 3) ∧
    receive_buffer (Wayland_data_offer_receive exampleAllocFails 3
      (some exampleReadFd) none { blocks := [] } (some exampleOffer) exampleTextMime false) =
      some (none, 2) ∧
    receive_outcome (Wayland_data_offer_receive exampleAllocFails 3
      (some exampleReadFd) none { blocks := [] } (some exampleOffer) exampleTextMime false) =
      some (none, 2, some SDL_ENOMEM) := by
  decide

end Wayland
